import Mathlib

/-!
# gobkc/sqlx: the PostgreSQL statement builder (`pgsql.go`)

A shallow embedding of the fluent builder of `pgsql.go`.

* Go strings and `bytes.Buffer`s are Lean `String`s; `WriteString` is `++`.
* `interface{}` arguments are values of the type `Value`.
* The receiver `*PgTable` embeds `*Pg`, which embeds `*meta`; every method reads and
  writes the `meta` record only, so a method is a function `meta → meta`
  (builder calls) or `meta → Outcome` (terminal calls).
* A nil slice and an empty slice are both the empty list: `where` is only ever written by
  `append` of one element (non-nil afterwards) and by `clear` (nil afterwards).
* The database handle is an oracle `DB` telling, for each statement text, whether
  `PrepareContext`, `ExecContext` and `QueryRowContext(...).Scan` succeed; the calls made
  are recorded in a trace of `Event`s. The calls are made with `p.ctx`; with the nil
  context of a cleared accumulator `PrepareContext` on the open handle panics and nothing
  is prepared.
* The query side used by `Find` is an oracle `RowsDB`: the result set of `QueryContext`,
  and the answers of `row.Scan`, `json.Marshal` and `json.Unmarshal`.
* The `dest interface{}` argument is a value of the type `Dest`, which keeps what `reflect`
  reads of it: the kind, the fields with their tags and types, whether they are exported,
  and the current values. A field value is a scalar, or `null` for a nil pointer; the
  value of a non-nil pointer is that of its pointee.
-/

namespace Sqlx

set_option maxRecDepth 100000

/-! ## Data model -/

/-- A Go value passed as `interface{}`. -/
inductive Value where
  | int (n : Int)
  | str (s : String)
  | bool (b : Bool)
  | time (t : String)
  | null
  deriving DecidableEq, Repr

/-- The constants `storageTypeWhereAnd`, `storageTypeWhereOr`, `storageTypeSaveData`. -/
inductive storageType where
  | storageTypeWhereAnd
  | storageTypeWhereOr
  | storageTypeSaveData
  deriving DecidableEq, Repr

/-- The struct `storage`: one accumulated predicate. -/
structure storage where
  storageType : storageType
  bucket : String
  argc : List Value
  deriving DecidableEq, Repr

/-- The constants `opTypeQuery` ... `opTypeSaveDec`. -/
inductive opType where
  | opTypeQuery
  | opTypeCount
  | opTypeSum
  | opTypeAvg
  | opTypeCreate
  | opTypeDelete
  | opTypeSave
  | opTypeSaveInt
  | opTypeSaveDec
  deriving DecidableEq, Repr

/-- The struct `meta`, the accumulator. `ctx` is `true` when a context has been set
(`context.Background()`), `false` for the nil context of the zero value. -/
structure meta where
  dbName : String
  tableName : String
  fields : String
  where_ : List storage
  sort : String
  limit : Int
  offset : Int
  group : String
  retryTimes : Nat
  storageCursor : Nat
  filler : List Value
  ctx : Bool
  deriving DecidableEq, Repr

/-- The zero value `meta{}`, which `clear` installs. -/
def meta.zero : meta :=
  { dbName := "", tableName := "", fields := "", where_ := [], sort := "", limit := 0,
    offset := 0, group := "", retryTimes := 0, storageCursor := 0, filler := [],
    ctx := false }

/-! ## Go library functions -/

/-- The scanning loop of `strings.ReplaceAll` for a non-empty `old`: `skip` counts the
characters of a match that are still to be dropped. -/
def replaceAllGo (old new : List Char) : Nat → List Char → List Char
  | _, [] => []
  | skip + 1, _ :: cs => replaceAllGo old new skip cs
  | 0, c :: cs =>
    if old.isPrefixOf (c :: cs) then new ++ replaceAllGo old new (old.length - 1) cs
    else c :: replaceAllGo old new 0 cs

/-- The function `strings.ReplaceAll(s, old, new)`, for a non-empty `old`: the
non-overlapping occurrences of `old`, found left to right, are replaced by `new`. -/
def replaceAll (s old new : String) : String :=
  String.mk (replaceAllGo old.data new.data 0 s.data)

/-- The function `strings.Join(elems, sep)`. -/
def Join : List String → String → String
  | [], _ => ""
  | [a], _ => a
  | a :: b :: rest, sep => a ++ sep ++ Join (b :: rest) sep

/-- The text of `fmt.Sprintf("$%d", n)`. -/
def dollar (n : Nat) : String := "$" ++ toString n

/-- The function `strconv.FormatInt(n, 10)`. -/
def FormatInt (n : Int) : String := toString n

/-! ## Builder calls -/

/-- The method `(*Pg).Table`. -/
def Pg.Table (tableName : String) (p : meta) : meta :=
  { p with tableName := tableName, fields := "*", ctx := true }

/-- The method `(*Pg).clear`. -/
def Pg.clear (_p : meta) : meta := meta.zero

/-- The method `(*PgTable).Select`. -/
def PgTable.Select (fields : String) (p : meta) : meta :=
  { p with fields := fields }

/-- The method `(*PgTable).Where`. -/
def PgTable.Where (where_ : String) (argc : List Value) (p : meta) : meta :=
  { p with where_ := p.where_ ++ [⟨.storageTypeWhereAnd, where_, argc⟩] }

/-- The method `(*PgTable).WhereOr`. -/
def PgTable.WhereOr (where_ : String) (argc : List Value) (p : meta) : meta :=
  { p with where_ := p.where_ ++ [⟨.storageTypeWhereOr, where_, argc⟩] }

/-- The method `(*PgTable).Sort`. -/
def PgTable.Sort (filed sortBy : String) (p : meta) : meta :=
  { p with sort := "" ++ " ORDER BY " ++ filed ++ " " ++ sortBy }

/-- The method `(*PgTable).Offset`. -/
def PgTable.Offset (offset : Int) (p : meta) : meta :=
  { p with offset := offset }

/-- The method `(*PgTable).Limit`. -/
def PgTable.Limit (limit : Int) (p : meta) : meta :=
  { p with limit := limit }

/-- The method `(*PgTable).Group`. -/
def PgTable.Group (group : String) (p : meta) : meta :=
  { p with group := group }

/-! ## Rendering -/

/-- The method `(*PgTable).parseTableName`. -/
def PgTable.parseTableName (p : meta) : String :=
  let cond := ""
  if p.tableName ≠ "" then
    let cond := cond ++ "\""
    let cond := cond ++ p.tableName
    let cond := cond ++ "\""
    cond
  else cond

/-- The body of the `for _, row := range p.meta.where` loop of `parseWhere`, with the
three variables it updates: the cursor, the buffer `cond` and the argument list. -/
def PgTable.parseWhereLoop :
    List storage → Nat → String → List Value → Nat × String × List Value
  | [], storageCursor, cond, filler => (storageCursor, cond, filler)
  | row :: rest, storageCursor, cond, filler =>
    let storageCursor := storageCursor + 1
    let cond :=
      if row.storageType = .storageTypeWhereOr ∧ cond.length ≠ 0 then cond ++ " OR " else cond
    let cond :=
      if row.storageType = .storageTypeWhereAnd ∧ cond.length ≠ 0 then cond ++ " AND "
      else cond
    let tag := dollar storageCursor
    let cond := cond ++ replaceAll row.bucket "?" tag
    let filler := filler ++ row.argc
    PgTable.parseWhereLoop rest storageCursor cond filler

/-- The method `(*PgTable).parseWhere`: the rendered clause and the updated accumulator. -/
def PgTable.parseWhere (p : meta) : String × meta :=
  let r := PgTable.parseWhereLoop p.where_ p.storageCursor "" p.filler
  (r.2.1, { p with storageCursor := r.1, filler := r.2.2 })

/-- The `where := p.parseWhere(); if where.Len() != 0 ...` block shared by the cases of
`parseSQL`. -/
def PgTable.writeWhere (cond : String) (p : meta) : String × meta :=
  let r := PgTable.parseWhere p
  if r.1.length ≠ 0 then ((cond ++ " WHERE ") ++ r.1, r.2) else (cond, r.2)

/-- The method `(*PgTable).parseSQL`: the statement text and the updated accumulator. -/
def PgTable.parseSQL (op : opType) (p : meta) : String × meta :=
  let tableName := PgTable.parseTableName p
  let cond := ""
  match op with
  | .opTypeQuery =>
    let cond := cond ++ "SELECT "
    let cond := cond ++ p.fields
    let cond := cond ++ " FROM "
    let cond := cond ++ tableName
    let r := PgTable.writeWhere cond p
    let cond := r.1
    let p := r.2
    let cond := if p.group ≠ "" then (cond ++ " GROUP BY ") ++ p.group else cond
    let cond := if p.sort.length ≠ 0 then cond ++ p.sort else cond
    let cond := if p.offset > 0 then (cond ++ " OFFSET ") ++ FormatInt p.offset else cond
    let cond := if p.limit > 0 then (cond ++ " LIMIT ") ++ FormatInt p.limit else cond
    (cond, p)
  | .opTypeCount =>
    let cond := cond ++ "SELECT "
    let cond := cond ++ p.fields
    let cond := cond ++ " FROM "
    let cond := cond ++ tableName
    PgTable.writeWhere cond p
  | .opTypeSum =>
    let cond := cond ++ "SELECT SUM("
    let cond := cond ++ p.fields
    let cond := cond ++ ") FROM "
    let cond := cond ++ tableName
    PgTable.writeWhere cond p
  | .opTypeAvg =>
    let cond := cond ++ "SELECT AVG("
    let cond := cond ++ p.fields
    let cond := cond ++ ") FROM "
    let cond := cond ++ tableName
    PgTable.writeWhere cond p
  | .opTypeCreate =>
    let cond := cond ++ "INSERT INTO "
    let cond := cond ++ tableName
    let cond := cond ++ "$FIELDS VALUES $VALUES"
    (cond, p)
  | .opTypeSave =>
    let cond := cond ++ "UPDATE "
    let cond := cond ++ tableName
    let cond := cond ++ " SET $FIELDS = $VALUES"
    PgTable.writeWhere cond p
  | .opTypeDelete =>
    let cond := cond ++ "DELETE FROM "
    let cond := cond ++ tableName
    PgTable.writeWhere cond p
  | .opTypeSaveInt =>
    let cond := cond ++ "UPDATE "
    let cond := cond ++ tableName
    let cond := cond ++ " SET $FIELDS = $FIELDS + 1"
    PgTable.writeWhere cond p
  | .opTypeSaveDec =>
    let cond := cond ++ "UPDATE "
    let cond := cond ++ tableName
    let cond := cond ++ " SET $FIELDS = $FIELDS - 1"
    PgTable.writeWhere cond p

/-! ## The database handle and terminal calls -/

/-- The answers of the database handle `p.db`: `PrepareContext` and `ExecContext` give
`none` for success and `some e` for the error text `e`; `QueryRowScan` is
`stmt.QueryRowContext(ctx, args...).Scan(dst)`, giving the scanned integer or an error. -/
structure DB where
  PrepareContext : String → Option String
  ExecContext : String → List Value → Option String
  QueryRowScan : String → List Value → Except String Int

/-- One call made on the database handle. -/
inductive Event where
  | prepare (sql : String)
  | exec (sql : String) (args : List Value)
  | queryRow (sql : String) (args : List Value)
  | query (sql : String) (args : List Value)
  deriving DecidableEq, Repr

/-- How a terminal call ends: it returns `nil`, returns an error with the given text, or
panics (inside `reflect`, or inside `PrepareContext` on a nil context). -/
inductive Ret where
  | nil
  | error (msg : String)
  | panic
  deriving DecidableEq, Repr

/-- The observable result of a terminal call: how it ended, the calls made on the database
handle in order, the accumulator left behind, and the integer written through the pointer
argument of `Count`, `Sum` and `Avg`. -/
structure Outcome where
  ret : Ret
  trace : List Event
  next : meta
  out : Option Int
  deriving DecidableEq, Repr

/-- The tail shared by `Count`, `Sum` and `Avg` after `defer p.clear()`:
`p.db.PrepareContext(p.ctx, sql)`, then `QueryRowContext(p.ctx, ...).Scan`. `name` is the
prefix of the error texts. With the nil context `PrepareContext` panics (`database/sql`
calls `ctx.Done()`) before anything is prepared; the deferred `clear` runs. -/
def PgTable.queryRowTail (name : String) (db : DB) (sql : String) (p : meta) : Outcome :=
  if p.ctx then
    match db.PrepareContext sql with
    | some e => ⟨.error (name ++ ":prepare sql error:" ++ e), [.prepare sql], Pg.clear p, none⟩
    | none =>
      match db.QueryRowScan sql p.filler with
      | .error e =>
        ⟨.error (name ++ ":query row context error:" ++ e),
          [.prepare sql, .queryRow sql p.filler], Pg.clear p, none⟩
      | .ok v => ⟨.nil, [.prepare sql, .queryRow sql p.filler], Pg.clear p, some v⟩
  else ⟨.panic, [], Pg.clear p, none⟩

/-- The tail shared by `Delete`, `SetInc` and `SetDec` (and `Save`, `Update`) after
`defer p.clear()`: `p.db.PrepareContext(p.ctx, sql)`, then `ExecContext(p.ctx, args...)`.
With the nil context `PrepareContext` panics (`database/sql` calls `ctx.Done()`) before
anything is prepared; the deferred `clear` runs. -/
def PgTable.execTail (name : String) (db : DB) (sql : String) (args : List Value)
    (p : meta) : Outcome :=
  if p.ctx then
    match db.PrepareContext sql with
    | some e => ⟨.error (name ++ ":prepare sql error:" ++ e), [.prepare sql], Pg.clear p, none⟩
    | none =>
      match db.ExecContext sql args with
      | some e =>
        ⟨.error (name ++ ":exec context:" ++ e), [.prepare sql, .exec sql args], Pg.clear p,
          none⟩
      | none => ⟨.nil, [.prepare sql, .exec sql args], Pg.clear p, none⟩
  else ⟨.panic, [], Pg.clear p, none⟩

/-- The method `(*PgTable).Count`. -/
def PgTable.Count (db : DB) (p : meta) : Outcome :=
  let p := if p.fields = "*" then { p with fields := "COUNT(*)" } else p
  let r := PgTable.parseSQL .opTypeCount p
  PgTable.queryRowTail "count" db r.1 r.2

/-- The method `(*PgTable).Sum`. The early return precedes `defer p.clear()`. -/
def PgTable.Sum (db : DB) (p : meta) : Outcome :=
  if p.fields = "*" then
    ⟨.error "sum:please use 'Select(fieldName)' to set the sum field", [], p, none⟩
  else
    let r := PgTable.parseSQL .opTypeSum p
    PgTable.queryRowTail "sum" db r.1 r.2

/-- The method `(*PgTable).Avg`. The early return precedes `defer p.clear()`, and the
statement is assembled with `opTypeSum`, as in the source. -/
def PgTable.Avg (db : DB) (p : meta) : Outcome :=
  if p.fields = "*" then
    ⟨.error "avg:please use 'Select(fieldName)' to set the avg field", [], p, none⟩
  else
    let r := PgTable.parseSQL .opTypeSum p
    PgTable.queryRowTail "avg" db r.1 r.2

/-- The method `(*PgTable).Delete`. The check follows `parseSQL` and `defer p.clear()`. -/
def PgTable.Delete (db : DB) (p : meta) : Outcome :=
  let r := PgTable.parseSQL .opTypeDelete p
  let sql := r.1
  let p := r.2
  if p.where_.isEmpty then
    ⟨.error "delete:must have deletion condition", [], Pg.clear p, none⟩
  else PgTable.execTail "delete" db sql p.filler p

/-- The method `(*PgTable).SetInc`. -/
def PgTable.SetInc (db : DB) (field : String) (p : meta) : Outcome :=
  let r := PgTable.parseSQL .opTypeSaveInt p
  let sqlStr := replaceAll r.1 "$FIELDS" field
  PgTable.execTail "save inc" db sqlStr r.2.filler r.2

/-- The method `(*PgTable).SetDec`. -/
def PgTable.SetDec (db : DB) (field : String) (p : meta) : Outcome :=
  let r := PgTable.parseSQL .opTypeSaveDec p
  let sqlStr := replaceAll r.1 "$FIELDS" field
  PgTable.execTail "save dec" db sqlStr r.2.filler r.2

/-! ## Destinations and `Save` -/

/-- What `reflect` reads of one struct field: its name, the `json` and `pri` keys of its tag
(`Tag.Get` gives the empty string for an absent key), the text of its type, and whether it
is exported (`PkgPath` is empty); `Interface()` panics on the value of a field that is
not. -/
structure Field where
  name : String
  json : String
  pri : String
  typ : String
  exported : Bool
  deriving DecidableEq, Repr

/-- The shapes of the `dest interface{}` argument that `reflect` tells apart.

* `structPtr fs`: a non-nil pointer to a struct, with its fields and their current values
  in declaration order;
* `structSlicePtr ty rows`: a non-nil pointer to a slice whose element type is the struct
  type `ty`; each row holds the values of one element, one per field of `ty`;
* `plainSlicePtr vals`: a non-nil pointer to a slice whose elements are not structs;
* `mapPtr entries`: a non-nil pointer to a map, with its entries in iteration order;
* `otherPtr`: a pointer to anything else (`*int`, `**T`, ...), or a nil pointer to
  anything but a struct;
* `nonPtr`: a value that is no pointer and whose type has no struct element type: a struct
  or a scalar passed by value, a slice of `int`, ...;
* `nilStructPtr ty`: a nil pointer to the struct type `ty`;
* `containerVal ty`: a slice, array, map or channel passed by value whose element type is
  the struct type `ty` (`reflect.TypeOf(dest).Elem()` is `ty`);
* `untypedNil`: the nil interface, for which `reflect.TypeOf(dest)` is nil. -/
inductive Dest where
  | structPtr (fs : List (Field × Value))
  | structSlicePtr (ty : List Field) (rows : List (List Value))
  | plainSlicePtr (vals : List Value)
  | mapPtr (entries : List (Value × Value))
  | otherPtr
  | nonPtr
  | nilStructPtr (ty : List Field)
  | containerVal (ty : List Field)
  | untypedNil
  deriving DecidableEq, Repr

/-- How `checkIsSlice` and `checkUpdateType` end: they return their flag and their error
(if any), or panic in `reflect.TypeOf(dest).Kind()` on the nil interface. -/
inductive Checked where
  | returns (flag : Bool) (err : Option String)
  | panics
  deriving DecidableEq, Repr

/-- The method `(*PgTable).checkIsSlice`: `isSlice` and the error, if any. The inner switch
is on `reflect.ValueOf(dest).Elem().Kind()`, which is `Invalid` for a nil pointer. -/
def PgTable.checkIsSlice (dest : Dest) : Checked :=
  match dest with
  | .structSlicePtr _ _ => .returns true none
  | .plainSlicePtr _ => .returns true none
  | .structPtr _ => .returns false none
  | .mapPtr _ => .returns false (some "checkIsSlice:dest must be a slice/struct pointer")
  | .otherPtr => .returns false (some "checkIsSlice:dest must be a slice/struct pointer")
  | .nonPtr => .returns false (some "checkIsSlice:dest must be a slice/struct pointer")
  | .nilStructPtr _ => .returns false (some "checkIsSlice:dest must be a slice/struct pointer")
  | .containerVal _ => .returns false (some "checkIsSlice:dest must be a slice/struct pointer")
  | .untypedNil => .panics

/-- The variables of the loops of `Save`. -/
structure SaveVars where
  insertNum : Nat
  fieldList : List String
  valueList : List String
  insertArgs : List Value
  deriving DecidableEq, Repr

/-- The fields of a struct that can be read, each with what
`reflect.ValueOf(metaElem).Elem().Field(i).Interface()` gives: the value of the field, or
`none` when the call panics because the field is not exported. -/
def fieldValues (fs : List (Field × Value)) : List (Field × Option Value) :=
  fs.map fun fv => (fv.1, if fv.1.exported then some fv.2 else none)

/-- The inner loop `for curRowsNum < rowsNum` of `Save` over the fields of one record;
`curColumnsNum` is the index of the record, `curValueList` the value positions of the
record so far. Each field comes with what `Interface()` gives for its value, `none` when
that call panics; the call is made for the fields without a `pri` tag only. The loop
returns the updated variables and `curValueList`, or `none` when it panics. -/
def PgTable.saveFields (curColumnsNum : Nat) :
    List (Field × Option Value) → SaveVars → List String → Option (SaveVars × List String)
  | [], v, curValueList => some (v, curValueList)
  | (obj, value) :: rest, v, curValueList =>
    let insertNum := v.insertNum + 1
    let jsonName := if obj.json = "" then obj.name else obj.json
    let fieldList := if curColumnsNum = 0 then v.fieldList ++ [jsonName] else v.fieldList
    if obj.pri ≠ "" then
      PgTable.saveFields curColumnsNum rest
        { v with insertNum := insertNum - 1, fieldList := fieldList }
        (curValueList ++ ["DEFAULT"])
    else
      match value with
      | none => none
      | some value =>
        PgTable.saveFields curColumnsNum rest
          { v with insertNum := insertNum, fieldList := fieldList,
                   insertArgs := v.insertArgs ++ [value] }
          (curValueList ++ [dollar insertNum])

/-- The outer loop `for curColumnsNum < columnsNum` of `Save` over the records. -/
def PgTable.saveRows : List (List (Field × Option Value)) → Nat → SaveVars → Option SaveVars
  | [], _, v => some v
  | row :: rest, curColumnsNum, v =>
    match PgTable.saveFields curColumnsNum row v [] with
    | none => none
    | some r =>
      PgTable.saveRows rest (curColumnsNum + 1)
        { r.1 with valueList := r.1.valueList ++ [Join r.2 ","] }

/-- The records that the loops of `Save` visit, or `none` when `NumField` panics.

* `isSlice` is true for a pointer to a slice: the records are the elements, read through
  the element type, which must be a struct.
* Otherwise `rowsNum` is `reflect.TypeOf(dest).Elem().NumField()` and there is one record,
  `dest` itself: the struct pointed to; or, for a nil pointer to a struct and for a slice,
  array, map or channel of structs passed by value, the fields of the struct type with no
  value that can be read (`reflect.ValueOf(metaElem).Elem().Field(i)` panics). For any
  other destination `Elem()` or `NumField()` panics. -/
def PgTable.saveRecords (dest : Dest) : Option (List (List (Field × Option Value))) :=
  match dest with
  | .structPtr fs => some [fieldValues fs]
  | .structSlicePtr ty rows => some (rows.map fun row => fieldValues (ty.zip row))
  | .nilStructPtr ty => some [ty.map fun f => (f, none)]
  | .containerVal ty => some [ty.map fun f => (f, none)]
  | .plainSlicePtr _ => none
  | .mapPtr _ => none
  | .otherPtr => none
  | .nonPtr => none
  | .untypedNil => none

/-- The statement text of `Save` from the template and the two lists. -/
def PgTable.saveText (sql : String) (fieldList valueList : List String) : String :=
  let sqlStr := replaceAll sql "$FIELDS" ("(" ++ Join fieldList "," ++ ")")
  replaceAll sqlStr "$VALUES" ("(" ++ Join valueList "),(" ++ ")")

/-- The part of `Save` between `defer p.clear()` and `PrepareContext`, for the template
`sql`: the statement text `sqlStr` and the argument list `insertArgs`, or `none` when
`reflect` panics. The error of `checkIsSlice` is built and dropped (`fmt.Errorf` without
`return`). -/
def PgTable.saveBuild (sql : String) (dest : Dest) : Option (String × List Value) :=
  match PgTable.checkIsSlice dest with
  | .panics => none
  | .returns _isSlice _err =>
    match PgTable.saveRecords dest with
    | none => none
    | some rows =>
      match PgTable.saveRows rows 0 ⟨0, [], [], []⟩ with
      | none => none
      | some v => some (PgTable.saveText sql v.fieldList v.valueList, v.insertArgs)

/-- The method `(*PgTable).Save`. A panic of `reflect` happens after `defer p.clear()`, which
then runs. -/
def PgTable.Save (db : DB) (dest : Dest) (p : meta) : Outcome :=
  let r := PgTable.parseSQL .opTypeCreate p
  let sql := r.1
  let p := r.2
  match PgTable.saveBuild sql dest with
  | none => ⟨.panic, [], Pg.clear p, none⟩
  | some built => PgTable.execTail "save" db built.1 built.2 p

/-! ## `Update` -/

/-- The method `(*PgTable).checkUpdateType`: `isMap` and the error, if any. -/
def PgTable.checkUpdateType (dest : Dest) : Checked :=
  match dest with
  | .structPtr _ => .returns false none
  | .mapPtr _ => .returns true none
  | .structSlicePtr _ _ =>
    .returns false (some "checkUpdateType:dest must be a map/struct pointer")
  | .plainSlicePtr _ => .returns false (some "checkUpdateType:dest must be a map/struct pointer")
  | .otherPtr => .returns false (some "checkUpdateType:dest must be a map/struct pointer")
  | .nonPtr => .returns false (some "checkUpdateType:dest must be a map/struct pointer")
  | .nilStructPtr _ => .returns false (some "checkUpdateType:dest must be a map/struct pointer")
  | .containerVal _ => .returns false (some "checkUpdateType:dest must be a map/struct pointer")
  | .untypedNil => .panics

/-- The variables of the loops of `Update`; `filler` is `p.filler`. -/
structure UpdateVars where
  updateNum : Nat
  fieldList : List String
  valueList : List String
  filler : List Value
  deriving DecidableEq, Repr

/-- The loop `for ranger.Next()` of `Update` over the entries of a map, in iteration
order. A key that is not a string adds no field name, but still a reference and a value. -/
def PgTable.updateEntries : List (Value × Value) → UpdateVars → UpdateVars
  | [], v => v
  | (key, value) :: rest, v =>
    let updateNum := v.updateNum + 1
    let fieldList :=
      match key with
      | .str realKey => v.fieldList ++ ["\"" ++ realKey ++ "\""]
      | _ => v.fieldList
    PgTable.updateEntries rest
      { updateNum := updateNum, fieldList := fieldList,
        valueList := v.valueList ++ [dollar updateNum], filler := v.filler ++ [value] }

/-- The loop `for curRowsNum < rowsNum` of `Update` over the fields of a struct. Each field
comes with what `Interface()` gives for its value, `none` when that call panics; the call
is made for the fields without a `pri` tag only. The loop returns the updated variables,
or `none` when it panics. -/
def PgTable.updateFields : List (Field × Option Value) → UpdateVars → Option UpdateVars
  | [], v => some v
  | (obj, value) :: rest, v =>
    let updateNum := v.updateNum + 1
    let jsonName := if obj.json = "" then obj.name else obj.json
    if obj.pri ≠ "" then
      PgTable.updateFields rest { v with updateNum := updateNum - 1 }
    else
      match value with
      | none => none
      | some value =>
        PgTable.updateFields rest
          { updateNum := updateNum, fieldList := v.fieldList ++ [jsonName],
            valueList := v.valueList ++ [dollar updateNum], filler := v.filler ++ [value] }

/-- The variables after the loop of `Update` that the destination selects: the map loop for
a pointer to a map; otherwise the struct loop over the fields of
`reflect.TypeOf(dest).Elem()`, with the values of the struct pointed to, or with no value
that can be read for a nil pointer to a struct and for a slice, array, map or channel of
structs passed by value. For any other destination `Elem()` or `NumField()` panics. -/
def PgTable.updateVars (dest : Dest) (init : UpdateVars) : Option UpdateVars :=
  match dest with
  | .mapPtr entries => some (PgTable.updateEntries entries init)
  | .structPtr fs => PgTable.updateFields (fieldValues fs) init
  | .nilStructPtr ty => PgTable.updateFields (ty.map fun f => (f, none)) init
  | .containerVal ty => PgTable.updateFields (ty.map fun f => (f, none)) init
  | .structSlicePtr _ _ => none
  | .plainSlicePtr _ => none
  | .otherPtr => none
  | .nonPtr => none
  | .untypedNil => none

/-- The statement text of `Update` from the template and the two lists. -/
def PgTable.updateText (sql : String) (fieldList valueList : List String) : String :=
  let sqlStr := replaceAll sql "$FIELDS" ("(" ++ Join fieldList "," ++ ")")
  replaceAll sqlStr "$VALUES" ("(" ++ Join valueList "," ++ ")")

/-- The part of `Update` between `defer p.clear()` and `PrepareContext`, for the template
`sql`, the cursor and the argument list that `parseSQL` left: the statement text `sqlStr`
and the argument list `p.filler`, or `none` when `reflect` panics. The error of
`checkUpdateType` is built and dropped (`fmt.Errorf` without `return`). -/
def PgTable.updateBuild (sql : String) (dest : Dest) (storageCursor : Nat)
    (filler : List Value) : Option (String × List Value) :=
  match PgTable.checkUpdateType dest with
  | .panics => none
  | .returns _isMap _err =>
    match PgTable.updateVars dest ⟨storageCursor, [], [], filler⟩ with
    | none => none
    | some v => some (PgTable.updateText sql v.fieldList v.valueList, v.filler)

/-- The method `(*PgTable).Update`. A panic of `reflect` happens after `defer p.clear()`,
which then runs. -/
def PgTable.Update (db : DB) (dest : Dest) (p : meta) : Outcome :=
  let r := PgTable.parseSQL .opTypeSave p
  let sql := r.1
  let p := r.2
  match PgTable.updateBuild sql dest p.storageCursor p.filler with
  | none => ⟨.panic, [], Pg.clear p, none⟩
  | some built => PgTable.execTail "update" db built.1 built.2 p

/-! ## `Find` -/

/-- The receptacles that `Find` puts in `receiver`, named after the variable whose address
is stored: `var tmp string`, `var intMeta int64`, `var floatMeta float64`,
`var timeMeta = time.Time{}`, `var timeMeta = &time.Time{}`, `tmp := &strMeta`,
`var boolMeta bool`; `nil` is the entry as `make` leaves it. -/
inductive Receptacle where
  | nil
  | string
  | int64
  | float64
  | time
  | timePtr
  | stringPtr
  | bool
  deriving DecidableEq, Repr

/-- The `switch fieldType` of `Find`. -/
def PgTable.receptacleOf (fieldType : String) : Receptacle :=
  if fieldType ∈ ["int", "uint", "int8", "int16", "int32", "int64", "uint8", "uint16",
      "uint32", "uint64"] then .int64
  else if fieldType ∈ ["float32", "float64"] then .float64
  else if fieldType = "time.Time" then .time
  else if fieldType = "*time.Time" then .timePtr
  else if fieldType = "*string" then .stringPtr
  else if fieldType = "bool" then .bool
  else .string

/-- The assignment `receiverMap[column] = i` on a Go map kept as the list of its entries,
with distinct keys. -/
def mapSet : List (String × Nat) → String → Nat → List (String × Nat)
  | [], column, i => [(column, i)]
  | (k, v) :: rest, column, i =>
    if k = column then (k, i) :: rest else (k, v) :: mapSet rest column i

/-- The loop `for i, column := range columns` of `Find`. -/
def PgTable.findColumns :
    List String → Nat → List Receptacle → List (String × Nat) →
      List Receptacle × List (String × Nat)
  | [], _, receiver, receiverMap => (receiver, receiverMap)
  | column :: rest, i, receiver, receiverMap =>
    PgTable.findColumns rest (i + 1) (receiver.set i .string) (mapSet receiverMap column i)

/-- The loop `for i := 0; i < destFieldLen; i++` of `Find` over the fields of the
destination record type. -/
def PgTable.findFields : List Field → List (String × Nat) → List Receptacle → List Receptacle
  | [], _, receiver => receiver
  | obj :: rest, receiverMap, receiver =>
    let tag := if obj.json = "" then obj.name else obj.json
    match receiverMap.lookup tag with
    | none => PgTable.findFields rest receiverMap receiver
    | some receiverIdx =>
      PgTable.findFields rest receiverMap (receiver.set receiverIdx (PgTable.receptacleOf obj.typ))

/-- The scan surface of `Find` for the returned columns and the fields of the destination
record type: `receiver` and `receiverMap`. -/
def PgTable.scanSurface (columns : List String) (ty : List Field) :
    List Receptacle × List (String × Nat) :=
  let c := PgTable.findColumns columns 0 (List.replicate columns.length .nil) []
  (PgTable.findFields ty c.2 c.1, c.2)

/-- The result of `stmt.QueryContext`: the answer of `row.Columns()` and the rows that
`row.Next()` yields, in result order. -/
structure Rows where
  Columns : Except String (List String)
  records : List (List Value)

/-- The encoded form of `packJson` that `json.Marshal` gives, as the object it encodes. -/
abbrev Json := List (String × Value)

/-- The answers of the query side of the database and of the decoding pass:
`QueryContext` gives the result set or an error text; `Scan` is `row.Scan(receiver...)` on
one row, giving the values left in the receptacles; `Marshal` is `json.Marshal(packJson)`;
`Unmarshal` is `json.Unmarshal(jsonByte, v)` on a record with its current field values,
giving the error (if any) and the field values afterwards, which a failed call may have
changed in part; `New` gives the field values of `reflect.New(T)`. -/
structure RowsDB where
  QueryContext : String → List Value → Except String Rows
  Scan : List Receptacle → List Value → Except String (List Value)
  Marshal : List (String × Value) → Except String Json
  Unmarshal : Json → List (Field × Value) → Option String × List (Field × Value)
  New : List Field → List Value

/-- The loop `for key, idx := range receiverMap` of `Find`: the object `packJson`, with the
value that `Scan` left in the receptacle of each column name. -/
def PgTable.packJson (receiverMap : List (String × Nat)) (scanned : List Value) :
    List (String × Value) :=
  receiverMap.map fun kv => (kv.1, scanned.getD kv.2 .null)

/-- One pass of the body of `for row.Next()` up to `json.Unmarshal` into the record `v`:
the error returned (if any) and the record afterwards. -/
def PgTable.findDecode (q : RowsDB) (receiver : List Receptacle)
    (receiverMap : List (String × Nat)) (record : List Value) (v : List (Field × Value)) :
    Option String × List (Field × Value) :=
  match q.Scan receiver record with
  | .error e => (some ("find:scan record error:" ++ e), v)
  | .ok scanned =>
    let packJson := PgTable.packJson receiverMap scanned
    match q.Marshal packJson with
    | .error e => (some ("find:json marshal error:" ++ e), v)
    | .ok jsonByte =>
      match q.Unmarshal jsonByte v with
      | (some e, v) => (some ("find:json unmarshal error:" ++ e), v)
      | (none, v) => (none, v)

/-- Whether the text of a type is that of a pointer type (`*T`). -/
def isPointerType (typ : String) : Bool := typ.data.head? == some '*'

/-- The value `w` written by `json.Unmarshal` through the pointer in field `j` of the one
`metaElem`, as the elements appended before see it. `appended` holds the elements that
`reflect.Append` copied from `metaElem` so far, the last one first; a copy is shallow, so
the elements appended since the pointee was allocated hold the same pointer: they are the
leading elements whose field `j` is not nil. -/
def writeThrough (j : Nat) (w : Value) : List (List Value) → List (List Value)
  | [] => []
  | elem :: rest =>
    if elem.getD j .null = .null then elem :: rest
    else elem.set j w :: writeThrough j w rest

/-- The effect of one `json.Unmarshal` into `metaElem` on the elements appended before,
field by field from index `j`: a field of pointer type that is not nil before the call
(`old`) and not nil after it (`new`) keeps its pointer, and the pointee takes the new
value (`json.Unmarshal` allocates a pointee only for a nil pointer). -/
def shareFields :
    Nat → List (Field × Value) → List (Field × Value) → List (List Value) → List (List Value)
  | _, [], _, appended => appended
  | _, _ :: _, [], appended => appended
  | j, (f, old) :: olds, (_, new) :: news, appended =>
    let appended :=
      if isPointerType f.typ = true ∧ old ≠ .null ∧ new ≠ .null then writeThrough j new appended
      else appended
    shareFields (j + 1) olds news appended

/-- The loop `for row.Next()` of `Find` for a slice destination: every row is decoded into
the one `metaElem`, whose value is then appended to `out`. `appended` holds the elements
appended so far, the last one first; the result is the list of the elements appended, in
the order of the rows. -/
def PgTable.findRows (q : RowsDB) (receiver : List Receptacle)
    (receiverMap : List (String × Nat)) :
    List (List Value) → List (Field × Value) → List (List Value) →
      Except String (List (List Value))
  | [], _, appended => .ok appended.reverse
  | record :: rest, metaElem, appended =>
    match PgTable.findDecode q receiver receiverMap record metaElem with
    | (some e, _) => .error e
    | (none, decoded) =>
      PgTable.findRows q receiver receiverMap rest decoded
        ((decoded.map fun fv => fv.2) :: shareFields 0 metaElem decoded appended)

/-- The observable result of `Find`: how it ended, the calls made on the database handle,
the accumulator left behind and the destination afterwards. -/
structure FindOutcome where
  ret : Ret
  trace : List Event
  next : meta
  dest : Dest
  deriving DecidableEq, Repr

/-- The part of `Find` after `checkIsSlice` succeeded, for the returned `columns` and
`records`: how it ends and the destination afterwards. For a slice, `out` starts as the
value of the destination (`reflect.Indirect(reflect.ValueOf(dest))`), the decoded elements
are appended to it and the destination is set at the end only. For a struct the first row
is decoded into the destination itself. -/
def PgTable.findInto (q : RowsDB) (columns : List String) (records : List (List Value))
    (dest : Dest) : Ret × Dest :=
  match dest with
  | .structSlicePtr ty rows =>
    let s := PgTable.scanSurface columns ty
    match PgTable.findRows q s.1 s.2 records (ty.zip (q.New ty)) [] with
    | .error e => (.error e, dest)
    | .ok appended => (.nil, .structSlicePtr ty (rows ++ appended))
  | .structPtr fs =>
    let s := PgTable.scanSurface columns (fs.map fun fv => fv.1)
    match records with
    | [] => (.nil, dest)
    | record :: _ =>
      match PgTable.findDecode q s.1 s.2 record fs with
      | (some e, fs) => (.error e, .structPtr fs)
      | (none, fs) => (.nil, .structPtr fs)
  | .plainSlicePtr _ => (.panic, dest)
  | .mapPtr _ => (.panic, dest)
  | .otherPtr => (.panic, dest)
  | .nonPtr => (.panic, dest)
  | .nilStructPtr _ => (.panic, dest)
  | .containerVal _ => (.panic, dest)
  | .untypedNil => (.panic, dest)

/-- The method `(*PgTable).Find`. The calls on the database are made with `p.ctx`; with the
nil context `PrepareContext` panics before anything is prepared. The destination is checked
after the statement was prepared, the query made and the columns read. -/
def PgTable.Find (db : DB) (q : RowsDB) (dest : Dest) (p : meta) : FindOutcome :=
  let r := PgTable.parseSQL .opTypeQuery p
  let sql := r.1
  let p := r.2
  if p.ctx then
    match db.PrepareContext sql with
    | some e => ⟨.error ("find:prepare sql error:" ++ e), [.prepare sql], Pg.clear p, dest⟩
    | none =>
      match q.QueryContext sql p.filler with
      | .error e =>
        ⟨.error ("find:query context:" ++ e), [.prepare sql, .query sql p.filler],
          Pg.clear p, dest⟩
      | .ok row =>
        match row.Columns with
        | .error e => ⟨.error e, [.prepare sql, .query sql p.filler], Pg.clear p, dest⟩
        | .ok columns =>
          match PgTable.checkIsSlice dest with
          | .panics => ⟨.panic, [.prepare sql, .query sql p.filler], Pg.clear p, dest⟩
          | .returns _ (some err) =>
            ⟨.error ("find:" ++ err), [.prepare sql, .query sql p.filler], Pg.clear p, dest⟩
          | .returns _ none =>
            let r := PgTable.findInto q columns row.records dest
            ⟨r.1, [.prepare sql, .query sql p.filler], Pg.clear p, r.2⟩
  else ⟨.panic, [], Pg.clear p, dest⟩

/-! ## Descriptions used in the statements -/

/-- A predicate whose template `pre ++ "?" ++ post` has one marker and which has one
argument; `isOr` tells `WhereOr` from `Where`. -/
structure Marked where
  isOr : Bool
  pre : String
  post : String
  arg : Value
  deriving DecidableEq, Repr

/-- The predicate that `Where`/`WhereOr` stores for a `Marked` predicate. -/
def Marked.storage (q : Marked) : storage :=
  ⟨if q.isOr then .storageTypeWhereOr else .storageTypeWhereAnd, q.pre ++ "?" ++ q.post,
    [q.arg]⟩

/-- The builder call that accumulates a `Marked` predicate. -/
def Marked.call (q : Marked) (p : meta) : meta :=
  if q.isOr then PgTable.WhereOr (q.pre ++ "?" ++ q.post) [q.arg] p
  else PgTable.Where (q.pre ++ "?" ++ q.post) [q.arg] p

/-- The chain of calls `Where`/`WhereOr` accumulating the predicates `ps` in order. -/
def accumulate (ps : List Marked) (p : meta) : meta :=
  ps.foldl (fun acc q => q.call acc) p

/-- The separator in front of the predicate at index `i`: none for the first, then
`" OR "` or `" AND "` by the combinator. -/
def sepAt (i : Nat) (isOr : Bool) : String :=
  if i = 0 then "" else if isOr then " OR " else " AND "

/-- The three-predicate chain of `TestPgTable_Find`, as `Marked` predicates. -/
def findPreds : List Marked :=
  [⟨false, "id=", "", .int 62⟩, ⟨true, "id=", "", .int 1⟩, ⟨false, "type=", "", .str "normal"⟩]

/-- The text that `parseWhere` substitutes for the template of `row` at cursor value `n`. -/
def subst (row : storage) (n : Nat) : String := replaceAll row.bucket "?" (dollar n)

/-- The separator of a combinator. -/
def sepOf : storageType → String
  | .storageTypeWhereOr => " OR "
  | .storageTypeWhereAnd => " AND "
  | .storageTypeSaveData => ""

/-- The text of the predicates after the first: each is its separator followed by its
substituted template; `c` is the cursor value before the first of them. -/
def laterText : Nat → List storage → String
  | _, [] => ""
  | c, row :: rest => sepOf row.storageType ++ subst row (c + 1) ++ laterText (c + 1) rest

/-- The clause of a predicate list as a sequence "first substituted template, then
separator and substituted template for each later predicate"; `c` is the cursor value
before rendering. -/
def separatedClause : Nat → List storage → String
  | _, [] => ""
  | c, row :: rest => subst row (c + 1) ++ laterText (c + 1) rest

/-- The arguments of a predicate list, in order. -/
def argsOf (ws : List storage) : List Value := (ws.map fun row => row.argc).flatten

/-- The substitution of a template as section 4.2 of the specification words it, in
place of the single `strings.ReplaceAll` of the code: each `?`, from left to right,
advances the cursor and is replaced by the reference at the new cursor value. Returns the
text and the cursor. -/
def substEach : List Char → Nat → List Char × Nat
  | [], c => ([], c)
  | ch :: cs, c =>
    if ch = '?' then
      let r := substEach cs (c + 1)
      ((dollar (c + 1)).data ++ r.1, r.2)
    else
      let r := substEach cs c
      (ch :: r.1, r.2)

/-- The predicate renderer as section 4.2 of the specification words it (not the code):
the loop of `parseWhere` with the cursor advanced once per marker by `substEach`, in
place of the one increment per predicate and `strings.ReplaceAll`. -/
def perMarkerLoop : List storage → Nat → String → List Value → Nat × String × List Value
  | [], c, cond, filler => (c, cond, filler)
  | row :: rest, c, cond, filler =>
    let cond :=
      if row.storageType = .storageTypeWhereOr ∧ cond.length ≠ 0 then cond ++ " OR " else cond
    let cond :=
      if row.storageType = .storageTypeWhereAnd ∧ cond.length ≠ 0 then cond ++ " AND "
      else cond
    let r := substEach row.bucket.data c
    perMarkerLoop rest r.2 (cond ++ String.mk r.1) (filler ++ row.argc)

/-- A database handle on which every call succeeds and every scan reads `0`. -/
def okDB : DB := ⟨fun _ => none, fun _ _ => none, fun _ _ => .ok 0⟩

/-- The text of the table name as `parseTableName` writes it: the name in double quotes,
and nothing for the empty name. -/
def quoted (tableName : String) : String :=
  if tableName ≠ "" then "\"" ++ tableName ++ "\"" else ""

/-- The optional clause ` WHERE <rendered predicates>`. -/
def whereClause (rendered : String) : String :=
  if rendered ≠ "" then " WHERE " ++ rendered else ""

/-- The chain of `TestPgTable_Find` (first query), before `Sort`, `Offset` and `Limit`:
`Table("app").Where("id=?", 62).WhereOr("id=?", 1).Where("type=?", "normal")`. -/
def findChain : meta :=
  PgTable.Where "type=?" [.str "normal"]
    (PgTable.WhereOr "id=?" [.int 1] (PgTable.Where "id=?" [.int 62] (Pg.Table "app" meta.zero)))

/-- The chain of `TestPgTable_Find` (second query):
`Table("app").WhereOr("id=?", 63).Where("type=?", "normal")`. -/
def findChain2 : meta :=
  PgTable.Where "type=?" [.str "normal"] (PgTable.WhereOr "id=?" [.int 63] (Pg.Table "app" meta.zero))

/-- The chain `Table("app").Where("").Where("id=?", 1)`: the first template is empty. -/
def emptyFirstChain : meta :=
  PgTable.Where "id=?" [.int 1] (PgTable.Where "" [] (Pg.Table "app" meta.zero))

/-- The chain `Table("app").Where("deleted IS NULL").Where("id=?", 5)`: the first template
has no marker and no argument. -/
def noMarkerChain : meta :=
  PgTable.Where "id=?" [.int 5] (PgTable.Where "deleted IS NULL" [] (Pg.Table "app" meta.zero))

/-- The chain `Table("app").Where("a=? AND b=?", 1, 2)`: one template with two markers
and two arguments. -/
def twoMarkerChain : meta :=
  PgTable.Where "a=? AND b=?" [.int 1, .int 2] (Pg.Table "app" meta.zero)

/-- The chain of `TestPgTable_Delete`: `Table("app").Where("id=?", 6)`. -/
def deleteChain : meta := PgTable.Where "id=?" [.int 6] (Pg.Table "app" meta.zero)

/-- The chain `Table("app").Where("")`: one predicate, with an empty template. -/
def emptyTemplateChain : meta := PgTable.Where "" [] (Pg.Table "app" meta.zero)

/-- The chain `Table("").Where("id=?", 6)`: the table name is empty. -/
def emptyTableChain : meta := PgTable.Where "id=?" [.int 6] (Pg.Table "" meta.zero)

/-- The chain `Table("app").Select("id")`. -/
def selectChain : meta := PgTable.Select "id" (Pg.Table "app" meta.zero)

/-- The chain `Table("app").Where("id=?", 1)`, with the default projection. -/
def defaultProjectionChain : meta := PgTable.Where "id=?" [.int 1] (Pg.Table "app" meta.zero)

/-- The chain of `TestPgTable_Find` (first query) up to the terminal call:
`Table("app").Where("id=?", 62).WhereOr("id=?", 1).Where("type=?", "normal")
.Sort("id", "desc").Offset(0).Limit(5)`. -/
def findQuery : meta :=
  PgTable.Limit 5 (PgTable.Offset 0 (PgTable.Sort "id" "desc" findChain))

/-- The chain `Table("app").Where("id=?", 1).Sort("id", "desc").Limit(5)`, with the
default projection. -/
def leftoverChain : meta :=
  PgTable.Limit 5 (PgTable.Sort "id" "desc" (PgTable.Where "id=?" [.int 1] (Pg.Table "app" meta.zero)))

/-- The external name of a field: its `json` tag, else its own name. -/
def externalName (f : Field) : String := if f.json = "" then f.name else f.json

/-- The value positions of the fields of one record when `n` references are in use:
`DEFAULT` for a generated field, the next reference otherwise. -/
def posFrom : Nat → List (Field × Value) → List String
  | _, [] => []
  | n, (f, _) :: rest =>
    if f.pri ≠ "" then "DEFAULT" :: posFrom n rest else dollar (n + 1) :: posFrom (n + 1) rest

/-- The insert statement with the column list `cols` and the value groups `groups`. -/
def insertStatement (tableName : String) (cols groups : List String) : String :=
  "INSERT INTO " ++ quoted tableName ++ "(" ++ Join cols "," ++ ") VALUES ("
    ++ Join groups "),(" ++ ")"

/-- A record of the type `TestTable` of the tests, with the given name, description and
address, the zero generated key and the other fields as `TestPgTable_Save` leaves them. -/
def testRecord (name desc address : String) (created changed : String) : List (Field × Value) :=
  [(⟨"Id", "id", "true", "int", true⟩, .int 0),
   (⟨"Name", "name", "", "string", true⟩, .str name),
   (⟨"Desc", "desc", "", "string", true⟩, .str desc),
   (⟨"Address", "address", "", "string", true⟩, .str address),
   (⟨"CreatedAt", "created_date", "", "time.Time", true⟩, .time created),
   (⟨"ChangedAt", "changed_date", "", "time.Time", true⟩, .time changed),
   (⟨"DeletedAt", "deleted_date", "", "*time.Time", true⟩, .null),
   (⟨"IsFirst", "is_first", "", "bool", true⟩, .bool false)]

open PgTable


/-- A query side on which every call succeeds: the result set has the given columns and
records, `Scan` leaves the row values in the receptacles, `Marshal` keeps the object, and
`Unmarshal` stores each value of the object into the field of that external name,
leaving the other fields as they are. -/
def okRows (columns : List String) (records : List (List Value)) : RowsDB :=
  { QueryContext := fun _ _ => .ok ⟨.ok columns, records⟩
    Scan := fun _ record => .ok record
    Marshal := fun packJson => .ok packJson
    Unmarshal := fun jsonByte v =>
      (none, v.map fun fv =>
        (fv.1, (jsonByte.lookup (if fv.1.json = "" then fv.1.name else fv.1.json)).getD fv.2))
    New := fun ty => ty.map fun _ => .null }

/-- A record type with a generated key and a name, for the examples. -/
def keyNameType : List Field :=
  [⟨"Id", "id", "true", "int", true⟩, ⟨"Name", "name", "", "string", true⟩]

/-- A slice destination of `keyNameType` that already holds one element. -/
def heldSlice : Dest := .structSlicePtr keyNameType [[.int 7, .str "old"]]

/-- A result set of two rows with the columns `id` and `name`. -/
def twoRows : RowsDB := okRows ["id", "name"] [[.int 1, .str "a"], [.int 2, .str "b"]]

/-- The chain of `TestPgTable_Sum`: `Table("app").Select("id").Where("id=?", 62)
.WhereOr("id=?", 1).Where("type=?", "normal")`. -/
def sumChain : meta :=
  PgTable.Where "type=?" [.str "normal"]
    (PgTable.WhereOr "id=?" [.int 1] (PgTable.Where "id=?" [.int 62] selectChain))

/-- Whether the non-empty text `pat` occurs in a text, as lists of characters. -/
def occursIn (pat : List Char) : List Char → Bool
  | [] => false
  | c :: cs => pat.isPrefixOf (c :: cs) || occursIn pat cs

/-- The function `strings.Contains(s, substr)` for a non-empty `substr`. -/
def Contains (s substr : String) : Bool := occursIn substr.data s.data

/-- The chain `Table("app").Where("note='$FIELDS'")`, whose template holds the text
`$FIELDS`. -/
def fieldsTextChain : meta := PgTable.Where "note='$FIELDS'" [] (Pg.Table "app" meta.zero)

/-- The predicate of `TestPgTable_Update`, `Where("id=?", 62)`, as a `Marked` predicate. -/
def updatePreds : List Marked := [⟨false, "id=", "", .int 62⟩]

/-- A partial key-value set for `Update`, in iteration order. -/
def nameAndId : List (String × Value) := [("name", .str "x"), ("id", .int 9)]

/-- The value positions of the records of one bulk insert, group by group, when `n`
references are in use before the first record. -/
def groupsFrom : Nat → List (List (Field × Value)) → List (List String)
  | _, [] => []
  | n, row :: rest =>
    posFrom n row :: groupsFrom (n + (row.filter fun fv => fv.1.pri = "").length) rest

/-- The two records of `TestPgTable_Save`, as a slice destination. -/
def testSlice : Dest :=
  .structSlicePtr ((testRecord "" "" "" "" "").map fun fv => fv.1)
    [(testRecord "aaa" "aaa" "bbb" "t1" "t2").map fun fv => fv.2,
     (testRecord "ddd" "eee" "ggg" "t3" "t4").map fun fv => fv.2]

/-- Whether the destination is a non-nil pointer to a struct. -/
def Dest.pointsToStruct : Dest → Bool
  | .structPtr _ => true
  | _ => false

/-- Whether the destination is a non-nil pointer to a slice. -/
def Dest.pointsToSlice : Dest → Bool
  | .structSlicePtr _ _ => true
  | .plainSlicePtr _ => true
  | _ => false

/-- A record of the type `keyNameType`, with the name `a`. -/
def keyNameRecord : List (Field × Value) :=
  [(⟨"Id", "id", "true", "int", true⟩, .int 0), (⟨"Name", "name", "", "string", true⟩, .str "a")]

/-- A record with a generated key and a field `name` that is not exported and has no tag. -/
def hiddenRecord : List (Field × Value) :=
  [(⟨"Id", "id", "true", "int", true⟩, .int 0), (⟨"name", "", "", "string", false⟩, .str "a")]

/-- A record whose generated key has the external name `$VALUES`. -/
def valuesColumnRecord : List (Field × Value) :=
  [(⟨"Id", "$VALUES", "true", "int", true⟩, .int 0),
   (⟨"Name", "name", "", "string", true⟩, .str "a")]

/-- A record type whose only field is a generated key. -/
def onlyKeyType : List Field := [⟨"Id", "id", "true", "int", true⟩]

/-- The records that the result rows decode to, one after the other, told from the answers
of `Scan`, `Marshal` and `Unmarshal` alone: each row is scanned, packed by column name and
encoded, and the text is decoded into the record that the row before left (`v` for the
first row). `none` when one of the calls fails. -/
def decodedRows (q : RowsDB) (receiver : List Receptacle) (receiverMap : List (String × Nat)) :
    List (List Value) → List (Field × Value) → Option (List (List (Field × Value)))
  | [], _ => some []
  | record :: rest, v =>
    match q.Scan receiver record with
    | .error _ => none
    | .ok scanned =>
      match q.Marshal (PgTable.packJson receiverMap scanned) with
      | .error _ => none
      | .ok jsonByte =>
        match q.Unmarshal jsonByte v with
        | (some _, _) => none
        | (none, v) =>
          match decodedRows q receiver receiverMap rest v with
          | none => none
          | some later => some (v :: later)

/-- Whether no field of pointer type is non-nil both in the record `old` and in the record
`new`. -/
def keepsPointees (old new : List (Field × Value)) : Bool :=
  (old.zip new).all fun pr =>
    !(isPointerType pr.1.1.typ && pr.1.2 != .null && pr.2.2 != .null)

/-- Whether no field of pointer type is non-nil in two consecutive records of the list. -/
def noSharedPointee : List (List (Field × Value)) → Bool
  | [] => true
  | [_] => true
  | a :: b :: rest => keepsPointees a b && noSharedPointee (b :: rest)

/-- A record type with a generated key and an optional note, of type `*string`. -/
def noteType : List Field :=
  [⟨"Id", "id", "true", "int", true⟩, ⟨"Note", "note", "", "*string", true⟩]

/-- A result set of two rows with the columns `id` and `note`, the note not null in
either. -/
def twoNotes : RowsDB := okRows ["id", "note"] [[.int 1, .str "x"], [.int 2, .str "y"]]

/-- A record whose non-generated field has the external name `$VALUES`. -/
def valuesNameRecord : List (Field × Value) :=
  [(⟨"Id", "id", "true", "int", true⟩, .int 0),
   (⟨"Name", "$VALUES", "", "string", true⟩, .str "a")]

/-- The states that the accumulator of a handle can be in between two calls. A new handle
holds the zero value, but for the count of the connection attempts (`retry`); a builder
call takes a state to the next one; a terminal call leaves the zero value (`clear`), or the
state as it was (the usage errors of `Sum` and `Avg`). -/
inductive Reachable : meta → Prop where
  | fresh (k : Nat) : Reachable { meta.zero with retryTimes := k }
  | table (name : String) (p : meta) : Reachable p → Reachable (Pg.Table name p)
  | select (fields : String) (p : meta) : Reachable p → Reachable (PgTable.Select fields p)
  | where_ (t : String) (argc : List Value) (p : meta) :
      Reachable p → Reachable (PgTable.Where t argc p)
  | whereOr (t : String) (argc : List Value) (p : meta) :
      Reachable p → Reachable (PgTable.WhereOr t argc p)
  | sort (filed sortBy : String) (p : meta) :
      Reachable p → Reachable (PgTable.Sort filed sortBy p)
  | offset (n : Int) (p : meta) : Reachable p → Reachable (PgTable.Offset n p)
  | limit (n : Int) (p : meta) : Reachable p → Reachable (PgTable.Limit n p)
  | group (g : String) (p : meta) : Reachable p → Reachable (PgTable.Group g p)

/-- A database handle on which `PrepareContext` fails with the error text `boom`. -/
def failDB : DB := ⟨fun _ => some "boom", fun _ _ => none, fun _ _ => .ok 0⟩

/-- The type strings that the `switch fieldType` of `Find` names. -/
def namedTypes : List String :=
  ["int", "uint", "int8", "int16", "int32", "int64", "uint8", "uint16", "uint32", "uint64",
    "float32", "float64", "time.Time", "*time.Time", "*string", "bool"]

/-- A record type in which two fields have the external name `x`. -/
def twoFieldsOneName : List Field :=
  [⟨"A", "x", "", "int", true⟩, ⟨"B", "x", "", "string", true⟩]

/-- An accumulator on table `app` that holds predicates, a projection, a sort clause, a
group, a limit, an offset, an advanced cursor and collected arguments. -/
def busyState : meta :=
  { findQuery with fields := "id", group := "type", offset := 3, storageCursor := 5,
                   filler := [.int 1, .int 2] }

/-! ## Lemmas on the library functions -/

theorem replaceAllGo_marker_cons (new : List Char) (c : Char) (cs : List Char) :
    replaceAllGo ['?'] new 0 (c :: cs) =
      (if c = '?' then new else [c]) ++ replaceAllGo ['?'] new 0 cs := by
  by_cases h : c = '?'
  · subst h
    simp [replaceAllGo, List.isPrefixOf]
  · have : ('?' == c) = false := by
      simp only [beq_eq_false_iff_ne, ne_eq]
      exact fun e => h e.symm
    simp [replaceAllGo, List.isPrefixOf, h, this]

theorem replaceAllGo_marker_append (new a b : List Char) :
    replaceAllGo ['?'] new 0 (a ++ b) =
      replaceAllGo ['?'] new 0 a ++ replaceAllGo ['?'] new 0 b := by
  induction a with
  | nil => simp [replaceAllGo]
  | cons c cs ih =>
    rw [List.cons_append, replaceAllGo_marker_cons, replaceAllGo_marker_cons, ih,
      List.append_assoc]

theorem replaceAllGo_marker_free (new l : List Char) (h : '?' ∉ l) :
    replaceAllGo ['?'] new 0 l = l := by
  induction l with
  | nil => simp [replaceAllGo]
  | cons c cs ih =>
    have hc : c ≠ '?' := fun e => h (by simp [e])
    have hcs : '?' ∉ cs := fun e => h (List.mem_cons_of_mem _ e)
    rw [replaceAllGo_marker_cons, ih hcs]
    simp [hc]

theorem replaceAll_single_marker (pre post tag : String)
    (hpre : '?' ∉ pre.data) (hpost : '?' ∉ post.data) :
    replaceAll (pre ++ "?" ++ post) "?" tag = pre ++ tag ++ post := by
  apply String.ext
  have h1 : ("?" : String).data = ['?'] := rfl
  simp only [replaceAll, String.data_append, h1]
  rw [replaceAllGo_marker_append, replaceAllGo_marker_append, replaceAllGo_marker_free _ _ hpre,
    replaceAllGo_marker_free _ _ hpost, replaceAllGo_marker_cons]
  simp [replaceAllGo]

theorem join_cons (a : String) (l : List String) : String.join (a :: l) = a ++ String.join l := by
  apply String.ext
  simp [String.data_join]

theorem join_nil : String.join [] = "" := rfl

theorem dollar_length (n : Nat) : (dollar n).length ≠ 0 := by
  have h : ("$" : String).length = 1 := rfl
  simp only [dollar, String.length_append, h]
  omega

theorem Marked.call_where (q : Marked) (p : meta) :
    q.call p = { p with where_ := p.where_ ++ [q.storage] } := by
  unfold Marked.call Marked.storage PgTable.WhereOr PgTable.Where
  cases q.isOr <;> simp

theorem accumulate_eq (ps : List Marked) (p : meta) :
    accumulate ps p = { p with where_ := p.where_ ++ ps.map Marked.storage } := by
  induction ps generalizing p with
  | nil => simp [accumulate]
  | cons q qs ih =>
    have h : accumulate (q :: qs) p = accumulate qs (q.call p) := rfl
    rw [h, ih, Marked.call_where]
    simp

/-- The text that the predicate at index `i` contributes. -/
theorem parseWhereLoop_marked (qs : List Marked)
    (hq : ∀ q ∈ qs, '?' ∉ q.pre.data ∧ '?' ∉ q.post.data)
    (c : Nat) (cond : String) (f : List Value)
    (h0 : c = 0 → cond = "") (h1 : c ≠ 0 → cond.length ≠ 0) :
    PgTable.parseWhereLoop (qs.map Marked.storage) c cond f =
      (c + qs.length,
        cond ++ String.join ((qs.enumFrom c).map fun iq =>
          sepAt iq.1 iq.2.isOr ++ iq.2.pre ++ dollar (iq.1 + 1) ++ iq.2.post),
        f ++ qs.map fun q => q.arg) := by
  induction qs generalizing c cond f with
  | nil => simp [PgTable.parseWhereLoop, join_nil]
  | cons q qs ih =>
    have hq1 := hq q (by simp)
    have hqs : ∀ q ∈ qs, '?' ∉ q.pre.data ∧ '?' ∉ q.post.data :=
      fun x hx => hq x (List.mem_cons_of_mem _ hx)
    simp only [List.map_cons, PgTable.parseWhereLoop, List.enumFrom_cons, join_cons]
    have hsub : replaceAll q.storage.bucket "?" (dollar (c + 1)) =
        q.pre ++ dollar (c + 1) ++ q.post :=
      replaceAll_single_marker _ _ _ hq1.1 hq1.2
    rw [hsub]
    have hsep : (if q.storage.storageType = storageType.storageTypeWhereAnd ∧
          (if q.storage.storageType = storageType.storageTypeWhereOr ∧ cond.length ≠ 0
            then cond ++ " OR " else cond).length ≠ 0
        then (if q.storage.storageType = storageType.storageTypeWhereOr ∧ cond.length ≠ 0
            then cond ++ " OR " else cond) ++ " AND "
        else (if q.storage.storageType = storageType.storageTypeWhereOr ∧ cond.length ≠ 0
            then cond ++ " OR " else cond)) = cond ++ sepAt c q.isOr := by
      by_cases hc : c = 0
      · have hl : cond.length = 0 := by rw [h0 hc]; rfl
        simp [hl, sepAt, hc]
      · have hl := h1 hc
        unfold Marked.storage sepAt
        cases q.isOr <;> simp [hl, hc]
    rw [hsep]
    rw [ih hqs (c + 1) _ _ (by omega) (fun _ => by
      have := dollar_length (c + 1)
      simp only [String.length_append]
      omega)]
    simp only [Prod.mk.injEq, String.append_assoc, List.append_assoc, List.singleton_append,
      Marked.storage, List.length_cons]
    exact ⟨by omega, trivial⟩

/-! ## Claims -/

/-- C1: on a fresh accumulator (no predicate yet, cursor 0, empty argument list), `N`
predicates accumulated with `Where`/`WhereOr`, each with a template `pre?post` of one
marker and with one argument, render to the clause made of the pieces
`separator ++ pre ++ $(i+1) ++ post` for `i = 0, ..., N-1` in accumulation order: exactly
one reference per predicate, numbered `$1, ..., $N` from left to right. The outgoing
argument list is the list of the predicates' arguments in the same order, of length `N`,
and the cursor ends at `N`. -/
theorem parseWhere_single_marker (p0 : meta) (hw : p0.where_ = [])
    (hc : p0.storageCursor = 0) (hf : p0.filler = []) (ps : List Marked)
    (hq : ∀ q ∈ ps, '?' ∉ q.pre.data ∧ '?' ∉ q.post.data) :
    (parseWhere (accumulate ps p0)).1 =
        String.join (ps.enum.map fun iq =>
          sepAt iq.1 iq.2.isOr ++ iq.2.pre ++ dollar (iq.1 + 1) ++ iq.2.post)
      ∧ (parseWhere (accumulate ps p0)).2.filler = ps.map (fun q => q.arg)
      ∧ (parseWhere (accumulate ps p0)).2.filler.length = ps.length
      ∧ (parseWhere (accumulate ps p0)).2.storageCursor = ps.length := by
  have h := parseWhereLoop_marked ps hq 0 "" [] (fun _ => rfl) (fun h => absurd rfl h)
  simp only [parseWhere, accumulate_eq, hw, hc, hf, List.nil_append, h,
    String.empty_append, List.enum, Nat.zero_add, List.length_map, and_self]

/-- C1, at the chain of `TestPgTable_Find` on `Table("app")`: the clause is
`id=$1 OR id=$2 AND type=$3` and the arguments are `[62, 1, "normal"]`. -/
theorem parseWhere_single_marker_witness :
    (∀ q ∈ findPreds, '?' ∉ q.pre.data ∧ '?' ∉ q.post.data)
      ∧ (parseWhere (accumulate findPreds (Pg.Table "app" meta.zero))).1 =
        "id=$1 OR id=$2 AND type=$3"
      ∧ (parseWhere (accumulate findPreds (Pg.Table "app" meta.zero))).2.filler =
        [.int 62, .int 1, .str "normal"] :=
  ⟨by decide,
    (parseWhere_single_marker (Pg.Table "app" meta.zero) rfl rfl rfl findPreds
      (by decide)).1.trans (by decide),
    (parseWhere_single_marker (Pg.Table "app" meta.zero) rfl rfl rfl findPreds
      (by decide)).2.1.trans (by decide)⟩

theorem length_ne_zero_iff (s : String) : s.length ≠ 0 ↔ s ≠ "" := by
  cases s with
  | mk l =>
    cases l with
    | nil => simp
    | cons a l =>
      constructor
      · intro _ h
        have := congrArg String.data h
        simp at this
      · intro _
        simp

theorem subst_length (row : storage) (n : Nat) (h : row.bucket ≠ "") :
    (subst row n).length ≠ 0 := by
  have hd : row.bucket.data ≠ [] := fun e => h (String.ext e)
  cases hb : row.bucket.data with
  | nil => exact absurd hb hd
  | cons ch cs =>
    have hl := dollar_length n
    simp only [subst, replaceAll, hb, String.length_mk]
    rw [replaceAllGo_marker_cons, List.length_append]
    by_cases hc : ch = '?'
    · simp only [hc, if_true]
      have : (dollar n).data.length = (dollar n).length := rfl
      omega
    · simp [hc]

theorem parseWhereLoop_later (ws : List storage) (c : Nat) (cond : String) (f : List Value)
    (h : cond.length ≠ 0) :
    parseWhereLoop ws c cond f = (c + ws.length, cond ++ laterText c ws, f ++ argsOf ws) := by
  induction ws generalizing c cond f with
  | nil => simp [parseWhereLoop, laterText, argsOf]
  | cons row rest ih =>
    have hsep : (if row.storageType = storageType.storageTypeWhereAnd ∧
          (if row.storageType = storageType.storageTypeWhereOr ∧ cond.length ≠ 0
            then cond ++ " OR " else cond).length ≠ 0
        then (if row.storageType = storageType.storageTypeWhereOr ∧ cond.length ≠ 0
            then cond ++ " OR " else cond) ++ " AND "
        else (if row.storageType = storageType.storageTypeWhereOr ∧ cond.length ≠ 0
            then cond ++ " OR " else cond)) = cond ++ sepOf row.storageType := by
      cases row.storageType <;> simp [h, sepOf]
    simp only [parseWhereLoop, hsep]
    rw [ih (c + 1) _ _ (by simp only [String.length_append]; omega)]
    simp only [Prod.mk.injEq, laterText, subst, argsOf, List.map_cons, List.flatten_cons,
      String.append_assoc, List.append_assoc, List.length_cons, and_true]
    omega

theorem parseWhereLoop_cursor_filler (ws : List storage) (c : Nat) (cond : String)
    (f : List Value) :
    (parseWhereLoop ws c cond f).1 = c + ws.length
      ∧ (parseWhereLoop ws c cond f).2.2 = f ++ argsOf ws := by
  induction ws generalizing c cond f with
  | nil => simp [parseWhereLoop, argsOf]
  | cons row rest ih =>
    simp only [parseWhereLoop]
    rw [(ih _ _ _).1, (ih _ _ _).2]
    simp only [argsOf, List.map_cons, List.flatten_cons, List.append_assoc, List.length_cons,
      and_true]
    omega

theorem parseWhere_filler (p : meta) :
    (parseWhere p).2 =
      { p with storageCursor := p.storageCursor + p.where_.length,
               filler := p.filler ++ argsOf p.where_ } := by
  simp only [parseWhere, (parseWhereLoop_cursor_filler _ _ _ _).1,
    (parseWhereLoop_cursor_filler _ _ _ _).2]

/-- C2 (amended): for every predicate list whose first template is not empty, the clause
rendered by `parseWhere` is the first predicate's substituted template with no separator,
whatever its combinator, followed for each later predicate in order by `" OR "` or
`" AND "` according to its combinator and then its substituted template, with no
parentheses added; the arguments are appended in the same order. -/
theorem parseWhere_separated (p : meta) (row : storage) (rest : List storage)
    (hw : p.where_ = row :: rest) (hne : row.bucket ≠ "") :
    (parseWhere p).1 = separatedClause p.storageCursor (row :: rest)
      ∧ (parseWhere p).2.filler = p.filler ++ argsOf (row :: rest) := by
  refine ⟨?_, by rw [parseWhere_filler, hw]⟩
  have hfirst : (subst row (p.storageCursor + 1)).length ≠ 0 := subst_length row _ hne
  simp only [parseWhere, hw, parseWhereLoop, separatedClause]
  have h0 : ("" : String).length = 0 := rfl
  simp only [h0, ne_eq, not_true_eq_false, and_false, if_false, String.empty_append]
  have hfirst2 : (replaceAll row.bucket "?" (dollar (p.storageCursor + 1))).length ≠ 0 := hfirst
  rw [parseWhereLoop_later _ _ _ _ hfirst2]
  rfl

/-- C2, at the chains of `TestPgTable_Find`: `Where("id=?", 62).WhereOr("id=?", 1)
.Where("type=?", "normal")` renders `id=$1 OR id=$2 AND type=$3` with the arguments
`[62, 1, "normal"]`, and `WhereOr("id=?", 63).Where("type=?", "normal")` renders
`id=$1 AND type=$2`. -/
theorem parseWhere_separated_witness :
    (parseWhere findChain).1 = "id=$1 OR id=$2 AND type=$3"
      ∧ (parseWhere findChain).2.filler = [.int 62, .int 1, .str "normal"]
      ∧ (parseWhere findChain2).1 = "id=$1 AND type=$2" :=
  ⟨(parseWhere_separated findChain _ _ rfl (by decide)).1.trans (by decide),
    (parseWhere_separated findChain _ _ rfl (by decide)).2.trans (by decide),
    (parseWhere_separated findChain2 _ _ rfl (by decide)).1.trans (by decide)⟩

/-- C2 fails as stated at `Table("app").Where("").Where("id=?", 1)`: the first predicate
renders to the empty text, so the second one is written without its separator. The
clause is `id=$2`, not ` AND id=$2`. -/
theorem parseWhere_separated_counterexample :
    emptyFirstChain.where_ ≠ []
      ∧ (parseWhere emptyFirstChain).1 = "id=$2"
      ∧ separatedClause emptyFirstChain.storageCursor emptyFirstChain.where_ = " AND id=$2"
      ∧ (parseWhere emptyFirstChain).1 ≠
        separatedClause emptyFirstChain.storageCursor emptyFirstChain.where_ := by
  decide

/-- C3 fails on the code. At `Table("app").Where("deleted IS NULL").Where("id=?", 5)` the
cursor advances for the marker-free first predicate too: the clause is
`deleted IS NULL AND id=$2` with the one argument `[5]`, where substituting marker by
marker gives `deleted IS NULL AND id=$1`. At `Table("app").Where("a=? AND b=?", 1, 2)` both
markers receive the same reference: the clause is `a=$1 AND b=$1` with the two arguments
`[1, 2]`, where substituting marker by marker gives `a=$1 AND b=$2`. -/
theorem parseWhere_per_marker_fails :
    (parseWhere noMarkerChain).1 = "deleted IS NULL AND id=$2"
      ∧ (parseWhere noMarkerChain).2.filler = [.int 5]
      ∧ (perMarkerLoop noMarkerChain.where_ 0 "" []).2.1 = "deleted IS NULL AND id=$1"
      ∧ (parseWhere twoMarkerChain).1 = "a=$1 AND b=$1"
      ∧ (parseWhere twoMarkerChain).2.filler = [.int 1, .int 2]
      ∧ (parseWhere twoMarkerChain).2.storageCursor = 1
      ∧ (perMarkerLoop twoMarkerChain.where_ 0 "" []).2.1 = "a=$1 AND b=$2" := by
  decide

theorem parseTableName_eq (p : meta) : parseTableName p = quoted p.tableName := by
  unfold parseTableName quoted
  by_cases h : p.tableName = "" <;> simp [h]

theorem writeWhere_eq (cond : String) (p : meta) :
    writeWhere cond p = (cond ++ whereClause (parseWhere p).1, (parseWhere p).2) := by
  unfold writeWhere whereClause
  by_cases h : (parseWhere p).1 = ""
  · have hl : ¬ (parseWhere p).1.length ≠ 0 := fun hl => (length_ne_zero_iff _).1 hl h
    simp [h, hl]
  · have hl : (parseWhere p).1.length ≠ 0 := (length_ne_zero_iff _).2 h
    simp [h, hl, String.append_assoc]

theorem append_ne_of_take (a e b : String) (k : Nat) (hk : k ≤ a.data.length)
    (hne : a.data.take k ≠ b.data.take k) : a ++ e ≠ b := by
  intro h
  apply hne
  have hd := congrArg String.data h
  rw [String.data_append] at hd
  rw [← hd, List.take_append_of_le_length hk]

theorem parseWhere_ctx (p : meta) : (parseWhere p).2.ctx = p.ctx := rfl

/-- Only `Table` gives the accumulator a table name, and it sets the context with it: a
state that a handle can be in has the context set as soon as its table name is not
empty. -/
theorem reachable_ctx (p : meta) (h : Reachable p) (ht : p.tableName ≠ "") : p.ctx = true := by
  induction h with
  | fresh k => exact absurd rfl ht
  | table name p _ _ => rfl
  | select fields p _ ih => exact ih ht
  | where_ t argc p _ ih => exact ih ht
  | whereOr t argc p _ ih => exact ih ht
  | sort filed sortBy p _ ih => exact ih ht
  | offset n p _ ih => exact ih ht
  | limit n p _ ih => exact ih ht
  | group g p _ ih => exact ih ht

theorem execTail_trace (name : String) (db : DB) (sql : String) (args : List Value)
    (p : meta) (hc : p.ctx = true) :
    (execTail name db sql args p).trace =
      if (db.PrepareContext sql).isSome then [.prepare sql]
      else [.prepare sql, .exec sql args] := by
  unfold execTail
  rw [if_pos hc]
  cases db.PrepareContext sql with
  | some e => rfl
  | none =>
    cases db.ExecContext sql args with
    | some e => rfl
    | none => rfl

theorem parseSQL_delete (p : meta) :
    parseSQL .opTypeDelete p =
      ("DELETE FROM " ++ quoted p.tableName ++ whereClause (parseWhere p).1,
        (parseWhere p).2) := by
  simp only [parseSQL, writeWhere_eq, parseTableName_eq, String.empty_append]

/-- C4 (amended): `Delete` returns the usage error and makes no call on the database when
no predicate was accumulated. When at least one predicate was accumulated it does not
return that usage error; and when moreover the table name is not empty, the predicates
render to a non-empty text and the context is set (as `Table` leaves it), the statement it
prepares is `DELETE FROM "<table>" WHERE <rendered predicates>`, executed (once prepared)
with the accumulated argument list, to which the predicates' arguments were appended in
order. With predicates but without a context (a handle used again after a terminal call,
with no `Table` call) it panics and prepares nothing; a state that the calls of the
builder can reach with a non-empty table name has the context set (`reachable_ctx`). -/
theorem Delete_statement (db : DB) (p : meta) :
    (p.where_ = [] →
        (Delete db p).ret = .error "delete:must have deletion condition"
          ∧ (Delete db p).trace = [])
      ∧ (p.where_ ≠ [] →
        (Delete db p).ret ≠ .error "delete:must have deletion condition")
      ∧ (p.where_ ≠ [] → p.tableName ≠ "" → (parseWhere p).1 ≠ "" → p.ctx = true →
        (Delete db p).trace =
          if (db.PrepareContext
              ("DELETE FROM \"" ++ p.tableName ++ "\" WHERE " ++ (parseWhere p).1)).isSome
          then [.prepare ("DELETE FROM \"" ++ p.tableName ++ "\" WHERE " ++ (parseWhere p).1)]
          else [.prepare ("DELETE FROM \"" ++ p.tableName ++ "\" WHERE " ++ (parseWhere p).1),
            .exec ("DELETE FROM \"" ++ p.tableName ++ "\" WHERE " ++ (parseWhere p).1)
              (p.filler ++ argsOf p.where_)])
      ∧ (p.where_ ≠ [] → p.ctx = false →
        (Delete db p).ret = .panic ∧ (Delete db p).trace = []) := by
  have hempty : p.where_ ≠ [] → p.where_.isEmpty = false := by
    intro h
    cases hw : p.where_ with
    | nil => exact absurd hw h
    | cons a l => rfl
  refine ⟨?_, ?_, ?_, ?_⟩
  · intro h
    simp [Delete, parseSQL_delete, parseWhere_filler, h]
  · intro h
    simp only [Delete, parseSQL_delete, parseWhere_filler, hempty h, execTail]
    by_cases hctx : p.ctx = true
    · simp only [hctx, if_true]
      cases db.PrepareContext
          ("DELETE FROM " ++ quoted p.tableName ++ whereClause (parseWhere p).1) with
      | some e =>
        simp only [Bool.false_eq_true, if_false, ne_eq, Ret.error.injEq]
        exact append_ne_of_take ("delete" ++ ":prepare sql error:") e
          "delete:must have deletion condition" 8 (by decide) (by decide)
      | none =>
        cases db.ExecContext
            ("DELETE FROM " ++ quoted p.tableName ++ whereClause (parseWhere p).1)
            (p.filler ++ argsOf p.where_) with
        | some e =>
          simp only [Bool.false_eq_true, if_false, ne_eq, Ret.error.injEq]
          exact append_ne_of_take ("delete" ++ ":exec context:") e
            "delete:must have deletion condition" 8 (by decide) (by decide)
        | none => simp
    · simp [hctx]
  · intro h ht hr hctx
    have hs : "DELETE FROM " ++ quoted p.tableName ++ whereClause (parseWhere p).1 =
        "DELETE FROM \"" ++ p.tableName ++ "\" WHERE " ++ (parseWhere p).1 := by
      simp only [quoted, whereClause, ht, hr, ne_eq, not_false_eq_true, if_true]
      apply String.ext
      simp
    simp only [Delete, parseSQL_delete, parseWhere_filler, hempty h, hs, Bool.false_eq_true,
      if_false]
    exact execTail_trace _ _ _ _ _ hctx
  · intro h hctx
    simp only [Delete, parseSQL_delete, parseWhere_filler, hempty h, Bool.false_eq_true,
      if_false]
    simp [execTail, hctx]

/-- C4, at the chain of `TestPgTable_Delete`: `Table("app").Where("id=?", 6).Delete()`
prepares `DELETE FROM "app" WHERE id=$1` and executes it with the arguments `[6]`; on
`Table("app")` alone it returns the usage error and makes no call. -/
theorem Delete_statement_witness :
    (Delete okDB deleteChain).trace =
        [.prepare "DELETE FROM \"app\" WHERE id=$1",
          .exec "DELETE FROM \"app\" WHERE id=$1" [.int 6]]
      ∧ (Delete okDB (Pg.Table "app" meta.zero)).ret = .error "delete:must have deletion condition"
      ∧ (Delete okDB (Pg.Table "app" meta.zero)).trace = [] :=
  ⟨((Delete_statement okDB deleteChain).2.2.1 (by decide) (by decide) (by decide) rfl).trans
      (by decide),
    ((Delete_statement okDB (Pg.Table "app" meta.zero)).1 rfl).1,
    ((Delete_statement okDB (Pg.Table "app" meta.zero)).1 rfl).2⟩

/-- C4 fails as stated at `Table("app").Where("").Delete()`: a predicate was accumulated,
no usage error is returned, and the statement prepared and executed is `DELETE FROM "app"`
with no `WHERE` clause. At `Table("").Where("id=?", 6).Delete()` the statement is
`DELETE FROM  WHERE id=$1`, with no quoted table name. On a handle used again after a
terminal call, `Where("id=?", 6).Delete()` with no `Table` call panics on the nil context
and prepares nothing. -/
theorem Delete_statement_counterexample :
    emptyTemplateChain.where_ ≠ []
      ∧ (Delete okDB emptyTemplateChain).ret = .nil
      ∧ (Delete okDB emptyTemplateChain).trace =
        [.prepare "DELETE FROM \"app\"", .exec "DELETE FROM \"app\"" []]
      ∧ "DELETE FROM \"app\"" ≠
        "DELETE FROM \"" ++ emptyTemplateChain.tableName ++ "\" WHERE "
          ++ (parseWhere emptyTemplateChain).1
      ∧ (Delete okDB emptyTableChain).trace =
        [.prepare "DELETE FROM  WHERE id=$1", .exec "DELETE FROM  WHERE id=$1" [.int 6]]
      ∧ (Delete okDB (PgTable.Where "id=?" [.int 6] (Pg.clear deleteChain))).ret = .panic
      ∧ (Delete okDB (PgTable.Where "id=?" [.int 6] (Pg.clear deleteChain))).trace = [] := by
  decide

/-- C5: when the projection is the default `*`, `Sum` and `Avg` each return their usage
error and make no call on the database; for every other projection neither returns that
usage error. -/
theorem Sum_Avg_usage_error (db : DB) (p : meta) :
    (p.fields = "*" →
        (PgTable.Sum db p).ret = .error "sum:please use 'Select(fieldName)' to set the sum field"
          ∧ (PgTable.Sum db p).trace = []
          ∧ (PgTable.Avg db p).ret = .error "avg:please use 'Select(fieldName)' to set the avg field"
          ∧ (PgTable.Avg db p).trace = [])
      ∧ (p.fields ≠ "*" →
        (PgTable.Sum db p).ret ≠ .error "sum:please use 'Select(fieldName)' to set the sum field"
          ∧ (PgTable.Avg db p).ret ≠ .error "avg:please use 'Select(fieldName)' to set the avg field") := by
  constructor
  · intro h
    simp [PgTable.Sum, PgTable.Avg, h]
  · intro h
    simp only [PgTable.Sum, PgTable.Avg, h, if_false, queryRowTail]
    by_cases hctx : (parseSQL .opTypeSum p).2.ctx = true
    · simp only [hctx, if_true]
      constructor
      · cases db.PrepareContext (parseSQL .opTypeSum p).1 with
        | some e =>
          simp only [ne_eq, Ret.error.injEq]
          exact append_ne_of_take ("sum" ++ ":prepare sql error:") e
            "sum:please use 'Select(fieldName)' to set the sum field" 6 (by decide) (by decide)
        | none =>
          cases db.QueryRowScan (parseSQL .opTypeSum p).1 (parseSQL .opTypeSum p).2.filler with
          | error e =>
            simp only [ne_eq, Ret.error.injEq]
            exact append_ne_of_take ("sum" ++ ":query row context error:") e
              "sum:please use 'Select(fieldName)' to set the sum field" 6 (by decide)
              (by decide)
          | ok v => simp
      · cases db.PrepareContext (parseSQL .opTypeSum p).1 with
        | some e =>
          simp only [ne_eq, Ret.error.injEq]
          exact append_ne_of_take ("avg" ++ ":prepare sql error:") e
            "avg:please use 'Select(fieldName)' to set the avg field" 6 (by decide) (by decide)
        | none =>
          cases db.QueryRowScan (parseSQL .opTypeSum p).1 (parseSQL .opTypeSum p).2.filler with
          | error e =>
            simp only [ne_eq, Ret.error.injEq]
            exact append_ne_of_take ("avg" ++ ":query row context error:") e
              "avg:please use 'Select(fieldName)' to set the avg field" 6 (by decide)
              (by decide)
          | ok v => simp
    · simp [hctx]

/-- C5, at `Table("app")` (default projection: usage errors, no call) and at
`Table("app").Select("id")` (no usage error). -/
theorem Sum_Avg_usage_error_witness :
    ((PgTable.Sum okDB (Pg.Table "app" meta.zero)).ret =
          .error "sum:please use 'Select(fieldName)' to set the sum field"
        ∧ (PgTable.Sum okDB (Pg.Table "app" meta.zero)).trace = []
        ∧ (PgTable.Avg okDB (Pg.Table "app" meta.zero)).ret =
          .error "avg:please use 'Select(fieldName)' to set the avg field"
        ∧ (PgTable.Avg okDB (Pg.Table "app" meta.zero)).trace = [])
      ∧ ((PgTable.Sum okDB selectChain).ret ≠
          .error "sum:please use 'Select(fieldName)' to set the sum field"
        ∧ (PgTable.Avg okDB selectChain).ret ≠
          .error "avg:please use 'Select(fieldName)' to set the avg field") :=
  ⟨(Sum_Avg_usage_error okDB (Pg.Table "app" meta.zero)).1 rfl,
    (Sum_Avg_usage_error okDB selectChain).2 (by decide)⟩

/-- C6 fails on the code: `Avg` assembles its statement with `opTypeSum`. For every
accumulator `Avg` either makes no call (it stops at its usage error, or panics on a nil
context), or prepares the text of the `opTypeSum` case; at `Table("app").Select("id")` it prepares `SELECT SUM(id) FROM "app"`,
where the `opTypeAvg` case of `parseSQL` gives `SELECT AVG(id) FROM "app"`. -/
theorem Avg_prepares_sum_statement :
    (∀ (db : DB) (p : meta), (PgTable.Avg db p).trace = []
        ∨ (PgTable.Avg db p).trace.head? = some (.prepare (parseSQL .opTypeSum p).1))
      ∧ (PgTable.Avg okDB selectChain).trace =
        [.prepare "SELECT SUM(id) FROM \"app\"", .queryRow "SELECT SUM(id) FROM \"app\"" []]
      ∧ (parseSQL .opTypeAvg selectChain).1 = "SELECT AVG(id) FROM \"app\"" := by
  refine ⟨?_, by decide, by decide⟩
  intro db p
  by_cases h : p.fields = "*"
  · left
    simp [PgTable.Avg, h]
  · simp only [PgTable.Avg, h, if_false, queryRowTail]
    by_cases hctx : (parseSQL .opTypeSum p).2.ctx = true
    · right
      simp only [hctx, if_true]
      cases db.PrepareContext (parseSQL .opTypeSum p).1 with
      | some e => rfl
      | none =>
        cases db.QueryRowScan (parseSQL .opTypeSum p).1 (parseSQL .opTypeSum p).2.filler with
        | error e => rfl
        | ok v => rfl
    · left
      simp [hctx]

/-- C7 fails on the code for the usage errors of `Sum` and `Avg`: their early return
precedes `defer p.clear()`. On every accumulator with the default projection `Sum` and
`Avg` leave the accumulator exactly as it was; at `Table("app").Where("id=?", 1)` the
predicate is still accumulated after the call. The usage error of `Delete`, whose check
follows the `defer`, does clear the accumulator. -/
theorem Sum_Avg_usage_error_keeps_accumulator :
    (∀ (db : DB) (p : meta),
        (PgTable.Sum db (PgTable.Select "*" p)).next = PgTable.Select "*" p
          ∧ (PgTable.Avg db (PgTable.Select "*" p)).next = PgTable.Select "*" p)
      ∧ (PgTable.Sum okDB defaultProjectionChain).ret =
        .error "sum:please use 'Select(fieldName)' to set the sum field"
      ∧ (PgTable.Sum okDB defaultProjectionChain).next.where_ =
        [⟨.storageTypeWhereAnd, "id=?", [.int 1]⟩]
      ∧ (PgTable.Sum okDB defaultProjectionChain).next ≠ meta.zero
      ∧ (PgTable.Avg okDB defaultProjectionChain).ret =
        .error "avg:please use 'Select(fieldName)' to set the avg field"
      ∧ (PgTable.Avg okDB defaultProjectionChain).next.where_ =
        [⟨.storageTypeWhereAnd, "id=?", [.int 1]⟩]
      ∧ (PgTable.Avg okDB defaultProjectionChain).next ≠ meta.zero
      ∧ (Delete okDB (Pg.Table "app" meta.zero)).ret =
        .error "delete:must have deletion condition"
      ∧ (Delete okDB (Pg.Table "app" meta.zero)).next = meta.zero := by
  refine ⟨?_, by decide, by decide, by decide, by decide, by decide, by decide, by decide,
    by decide⟩
  intro db p
  simp [PgTable.Sum, PgTable.Avg, PgTable.Select]

/-- C8 (amended): for every state of the handle, `Table(name)` sets the table to `name`
and the projection to `*`, and leaves the predicate list, sort, group, limit, offset,
placeholder cursor and argument list as they were. On a cleared accumulator (the state
that `clear` installs, and that of a new handle) the result is the fresh accumulator:
empty predicate list, no sort, no group, limit and offset 0, cursor 0 and empty argument
list. -/
theorem Table_sets_name_and_projection (name : String) (p : meta) :
    ((Pg.Table name p).tableName = name
        ∧ (Pg.Table name p).fields = "*"
        ∧ (Pg.Table name p).where_ = p.where_
        ∧ (Pg.Table name p).sort = p.sort
        ∧ (Pg.Table name p).group = p.group
        ∧ (Pg.Table name p).limit = p.limit
        ∧ (Pg.Table name p).offset = p.offset
        ∧ (Pg.Table name p).storageCursor = p.storageCursor
        ∧ (Pg.Table name p).filler = p.filler)
      ∧ ((Pg.Table name (Pg.clear p)).tableName = name
        ∧ (Pg.Table name (Pg.clear p)).fields = "*"
        ∧ (Pg.Table name (Pg.clear p)).where_ = []
        ∧ (Pg.Table name (Pg.clear p)).sort = ""
        ∧ (Pg.Table name (Pg.clear p)).group = ""
        ∧ (Pg.Table name (Pg.clear p)).limit = 0
        ∧ (Pg.Table name (Pg.clear p)).offset = 0
        ∧ (Pg.Table name (Pg.clear p)).storageCursor = 0
        ∧ (Pg.Table name (Pg.clear p)).filler = []) := by
  simp [Pg.Table, Pg.clear, meta.zero]

/-- C8 fails as stated on a handle whose earlier chain
`Table("app").Where("id=?", 1).Sort("id", "desc").Limit(5)` ended without a terminal call:
`Table("users")` still holds the predicate, the sort clause and the limit, and a read on
it is `SELECT * FROM "users" WHERE id=$1 ORDER BY id desc LIMIT 5`. -/
theorem Table_sets_name_and_projection_counterexample :
    (Pg.Table "users" leftoverChain).where_ = [⟨.storageTypeWhereAnd, "id=?", [.int 1]⟩]
      ∧ (Pg.Table "users" leftoverChain).where_ ≠ []
      ∧ (Pg.Table "users" leftoverChain).sort = " ORDER BY id desc"
      ∧ (Pg.Table "users" leftoverChain).limit = 5
      ∧ (parseSQL .opTypeQuery (Pg.Table "users" leftoverChain)).1 =
        "SELECT * FROM \"users\" WHERE id=$1 ORDER BY id desc LIMIT 5" := by
  decide

/-- C9 (amended): for every accumulator state with a non-empty table name, the read
statement assembled by `parseSQL(opTypeQuery)` is `SELECT <fields> FROM "<table>"`
followed, in this order, by ` WHERE <predicates>` iff the predicates render to a non-empty
text, ` GROUP BY <group>` iff the group is not empty, the sort clause, ` OFFSET <n>` iff the
offset is positive and ` LIMIT <n>` iff the limit is positive, and nothing else. The sort
clause is ` ORDER BY <field> <direction>` (never empty) once `Sort` was called, it is
empty on a scope opened on a cleared handle, and no other builder call changes it. -/
theorem parseSQL_query_statement (p : meta) (ht : p.tableName ≠ "") :
    (parseSQL .opTypeQuery p).1 =
        "SELECT " ++ p.fields ++ " FROM \"" ++ p.tableName ++ "\""
          ++ (if (parseWhere p).1 ≠ "" then " WHERE " ++ (parseWhere p).1 else "")
          ++ (if p.group ≠ "" then " GROUP BY " ++ p.group else "")
          ++ p.sort
          ++ (if 0 < p.offset then " OFFSET " ++ FormatInt p.offset else "")
          ++ (if 0 < p.limit then " LIMIT " ++ FormatInt p.limit else "")
      ∧ (∀ filed sortBy : String,
          (PgTable.Sort filed sortBy p).sort = " ORDER BY " ++ filed ++ " " ++ sortBy
            ∧ (PgTable.Sort filed sortBy p).sort ≠ "")
      ∧ (∀ name : String, (Pg.Table name (Pg.clear p)).sort = "")
      ∧ (∀ (s : String) (argc : List Value) (n : Int),
          (PgTable.Select s p).sort = p.sort ∧ (PgTable.Where s argc p).sort = p.sort
            ∧ (PgTable.WhereOr s argc p).sort = p.sort ∧ (PgTable.Group s p).sort = p.sort
            ∧ (PgTable.Offset n p).sort = p.sort ∧ (PgTable.Limit n p).sort = p.sort) := by
  refine ⟨?_, ?_, fun _ => rfl, fun _ _ _ => ⟨rfl, rfl, rfl, rfl, rfl, rfl⟩⟩
  · have hq : quoted p.tableName = "\"" ++ p.tableName ++ "\"" := by simp [quoted, ht]
    have hw : whereClause (parseWhere p).1 =
        (if (parseWhere p).1 ≠ "" then " WHERE " ++ (parseWhere p).1 else "") := rfl
    simp only [parseSQL, writeWhere_eq, parseTableName_eq, parseWhere_filler,
      String.empty_append]
    rw [hq, hw]
    have hsl : (p.sort.length ≠ 0) = (p.sort ≠ "") := propext (length_ne_zero_iff _)
    simp only [hsl, gt_iff_lt]
    by_cases hg : p.group = "" <;> by_cases hs : p.sort = "" <;>
      by_cases ho : 0 < p.offset <;> by_cases hl : 0 < p.limit <;>
      simp only [hg, hs, ho, hl, ne_eq, not_true_eq_false, not_false_eq_true, if_true,
        if_false, String.append_empty] <;>
      apply String.ext <;> simp
  · intro filed sortBy
    refine ⟨by simp [PgTable.Sort], ?_⟩
    simp only [PgTable.Sort, String.empty_append]
    intro h
    have hd := congrArg String.length h
    simp only [String.length_append] at hd
    have h1 : (" ORDER BY " : String).length = 10 := rfl
    have h2 : ("" : String).length = 0 := rfl
    omega

/-- C9 at the first query of `TestPgTable_Find`: the statement is
`SELECT * FROM "app" WHERE id=$1 OR id=$2 AND type=$3 ORDER BY id desc LIMIT 5`. -/
theorem parseSQL_query_statement_witness :
    (parseSQL .opTypeQuery findQuery).1 =
      "SELECT * FROM \"app\" WHERE id=$1 OR id=$2 AND type=$3 ORDER BY id desc LIMIT 5" :=
  (parseSQL_query_statement findQuery (by decide)).1.trans (by decide)

/-- C9 fails as stated at `Table("")`: the statement is `SELECT * FROM `, with no quoted
table name. -/
theorem parseSQL_query_statement_counterexample :
    (parseSQL .opTypeQuery (Pg.Table "" meta.zero)).1 = "SELECT * FROM "
      ∧ (parseSQL .opTypeQuery (Pg.Table "" meta.zero)).1 ≠
        "SELECT " ++ (Pg.Table "" meta.zero).fields ++ " FROM \""
          ++ (Pg.Table "" meta.zero).tableName ++ "\"" := by
  decide

theorem replaceAllGo_skip_free (c0 : Char) (o new a b : List Char) (h : c0 ∉ a) :
    replaceAllGo (c0 :: o) new 0 (a ++ b) = a ++ replaceAllGo (c0 :: o) new 0 b := by
  induction a with
  | nil => rfl
  | cons c cs ih =>
    have hc : (c0 == c) = false := by
      simp only [beq_eq_false_iff_ne, ne_eq]
      exact fun e => h (by simp [e])
    have hcs : c0 ∉ cs := fun e => h (List.mem_cons_of_mem _ e)
    simp [replaceAllGo, List.isPrefixOf, hc, ih hcs]

theorem replaceAllGo_drop (old new x b : List Char) :
    replaceAllGo old new x.length (x ++ b) = replaceAllGo old new 0 b := by
  induction x with
  | nil => rfl
  | cons c cs ih => simp [replaceAllGo, ih]

theorem replaceAllGo_match (c0 : Char) (o new b : List Char) :
    replaceAllGo (c0 :: o) new 0 (c0 :: o ++ b) = new ++ replaceAllGo (c0 :: o) new 0 b := by
  have hp : (c0 :: o).isPrefixOf (c0 :: (o ++ b)) = true := by
    rw [List.isPrefixOf_iff_prefix]
    exact List.prefix_append (c0 :: o) b
  have hstep : replaceAllGo (c0 :: o) new 0 (c0 :: (o ++ b)) =
      new ++ replaceAllGo (c0 :: o) new ((c0 :: o).length - 1) (o ++ b) := by
    rw [replaceAllGo, if_pos hp]
  rw [List.cons_append, hstep]
  have hl : (c0 :: o).length - 1 = o.length := by simp
  rw [hl, replaceAllGo_drop]

theorem isPrefixOf_append_cons (pat s b : List Char) (c : Char)
    (h : pat.isPrefixOf (s ++ c :: b) = true) : pat.isPrefixOf s = true ∨ c ∈ pat := by
  induction pat generalizing s with
  | nil => left; simp
  | cons x xs ih =>
    cases s with
    | nil =>
      right
      simp only [List.nil_append, List.isPrefixOf, Bool.and_eq_true, beq_iff_eq] at h
      simp [h.1]
    | cons y ys =>
      simp only [List.cons_append, List.isPrefixOf, Bool.and_eq_true, beq_iff_eq] at h
      rcases ih ys h.2 with h1 | h1
      · left
        simp [List.isPrefixOf, h.1, h1]
      · right
        exact List.mem_cons_of_mem _ h1

theorem replaceAllGo_noOccur (pat new s : List Char) (h : occursIn pat s = false) :
    replaceAllGo pat new 0 s = s := by
  induction s with
  | nil => rfl
  | cons c cs ih =>
    simp only [occursIn, Bool.or_eq_false_iff] at h
    rw [replaceAllGo, if_neg (by simp [h.1]), ih h.2]

theorem replaceAllGo_skip_noOccur (pat new u b : List Char) (c : Char)
    (h : occursIn pat u = false) (hc : c ∉ pat) :
    replaceAllGo pat new 0 (u ++ c :: b) = u ++ replaceAllGo pat new 0 (c :: b) := by
  induction u with
  | nil => rfl
  | cons x xs ih =>
    simp only [occursIn, Bool.or_eq_false_iff] at h
    have hno : ¬ pat.isPrefixOf (x :: (xs ++ c :: b)) = true := by
      intro hp
      rcases isPrefixOf_append_cons pat (x :: xs) b c hp with h1 | h1
      · simp [h.1] at h1
      · exact hc h1
    rw [List.cons_append, replaceAllGo, if_neg hno, ih h.2, List.cons_append]

theorem replaceAllGo_whereClause (o new : List Char) (R : String)
    (h : occursIn ('$' :: o) R.data = false) :
    replaceAllGo ('$' :: o) new 0 (whereClause R).data = (whereClause R).data := by
  unfold whereClause
  by_cases hr : R = ""
  · simp [hr, replaceAllGo]
  · simp only [ne_eq, hr, not_false_eq_true, if_true, String.data_append]
    rw [replaceAllGo_skip_free _ _ _ _ _ (by decide), replaceAllGo_noOccur _ _ _ h]

/-- The `strings.ReplaceAll` pass of `SetInc` and `SetDec` on a text
`A t c S $FIELDS E $FIELDS O W`, where no `$` is in `A`, `S`, `E`, `O`. -/
theorem occursIn_cons_of_ne (c0 c : Char) (o cs : List Char) (h : c0 ≠ c) :
    occursIn (c0 :: o) (c :: cs) = occursIn (c0 :: o) cs := by
  have hc : (c0 == c) = false := by simpa using h
  simp [occursIn, List.isPrefixOf, hc]

theorem occursIn_append_cons (pat u b : List Char) (c : Char)
    (hu : occursIn pat u = false) (hc : c ∉ pat) :
    occursIn pat (u ++ c :: b) = occursIn pat (c :: b) := by
  induction u with
  | nil => rfl
  | cons x xs ih =>
    simp only [occursIn, Bool.or_eq_false_iff] at hu
    have hno : pat.isPrefixOf (x :: (xs ++ c :: b)) = false := by
      cases hp : pat.isPrefixOf (x :: (xs ++ c :: b)) with
      | false => rfl
      | true =>
        rcases isPrefixOf_append_cons pat (x :: xs) b c hp with h1 | h1
        · simp [hu.1] at h1
        · exact absurd h1 hc
    rw [List.cons_append, occursIn, hno, Bool.false_or, ih hu.2]

theorem occursIn_Join (o : List Char) (l : List String) (hc : ',' ∉ o)
    (h : ∀ x ∈ l, occursIn ('$' :: o) x.data = false) :
    occursIn ('$' :: o) (Join l ",").data = false := by
  induction l with
  | nil => rfl
  | cons a rest ih =>
    cases rest with
    | nil => simpa [Join] using h a (by simp)
    | cons b rest =>
      have ha := h a (by simp)
      have hr := ih (fun x hx => h x (List.mem_cons_of_mem _ hx))
      have hcp : ',' ∉ '$' :: o := by
        simp only [List.mem_cons, not_or]
        exact ⟨by decide, hc⟩
      have e : (Join (a :: b :: rest) ",").data = a.data ++ ',' :: (Join (b :: rest) ",").data := by
        simp [Join]
      rw [e, occursIn_append_cons _ _ _ _ ha hcp, occursIn_cons_of_ne _ _ _ _ (by decide)]
      exact hr

theorem occursIn_paren (o : List Char) (s : String) (hc : ')' ∉ o)
    (h : occursIn ('$' :: o) s.data = false) :
    occursIn ('$' :: o) ("(" ++ s ++ ")").data = false := by
  have hcp : ')' ∉ '$' :: o := by
    simp only [List.mem_cons, not_or]
    exact ⟨by decide, hc⟩
  have e : ("(" ++ s ++ ")").data = '(' :: (s.data ++ ')' :: []) := by simp
  rw [e, occursIn_cons_of_ne _ _ _ _ (by decide), occursIn_append_cons _ _ _ _ h hcp,
    occursIn_cons_of_ne _ _ _ _ (by decide)]
  rfl

theorem occursIn_dquote (o : List Char) (s : String) (hc : '"' ∉ o)
    (h : occursIn ('$' :: o) s.data = false) :
    occursIn ('$' :: o) ("\"" ++ s ++ "\"").data = false := by
  have hcp : '"' ∉ '$' :: o := by
    simp only [List.mem_cons, not_or]
    exact ⟨by decide, hc⟩
  have e : ("\"" ++ s ++ "\"").data = '"' :: (s.data ++ '"' :: []) := by simp
  rw [e, occursIn_cons_of_ne _ _ _ _ (by decide), occursIn_append_cons _ _ _ _ h hcp,
    occursIn_cons_of_ne _ _ _ _ (by decide)]
  rfl

/-- A `strings.ReplaceAll` pass for a pattern `$...` steps over the quoted table name when
the name does not contain the pattern. -/
theorem replaceAllGo_skip_quoted (o new : List Char) (t : String) (b : List Char)
    (hq : '"' ∉ o) (ht : occursIn ('$' :: o) t.data = false) :
    replaceAllGo ('$' :: o) new 0 ((quoted t).data ++ b) =
      (quoted t).data ++ replaceAllGo ('$' :: o) new 0 b := by
  have hcp : '"' ∉ '$' :: o := by
    simp only [List.mem_cons, not_or]
    exact ⟨by decide, hq⟩
  unfold quoted
  by_cases h : t = ""
  · simp [h]
  · simp only [ne_eq, h, not_false_eq_true, if_true]
    have e : ("\"" ++ t ++ "\"").data ++ b = ['"'] ++ (t.data ++ '"' :: b) := by simp
    have e2 : ('"' :: b) = ['"'] ++ b := rfl
    rw [e, replaceAllGo_skip_free _ _ _ _ _ (by decide),
      replaceAllGo_skip_noOccur _ _ _ _ _ ht hcp, e2,
      replaceAllGo_skip_free _ _ _ _ _ (by decide)]
    simp

theorem dollar_ne_default (n : Nat) : dollar n ≠ "DEFAULT" :=
  append_ne_of_take "$" (toString n) "DEFAULT" 1 (by decide) (by decide)

theorem posFrom_length (n : Nat) (fs : List (Field × Value)) :
    (posFrom n fs).length = fs.length := by
  induction fs generalizing n with
  | nil => rfl
  | cons fv rest ih =>
    obtain ⟨f, v⟩ := fv
    by_cases h : f.pri = "" <;> simp [posFrom, h, ih]

theorem posFrom_get (n : Nat) (fs : List (Field × Value)) (j : Nat) (fv : Field × Value)
    (h : fs[j]? = some fv) : (fv.1.pri ≠ "" ↔ (posFrom n fs)[j]? = some "DEFAULT") := by
  induction fs generalizing n j with
  | nil => simp at h
  | cons fv0 rest ih =>
    obtain ⟨f, v⟩ := fv0
    cases j with
    | zero =>
      simp only [List.getElem?_cons_zero, Option.some.injEq] at h
      subst h
      by_cases hp : f.pri = ""
      · simp [posFrom, hp, dollar_ne_default]
      · simp [posFrom, hp]
    | succ j =>
      simp only [List.getElem?_cons_succ] at h
      by_cases hp : f.pri = ""
      · simp only [posFrom, hp, ne_eq, not_true_eq_false, if_false, List.getElem?_cons_succ]
        exact ih (n + 1) j h
      · simp only [posFrom, hp, ne_eq, not_false_eq_true, if_true, List.getElem?_cons_succ]
        exact ih n j h

theorem posFrom_filter (n : Nat) (fs : List (Field × Value)) :
    (posFrom n fs).filter (fun x => x ≠ "DEFAULT") =
      (List.range (fs.filter fun fv => fv.1.pri = "").length).map fun i => dollar (n + i + 1) := by
  induction fs generalizing n with
  | nil => rfl
  | cons fv rest ih =>
    obtain ⟨f, v⟩ := fv
    by_cases hp : f.pri = ""
    · simp only [posFrom, hp, ne_eq, not_true_eq_false, if_false, decide_not,
        List.filter_cons, dollar_ne_default, decide_False, Bool.not_false, if_true,
        decide_True, List.length_cons, List.range_succ_eq_map, List.map_cons, List.map_map]
      congr 1
      have := ih (n + 1)
      simp only [ne_eq, decide_not] at this
      rw [this]
      apply List.map_congr_left
      intro i _
      simp only [Function.comp, Nat.succ_eq_add_one]
      congr 1
      omega
    · have := ih n
      simp only [ne_eq, decide_not] at this
      simp [posFrom, hp, this]

theorem posFrom_count (n : Nat) (fs : List (Field × Value)) :
    (posFrom n fs).count "DEFAULT" = (fs.filter fun fv => fv.1.pri ≠ "").length := by
  induction fs generalizing n with
  | nil => rfl
  | cons fv rest ih =>
    obtain ⟨f, v⟩ := fv
    by_cases hp : f.pri = ""
    · have hne : ¬ (dollar (n + 1) = "DEFAULT") := dollar_ne_default _
      simp [posFrom, hp, List.count_cons, hne, ih]
    · simp [posFrom, hp, List.count_cons, ih]

theorem saveFields_eq (k : Nat) (fs : List (Field × Value)) (v : SaveVars)
    (cv : List String) (hexp : ∀ fv ∈ fs, fv.1.pri = "" → fv.1.exported = true) :
    saveFields k (fieldValues fs) v cv =
      some ({ insertNum := v.insertNum + (fs.filter fun fv => fv.1.pri = "").length,
              fieldList :=
                v.fieldList ++ (if k = 0 then fs.map fun fv => externalName fv.1 else []),
              valueList := v.valueList,
              insertArgs :=
                v.insertArgs ++ (fs.filter fun fv => fv.1.pri = "").map fun fv => fv.2 },
        cv ++ posFrom v.insertNum fs) := by
  induction fs generalizing v cv with
  | nil => simp [saveFields, fieldValues, posFrom]
  | cons fv rest ih =>
    obtain ⟨f, x⟩ := fv
    have hrest : ∀ fv ∈ rest, fv.1.pri = "" → fv.1.exported = true :=
      fun fv h => hexp fv (List.mem_cons_of_mem _ h)
    have ih' := fun v cv => ih v cv hrest
    simp only [fieldValues] at ih' ⊢
    by_cases hp : f.pri = ""
    · have he : f.exported = true := hexp (f, x) (by simp) hp
      cases k with
      | zero =>
        simp [saveFields, posFrom, hp, he, ih', externalName, Nat.add_assoc, Nat.add_comm 1]
      | succ k =>
        simp [saveFields, posFrom, hp, he, ih', externalName, Nat.add_assoc, Nat.add_comm 1]
    · cases k with
      | zero =>
        simp [saveFields, posFrom, hp, ih', externalName, Nat.add_assoc, Nat.add_comm 1]
      | succ k =>
        simp [saveFields, posFrom, hp, ih', externalName, Nat.add_assoc, Nat.add_comm 1]

/-- The two `strings.ReplaceAll` passes of `Save` on the template of `parseSQL(opTypeCreate)`
put the column list and the value groups in place, when the table name contains neither
`$FIELDS` nor `$VALUES` and no column name contains `$VALUES`. -/
theorem saveText_insert (t : String) (cols groups : List String)
    (htF : Contains t "$FIELDS" = false) (htV : Contains t "$VALUES" = false)
    (hc : ∀ c ∈ cols, Contains c "$VALUES" = false) :
    saveText ("INSERT INTO " ++ quoted t ++ "$FIELDS VALUES $VALUES") cols groups =
      insertStatement t cols groups := by
  have hF : occursIn ('$' :: "VALUES".data) ("(" ++ Join cols "," ++ ")").data = false :=
    occursIn_paren _ _ (by decide) (occursIn_Join _ _ (by decide) hc)
  have el : ("INSERT INTO " ++ quoted t ++ "$FIELDS VALUES $VALUES").data =
      "INSERT INTO ".data ++ ((quoted t).data ++ ('$' :: "FIELDS".data ++
        (" VALUES ".data ++ ('$' :: "VALUES".data ++ [])))) := by
    simp
  have pass1 : ∀ F : List Char, replaceAllGo ('$' :: "FIELDS".data) F 0
      ("INSERT INTO ".data ++ ((quoted t).data ++ ('$' :: "FIELDS".data ++
        (" VALUES ".data ++ ('$' :: "VALUES".data ++ []))))) =
      "INSERT INTO ".data ++ ((quoted t).data ++ (F ++
        (' ' :: "VALUES ".data ++ ('$' :: "VALUES".data ++ [])))) := by
    intro F
    rw [replaceAllGo_skip_free _ _ _ _ _ (by decide),
      replaceAllGo_skip_quoted _ _ _ _ (by decide) htF, replaceAllGo_match,
      replaceAllGo_skip_free _ _ _ _ _ (by decide)]
    rfl
  have pass2 : ∀ V : List Char, replaceAllGo ('$' :: "VALUES".data) V 0
      ("INSERT INTO ".data ++ ((quoted t).data ++ (("(" ++ Join cols "," ++ ")").data ++
        (' ' :: "VALUES ".data ++ ('$' :: "VALUES".data ++ []))))) =
      "INSERT INTO ".data ++ ((quoted t).data ++ (("(" ++ Join cols "," ++ ")").data ++
        (' ' :: "VALUES ".data ++ V))) := by
    intro V
    have e1 : ∀ X : List Char, ' ' :: "VALUES ".data ++ X = ' ' :: ("VALUES ".data ++ X) :=
      fun _ => rfl
    have e2 : ∀ X : List Char, ' ' :: ("VALUES ".data ++ X) = (' ' :: "VALUES ".data) ++ X :=
      fun _ => rfl
    rw [replaceAllGo_skip_free _ _ _ _ _ (by decide),
      replaceAllGo_skip_quoted _ _ _ _ (by decide) htV, e1,
      replaceAllGo_skip_noOccur _ _ _ _ _ hF (by decide), e2,
      replaceAllGo_skip_free _ _ _ _ _ (by decide), replaceAllGo_match]
    simp [replaceAllGo]
  apply String.ext
  unfold saveText insertStatement replaceAll
  show replaceAllGo ('$' :: "VALUES".data) ("(" ++ Join groups "),(" ++ ")").data 0
      (replaceAllGo ('$' :: "FIELDS".data) ("(" ++ Join cols "," ++ ")").data 0
        ("INSERT INTO " ++ quoted t ++ "$FIELDS VALUES $VALUES").data) = _
  rw [el, pass1, pass2]
  simp

theorem parseSQL_create (p : meta) :
    parseSQL .opTypeCreate p =
      ("INSERT INTO " ++ quoted p.tableName ++ "$FIELDS VALUES $VALUES", p) := by
  simp only [parseSQL, parseTableName_eq, String.empty_append]

theorem saveBuild_structPtr (sql : String) (fs : List (Field × Value))
    (hexp : ∀ fv ∈ fs, fv.1.pri = "" → fv.1.exported = true) :
    saveBuild sql (.structPtr fs) =
      some (saveText sql (fs.map fun fv => externalName fv.1) [Join (posFrom 0 fs) ","],
        (fs.filter fun fv => fv.1.pri = "").map fun fv => fv.2) := by
  simp only [saveBuild, checkIsSlice, saveRecords, saveRows, saveFields_eq _ _ _ _ hexp,
    List.nil_append, if_true, Nat.zero_add]

/-- C10 (amended): for every record with exactly one generated (`pri`-tagged) field and
`K` other fields, all of them exported, on a scope whose context is set (as `Table` leaves
it) and whose table name contains neither `$FIELDS` nor `$VALUES`, no column name
containing `$VALUES`, a single-record `Save` prepares
`INSERT INTO "<table>"(<columns>) VALUES (<group>)`, where the group has one position per
field in declaration order: the position of a field is `DEFAULT` exactly when the field is
the generated one, the other positions are `$1, ..., $K` in declaration order, and there
is exactly one `DEFAULT`. The statement is executed (once prepared) with the `K` values of
the non-generated fields in declaration order. -/
theorem Save_single_record (db : DB) (p : meta) (fs : List (Field × Value))
    (hone : (fs.filter fun fv => fv.1.pri ≠ "").length = 1)
    (hctx : p.ctx = true)
    (hexp : ∀ fv ∈ fs, fv.1.pri = "" → fv.1.exported = true)
    (htF : Contains p.tableName "$FIELDS" = false)
    (htV : Contains p.tableName "$VALUES" = false)
    (hcV : ∀ fv ∈ fs, Contains (externalName fv.1) "$VALUES" = false) :
    ∃ (positions : List String) (stmt : String),
      positions.length = fs.length
        ∧ (∀ (j : Nat) (fv : Field × Value), fs[j]? = some fv →
            (fv.1.pri ≠ "" ↔ positions[j]? = some "DEFAULT"))
        ∧ positions.filter (fun x => x ≠ "DEFAULT") =
            (List.range (fs.filter fun fv => fv.1.pri = "").length).map (fun i => dollar (i + 1))
        ∧ positions.count "DEFAULT" = 1
        ∧ stmt = "INSERT INTO " ++ quoted p.tableName ++ "("
            ++ Join (fs.map fun fv => externalName fv.1) "," ++ ") VALUES ("
            ++ Join positions "," ++ ")"
        ∧ (Save db (.structPtr fs) p).trace =
            (if (db.PrepareContext stmt).isSome then [.prepare stmt]
              else [.prepare stmt,
                .exec stmt ((fs.filter fun fv => fv.1.pri = "").map fun fv => fv.2)]) := by
  have hcols : ∀ c ∈ fs.map (fun fv => externalName fv.1), Contains c "$VALUES" = false := by
    intro c hcm
    obtain ⟨fv, hfv, rfl⟩ := List.mem_map.1 hcm
    exact hcV fv hfv
  have hstmt : saveText (parseSQL .opTypeCreate p).1 (fs.map fun fv => externalName fv.1)
      [Join (posFrom 0 fs) ","] =
      "INSERT INTO " ++ quoted p.tableName ++ "("
        ++ Join (fs.map fun fv => externalName fv.1) "," ++ ") VALUES ("
        ++ Join (posFrom 0 fs) "," ++ ")" := by
    rw [parseSQL_create, saveText_insert p.tableName _ _ htF htV hcols]
    simp [insertStatement, Join]
  refine ⟨posFrom 0 fs, _, posFrom_length 0 fs, fun j fv h => posFrom_get 0 fs j fv h, ?_, ?_,
    rfl, ?_⟩
  · have h := posFrom_filter 0 fs
    simpa only [Nat.zero_add] using h
  · rw [posFrom_count, hone]
  · have hc2 : (parseSQL .opTypeCreate p).2.ctx = true := by
      rw [parseSQL_create]
      exact hctx
    simp only [Save, saveBuild_structPtr _ _ hexp, hstmt]
    exact execTail_trace _ _ _ _ _ hc2

/-- C10 at a record of the type `TestTable` of the tests on table `app`: the statement is
`INSERT INTO "app"(id,name,desc,address,created_date,changed_date,deleted_date,is_first)
VALUES (DEFAULT,$1,$2,$3,$4,$5,$6,$7)` with the seven non-generated values as arguments. -/
theorem Save_single_record_witness :
    ((testRecord "aaa" "aaa" "bbb" "t1" "t2").filter fun fv => fv.1.pri ≠ "").length = 1
      ∧ (∃ (positions : List String) (stmt : String),
        positions.length = (testRecord "aaa" "aaa" "bbb" "t1" "t2").length
          ∧ positions.filter (fun x => x ≠ "DEFAULT") = (List.range 7).map (fun i => dollar (i + 1))
          ∧ positions.count "DEFAULT" = 1
          ∧ (Save okDB (.structPtr (testRecord "aaa" "aaa" "bbb" "t1" "t2"))
              (Pg.Table "app" meta.zero)).trace =
            [.prepare stmt, .exec stmt [.str "aaa", .str "aaa", .str "bbb", .time "t1",
              .time "t2", .null, .bool false]])
      ∧ (Save okDB (.structPtr (testRecord "aaa" "aaa" "bbb" "t1" "t2"))
          (Pg.Table "app" meta.zero)).trace.head? = some (.prepare
        ("INSERT INTO \"app\"(id,name,desc,address,created_date,changed_date,deleted_date,"
          ++ "is_first) VALUES (DEFAULT,$1,$2,$3,$4,$5,$6,$7)")) := by
  refine ⟨by decide, ?_, by decide⟩
  obtain ⟨positions, stmt, h1, _, h3, h4, _, h6⟩ :=
    Save_single_record okDB (Pg.Table "app" meta.zero) (testRecord "aaa" "aaa" "bbb" "t1" "t2")
      (by decide) rfl (by decide) (by decide) (by decide) (by decide)
  exact ⟨positions, stmt, h1, h3, h4, h6⟩

/-- C10 fails as stated in four ways. On a handle used again after a terminal call, with no
`Table` call, `Save` panics on the nil context and prepares nothing. A non-generated field
that is not exported makes `Interface()` panic. A column named `$VALUES` is replaced by the
second `strings.ReplaceAll`: the statement is
`INSERT INTO "app"((DEFAULT,$1),name) VALUES (DEFAULT,$1)`, with two `DEFAULT` and two
`$1`. A table name that holds `$FIELDS` or `$VALUES` is replaced too:
`INSERT INTO "t(id,name)"(id,name) VALUES (DEFAULT,$1)` and
`INSERT INTO "t(DEFAULT,$1)"(id,name) VALUES (DEFAULT,$1)`. -/
theorem Save_single_record_counterexample :
    ((Save okDB (.structPtr keyNameRecord) (Pg.clear (Pg.Table "app" meta.zero))).ret = .panic
        ∧ (Save okDB (.structPtr keyNameRecord) (Pg.clear (Pg.Table "app" meta.zero))).trace = [])
      ∧ ((Save okDB (.structPtr hiddenRecord) (Pg.Table "app" meta.zero)).ret = .panic
        ∧ (Save okDB (.structPtr hiddenRecord) (Pg.Table "app" meta.zero)).trace = [])
      ∧ (Save okDB (.structPtr valuesColumnRecord) (Pg.Table "app" meta.zero)).trace =
        [.prepare "INSERT INTO \"app\"((DEFAULT,$1),name) VALUES (DEFAULT,$1)",
          .exec "INSERT INTO \"app\"((DEFAULT,$1),name) VALUES (DEFAULT,$1)" [.str "a"]]
      ∧ (Save okDB (.structPtr keyNameRecord) (Pg.Table "t$FIELDS" meta.zero)).trace =
        [.prepare "INSERT INTO \"t(id,name)\"(id,name) VALUES (DEFAULT,$1)",
          .exec "INSERT INTO \"t(id,name)\"(id,name) VALUES (DEFAULT,$1)" [.str "a"]]
      ∧ (Save okDB (.structPtr keyNameRecord) (Pg.Table "t$VALUES" meta.zero)).trace =
        [.prepare "INSERT INTO \"t(DEFAULT,$1)\"(id,name) VALUES (DEFAULT,$1)",
          .exec "INSERT INTO \"t(DEFAULT,$1)\"(id,name) VALUES (DEFAULT,$1)" [.str "a"]] := by
  decide

/-! ## Claims C11 to C20 -/

/-- C13: `Where(t, args...)` and `WhereOr(t, args...)` are cumulative. After the call the
predicate list is the previous list with exactly one predicate appended at the end
(combinator AND for `Where`, OR for `WhereOr`, template `t`, arguments `args`), and the
table, projection, sort, limit, offset, group, cursor and argument list are unchanged. -/
theorem Where_WhereOr_append (t : String) (args : List Value) (p : meta) :
    ((PgTable.Where t args p).where_ = p.where_ ++ [⟨.storageTypeWhereAnd, t, args⟩]
        ∧ (PgTable.Where t args p).tableName = p.tableName
        ∧ (PgTable.Where t args p).fields = p.fields
        ∧ (PgTable.Where t args p).sort = p.sort
        ∧ (PgTable.Where t args p).limit = p.limit
        ∧ (PgTable.Where t args p).offset = p.offset
        ∧ (PgTable.Where t args p).group = p.group
        ∧ (PgTable.Where t args p).storageCursor = p.storageCursor
        ∧ (PgTable.Where t args p).filler = p.filler)
      ∧ ((PgTable.WhereOr t args p).where_ = p.where_ ++ [⟨.storageTypeWhereOr, t, args⟩]
        ∧ (PgTable.WhereOr t args p).tableName = p.tableName
        ∧ (PgTable.WhereOr t args p).fields = p.fields
        ∧ (PgTable.WhereOr t args p).sort = p.sort
        ∧ (PgTable.WhereOr t args p).limit = p.limit
        ∧ (PgTable.WhereOr t args p).offset = p.offset
        ∧ (PgTable.WhereOr t args p).group = p.group
        ∧ (PgTable.WhereOr t args p).storageCursor = p.storageCursor
        ∧ (PgTable.WhereOr t args p).filler = p.filler) := by
  simp [PgTable.Where, PgTable.WhereOr]

/-- C20: `Select`, `Sort`, `Group`, `Limit` and `Offset` are last-write-wins: calling one
of them twice in a row leaves the accumulator as the second call alone does, and the field
it writes holds the argument of the second call: the projection, the group, the limit and
the offset are the second argument, and after `Sort(a, b)` then `Sort(c, d)` the sort
clause is ` ORDER BY c d`. Each of these calls changes only its own field: putting the old
value of that field back gives the accumulator as it was. -/
theorem overwriting_calls_last_write_wins (p : meta) (a b c d : String) (m n : Int) :
    (PgTable.Select b (PgTable.Select a p) = PgTable.Select b p
        ∧ PgTable.Sort c d (PgTable.Sort a b p) = PgTable.Sort c d p
        ∧ PgTable.Group b (PgTable.Group a p) = PgTable.Group b p
        ∧ PgTable.Limit n (PgTable.Limit m p) = PgTable.Limit n p
        ∧ PgTable.Offset n (PgTable.Offset m p) = PgTable.Offset n p)
      ∧ ((PgTable.Select b (PgTable.Select a p)).fields = b
        ∧ (PgTable.Sort c d (PgTable.Sort a b p)).sort = " ORDER BY " ++ c ++ " " ++ d
        ∧ (PgTable.Group b (PgTable.Group a p)).group = b
        ∧ (PgTable.Limit n (PgTable.Limit m p)).limit = n
        ∧ (PgTable.Offset n (PgTable.Offset m p)).offset = n)
      ∧ ({ PgTable.Select a p with fields := p.fields } = p
        ∧ { PgTable.Sort a b p with sort := p.sort } = p
        ∧ { PgTable.Group a p with group := p.group } = p
        ∧ { PgTable.Limit m p with limit := p.limit } = p
        ∧ { PgTable.Offset m p with offset := p.offset } = p) := by
  simp [PgTable.Select, PgTable.Sort, PgTable.Group, PgTable.Limit, PgTable.Offset]

/-- C15 fails on the code: `Save` builds the error of `checkIsSlice` with `fmt.Errorf` and
drops it. For a pointer to a map, a pointer to anything that is neither a struct nor a
slice, and a value that is no pointer and has no struct element type, `checkIsSlice` gives
its error, yet `Save` returns no error: it goes on to `NumField`, which panics (no
statement is prepared). For a slice of structs passed by value whose only field is
generated, `checkIsSlice` gives its error too and `Save` goes on to prepare and execute
`INSERT INTO "app"(id) VALUES (DEFAULT)`, returning `nil`. `Find`, on the same
destinations, returns the error with the prefix `find:`. -/
theorem Save_drops_contract_error (db : DB) (p : meta) :
    (checkIsSlice .otherPtr =
          .returns false (some "checkIsSlice:dest must be a slice/struct pointer")
        ∧ (Save db .otherPtr p).ret = .panic ∧ (Save db .otherPtr p).trace = [])
      ∧ (∀ entries : List (Value × Value),
          checkIsSlice (.mapPtr entries) =
              .returns false (some "checkIsSlice:dest must be a slice/struct pointer")
            ∧ (Save db (.mapPtr entries) p).ret = .panic
            ∧ (Save db (.mapPtr entries) p).trace = [])
      ∧ (checkIsSlice .nonPtr =
          .returns false (some "checkIsSlice:dest must be a slice/struct pointer")
        ∧ (Save db .nonPtr p).ret = .panic ∧ (Save db .nonPtr p).trace = [])
      ∧ (checkIsSlice (.containerVal onlyKeyType) =
          .returns false (some "checkIsSlice:dest must be a slice/struct pointer")
        ∧ (Save okDB (.containerVal onlyKeyType) (Pg.Table "app" meta.zero)).ret = .nil
        ∧ (Save okDB (.containerVal onlyKeyType) (Pg.Table "app" meta.zero)).trace =
          [.prepare "INSERT INTO \"app\"(id) VALUES (DEFAULT)",
            .exec "INSERT INTO \"app\"(id) VALUES (DEFAULT)" []])
      ∧ (Find okDB twoRows .otherPtr (Pg.Table "app" meta.zero)).ret =
        .error "find:checkIsSlice:dest must be a slice/struct pointer" := by
  refine ⟨⟨rfl, rfl, rfl⟩, fun _ => ⟨rfl, rfl, rfl⟩, ⟨rfl, rfl, rfl⟩, by decide, by decide⟩

theorem writeThrough_nil (j : Nat) (w : Value) : writeThrough j w [] = [] := rfl

theorem shareFields_nil (j : Nat) (old new : List (Field × Value)) :
    shareFields j old new [] = [] := by
  induction old generalizing j new with
  | nil => rfl
  | cons o olds ih =>
    cases new with
    | nil => rfl
    | cons n news =>
      obtain ⟨f, x⟩ := o
      obtain ⟨g, y⟩ := n
      simp only [shareFields, writeThrough_nil, ite_self]
      exact ih _ _

theorem shareFields_keeps (j : Nat) (old new : List (Field × Value))
    (appended : List (List Value)) (h : keepsPointees old new = true) :
    shareFields j old new appended = appended := by
  induction old generalizing j new with
  | nil => rfl
  | cons o olds ih =>
    cases new with
    | nil => rfl
    | cons n news =>
      obtain ⟨f, x⟩ := o
      obtain ⟨g, y⟩ := n
      unfold keepsPointees at h
      rw [List.zip_cons_cons, List.all_cons, Bool.and_eq_true] at h
      have hno : ¬ (isPointerType f.typ = true ∧ x ≠ .null ∧ y ≠ .null) := by
        rintro ⟨h1, h2, h3⟩
        have h4 := h.1
        simp [h1, h2, h3] at h4
      rw [shareFields]
      simp only [hno, if_false]
      exact ih _ _ h.2

theorem findDecode_of_decoded (q : RowsDB) (receiver : List Receptacle)
    (receiverMap : List (String × Nat)) (record : List Value) (rest : List (List Value))
    (m : List (Field × Value)) (decoded : List (List (Field × Value)))
    (h : decodedRows q receiver receiverMap (record :: rest) m = some decoded) :
    ∃ (v : List (Field × Value)) (later : List (List (Field × Value))),
      decoded = v :: later ∧ findDecode q receiver receiverMap record m = (none, v)
        ∧ decodedRows q receiver receiverMap rest v = some later := by
  rw [decodedRows] at h
  unfold findDecode
  cases hs : q.Scan receiver record with
  | error e => simp [hs] at h
  | ok scanned =>
    simp only [hs] at h ⊢
    cases hm : q.Marshal (packJson receiverMap scanned) with
    | error e => simp [hm] at h
    | ok jsonByte =>
      simp only [hm] at h ⊢
      rcases hu : q.Unmarshal jsonByte m with ⟨err, v⟩
      cases err with
      | some e => simp [hu] at h
      | none =>
        simp only [hu] at h ⊢
        cases hl : decodedRows q receiver receiverMap rest v with
        | none => simp [hl] at h
        | some later =>
          simp only [hl, Option.some.injEq] at h
          exact ⟨v, later, h.symm, rfl, hl⟩

theorem decoded_of_findDecode (q : RowsDB) (receiver : List Receptacle)
    (receiverMap : List (String × Nat)) (record : List Value) (rest : List (List Value))
    (m v : List (Field × Value)) (later : List (List (Field × Value)))
    (hd : findDecode q receiver receiverMap record m = (none, v))
    (hl : decodedRows q receiver receiverMap rest v = some later) :
    decodedRows q receiver receiverMap (record :: rest) m = some (v :: later) := by
  unfold findDecode at hd
  rw [decodedRows]
  cases hs : q.Scan receiver record with
  | error e => simp [hs] at hd
  | ok scanned =>
    simp only [hs] at hd ⊢
    cases hm : q.Marshal (packJson receiverMap scanned) with
    | error e => simp [hm] at hd
    | ok jsonByte =>
      simp only [hm] at hd ⊢
      rcases hu : q.Unmarshal jsonByte m with ⟨err, w⟩
      cases err with
      | some e => simp [hu] at hd
      | none =>
        simp only [hu, Prod.mk.injEq, true_and] at hd
        subst hd
        simp only [hl]

/-- The loop of `Find` gives the decoded records, in the order of the rows, after the
elements appended before, when no pointee is overwritten on the way. -/
theorem findRows_of_decoded (q : RowsDB) (receiver : List Receptacle)
    (receiverMap : List (String × Nat)) (records : List (List Value))
    (m : List (Field × Value)) (appended : List (List Value))
    (decoded : List (List (Field × Value)))
    (h : decodedRows q receiver receiverMap records m = some decoded)
    (hk : noSharedPointee (m :: decoded) = true) :
    findRows q receiver receiverMap records m appended =
      .ok (appended.reverse ++ decoded.map fun v => v.map fun fv => fv.2) := by
  induction records generalizing m appended decoded with
  | nil =>
    simp only [decodedRows, Option.some.injEq] at h
    subst h
    simp [findRows]
  | cons record rest ih =>
    obtain ⟨v, later, rfl, hd, hl⟩ := findDecode_of_decoded q receiver receiverMap record rest m
      decoded h
    simp only [noSharedPointee, Bool.and_eq_true] at hk
    rw [findRows, hd]
    simp only []
    rw [shareFields_keeps _ _ _ _ hk.1, ih v _ later hl hk.2]
    simp

theorem findRows_ok (q : RowsDB) (receiver : List Receptacle)
    (receiverMap : List (String × Nat)) (records : List (List Value))
    (m : List (Field × Value)) (appended out : List (List Value))
    (h : findRows q receiver receiverMap records m appended = .ok out) :
    out.length = appended.length + records.length
      ∧ ∃ decoded, decodedRows q receiver receiverMap records m = some decoded
          ∧ decoded.length = records.length := by
  induction records generalizing m appended with
  | nil =>
    simp only [findRows, Except.ok.injEq] at h
    subst h
    exact ⟨by simp, [], rfl, rfl⟩
  | cons record rest ih =>
    rw [findRows] at h
    rcases hd : findDecode q receiver receiverMap record m with ⟨err, v⟩
    cases err with
    | some e => simp [hd] at h
    | none =>
      simp only [hd] at h
      obtain ⟨hlen, later, hl, hll⟩ := ih v _ h
      refine ⟨?_, v :: later, decoded_of_findDecode q receiver receiverMap record rest m v later
        hd hl, by simp [hll]⟩
      have hs : ∀ (j : Nat) (w : Value) (l : List (List Value)),
          (writeThrough j w l).length = l.length := by
        intro j w l
        induction l with
        | nil => rfl
        | cons e es ihl =>
          rw [writeThrough]
          split
          · rfl
          · simp [ihl]
      have hsf : ∀ (old new : List (Field × Value)) (j : Nat) (l : List (List Value)),
          (shareFields j old new l).length = l.length := by
        intro old
        induction old with
        | nil => intro new j l; rfl
        | cons o olds iho =>
          intro new j l
          cases new with
          | nil => rfl
          | cons n news =>
            obtain ⟨f, x⟩ := o
            obtain ⟨g, y⟩ := n
            rw [shareFields, iho]
            split
            · exact hs _ _ _
            · rfl
      simp only [List.length_cons, hsf] at hlen
      simp only [List.length_cons]
      omega

/-- C14 (amended): for a sequence destination, after a successful `Find` the destination
holds the elements it held before the call, followed by one element per returned row; and
when no row is decoded through a pointer that an element appended before shares (for
records whose fields are scalars or pointers to scalars: when no field of pointer type is
non-nil in two consecutive decoded rows), these elements are the decoded result rows in
result order: row `k` scanned, packed by column name, encoded, and decoded into the record
that row `k - 1` left. (The rows are decoded into one reused record, of which each element
is a shallow copy; a later row overwrites the pointee that the elements before share.) -/
theorem Find_slice_appends (db : DB) (q : RowsDB) (ty : List Field)
    (rows : List (List Value)) (p : meta)
    (h : (Find db q (.structSlicePtr ty rows) p).ret = .nil) :
    ∃ (row : Rows) (columns : List String) (decoded : List (List (Field × Value)))
        (appended : List (List Value)),
      q.QueryContext (parseSQL .opTypeQuery p).1 (parseSQL .opTypeQuery p).2.filler = .ok row
        ∧ row.Columns = .ok columns
        ∧ decodedRows q (scanSurface columns ty).1 (scanSurface columns ty).2 row.records
            (ty.zip (q.New ty)) = some decoded
        ∧ decoded.length = row.records.length
        ∧ (Find db q (.structSlicePtr ty rows) p).dest = .structSlicePtr ty (rows ++ appended)
        ∧ appended.length = row.records.length
        ∧ (noSharedPointee decoded = true →
            appended = decoded.map fun v => v.map fun fv => fv.2) := by
  have hdest : ∀ (row : Rows) (columns : List String) (appended : List (List Value)),
      (parseSQL .opTypeQuery p).2.ctx = true →
      db.PrepareContext (parseSQL .opTypeQuery p).1 = none →
      q.QueryContext (parseSQL .opTypeQuery p).1 (parseSQL .opTypeQuery p).2.filler = .ok row →
      row.Columns = .ok columns →
      findRows q (scanSurface columns ty).1 (scanSurface columns ty).2 row.records
        (ty.zip (q.New ty)) [] = .ok appended →
      (Find db q (.structSlicePtr ty rows) p).dest = .structSlicePtr ty (rows ++ appended) := by
    intro row columns appended hctx hp hq hc hr
    simp only [Find, hctx, if_true, hp, hq, hc, checkIsSlice, findInto, hr]
  simp only [Find] at h
  by_cases hctx : (parseSQL .opTypeQuery p).2.ctx = true
  swap
  · simp [hctx] at h
  simp only [hctx, if_true] at h
  cases hp : db.PrepareContext (parseSQL .opTypeQuery p).1 with
  | some e => simp [hp] at h
  | none =>
    simp only [hp] at h
    cases hq : q.QueryContext (parseSQL .opTypeQuery p).1 (parseSQL .opTypeQuery p).2.filler with
    | error e => simp [hq] at h
    | ok row =>
      simp only [hq] at h
      cases hc : row.Columns with
      | error e => simp [hc] at h
      | ok columns =>
        simp only [hc, checkIsSlice, findInto] at h
        cases hr : findRows q (scanSurface columns ty).1 (scanSurface columns ty).2 row.records
            (ty.zip (q.New ty)) [] with
        | error e => simp [hr] at h
        | ok appended =>
          obtain ⟨hlen, decoded, hd, hdl⟩ := findRows_ok q _ _ _ _ _ _ hr
          refine ⟨row, columns, decoded, appended, rfl, hc, hd, hdl,
            hdest row columns appended hctx hp hq hc hr, by simpa using hlen, ?_⟩
          intro hk
          cases hrec : row.records with
          | nil =>
            rw [hrec] at hr hd
            simp only [decodedRows, Option.some.injEq] at hd
            simp only [findRows, Except.ok.injEq] at hr
            subst hd
            subst hr
            rfl
          | cons record rest =>
            rw [hrec] at hr hd
            obtain ⟨v, later, rfl, hfd, hl⟩ := findDecode_of_decoded q _ _ record rest _ decoded hd
            rw [findRows, hfd] at hr
            simp only [shareFields_nil] at hr
            rw [findRows_of_decoded q _ _ rest v _ later hl hk] at hr
            simp only [Except.ok.injEq] at hr
            rw [← hr]
            simp

/-- C14 at a destination that holds one element and a result of two rows: the destination
holds three elements afterwards, the old one first, then the two rows as decoded. -/
theorem Find_slice_appends_witness :
    (Find okDB twoRows heldSlice findQuery).ret = .nil
      ∧ (Find okDB twoRows heldSlice findQuery).dest =
        .structSlicePtr keyNameType [[.int 7, .str "old"], [.int 1, .str "a"], [.int 2, .str "b"]]
      ∧ ∃ (decoded : List (List (Field × Value))),
        decoded.map (fun v => v.map fun fv => fv.2) = [[.int 1, .str "a"], [.int 2, .str "b"]]
          ∧ noSharedPointee decoded = true
          ∧ (Find okDB twoRows heldSlice findQuery).dest =
            .structSlicePtr keyNameType
              ([[.int 7, .str "old"]] ++ decoded.map fun v => v.map fun fv => fv.2) := by
  have h : (Find okDB twoRows heldSlice findQuery).ret = .nil := by decide
  obtain ⟨row, columns, decoded, appended, h1, h2, h3, _, h5, _, h7⟩ :=
    Find_slice_appends okDB twoRows keyNameType [[.int 7, .str "old"]] findQuery h
  have hrow : row = ⟨.ok ["id", "name"], [[.int 1, .str "a"], [.int 2, .str "b"]]⟩ := by
    have h1' : (Except.ok ⟨.ok ["id", "name"], [[.int 1, .str "a"], [.int 2, .str "b"]]⟩ :
        Except String Rows) = .ok row := h1
    cases h1'
    rfl
  subst hrow
  have hcol : columns = ["id", "name"] := by
    have h2' : (Except.ok ["id", "name"] : Except String (List String)) = .ok columns := h2
    cases h2'
    rfl
  subst hcol
  have hdec : decoded =
      [[(⟨"Id", "id", "true", "int", true⟩, .int 1), (⟨"Name", "name", "", "string", true⟩, .str "a")],
        [(⟨"Id", "id", "true", "int", true⟩, .int 2), (⟨"Name", "name", "", "string", true⟩, .str "b")]] := by
    have h3' : decodedRows twoRows (scanSurface ["id", "name"] keyNameType).1
        (scanSurface ["id", "name"] keyNameType).2 [[.int 1, .str "a"], [.int 2, .str "b"]]
        (keyNameType.zip (twoRows.New keyNameType)) =
        some [[(⟨"Id", "id", "true", "int", true⟩, .int 1),
            (⟨"Name", "name", "", "string", true⟩, .str "a")],
          [(⟨"Id", "id", "true", "int", true⟩, .int 2),
            (⟨"Name", "name", "", "string", true⟩, .str "b")]] := by decide
    rw [h3'] at h3
    exact (Option.some.inj h3).symm
  subst hdec
  refine ⟨h, by decide,
    [[(⟨"Id", "id", "true", "int", true⟩, .int 1), (⟨"Name", "name", "", "string", true⟩, .str "a")],
      [(⟨"Id", "id", "true", "int", true⟩, .int 2),
        (⟨"Name", "name", "", "string", true⟩, .str "b")]],
    by decide, by decide, ?_⟩
  rw [← h7 (by decide)]
  exact h5

/-- C14 fails as stated in two ways. When the destination already holds an element, it
keeps it: after a successful `Find` with the two result rows `(1, a)` and `(2, b)` into a
slice holding `(7, old)`, the slice holds `(7, old), (1, a), (2, b)`, not the two decoded
rows alone. And with a field of type `*string` that is not null in two consecutive rows,
`(1, x)` and `(2, y)`, an empty destination ends with `(1, y), (2, y)`: the second row was
decoded into the pointee that the first element shares. -/
theorem Find_slice_appends_counterexample :
    ((Find okDB twoRows heldSlice findQuery).ret = .nil
        ∧ (Find okDB twoRows heldSlice findQuery).dest =
          .structSlicePtr keyNameType
            [[.int 7, .str "old"], [.int 1, .str "a"], [.int 2, .str "b"]]
        ∧ (Find okDB twoRows heldSlice findQuery).dest ≠
          .structSlicePtr keyNameType [[.int 1, .str "a"], [.int 2, .str "b"]])
      ∧ ((Find okDB twoNotes (.structSlicePtr noteType []) findQuery).ret = .nil
        ∧ (decodedRows twoNotes (scanSurface ["id", "note"] noteType).1
            (scanSurface ["id", "note"] noteType).2 [[.int 1, .str "x"], [.int 2, .str "y"]]
            (noteType.zip (twoNotes.New noteType))).map
              (fun d => d.map fun v => v.map fun fv => fv.2) =
          some [[.int 1, .str "x"], [.int 2, .str "y"]]
        ∧ (Find okDB twoNotes (.structSlicePtr noteType []) findQuery).dest =
          .structSlicePtr noteType [[.int 1, .str "y"], [.int 2, .str "y"]]) := by
  decide

theorem queryRowTail_trace (name : String) (db : DB) (sql : String) (p : meta)
    (hc : p.ctx = true) :
    (queryRowTail name db sql p).trace =
      if (db.PrepareContext sql).isSome then [.prepare sql]
      else [.prepare sql, .queryRow sql p.filler] := by
  unfold queryRowTail
  rw [if_pos hc]
  cases db.PrepareContext sql with
  | some e => rfl
  | none =>
    cases db.QueryRowScan sql p.filler with
    | error e => rfl
    | ok v => rfl

theorem parseSQL_count (p : meta) :
    parseSQL .opTypeCount p =
      ("SELECT " ++ p.fields ++ " FROM " ++ quoted p.tableName ++ whereClause (parseWhere p).1,
        (parseWhere p).2) := by
  simp only [parseSQL, writeWhere_eq, parseTableName_eq, String.empty_append]

theorem parseSQL_sum (p : meta) :
    parseSQL .opTypeSum p =
      ("SELECT SUM(" ++ p.fields ++ ") FROM " ++ quoted p.tableName
          ++ whereClause (parseWhere p).1,
        (parseWhere p).2) := by
  simp only [parseSQL, writeWhere_eq, parseTableName_eq, String.empty_append]

theorem from_quote (x : String) : " FROM " ++ ("\"" ++ x) = " FROM \"" ++ x := by
  apply String.ext
  simp

theorem sum_from_quote (x : String) : ") FROM " ++ ("\"" ++ x) = ") FROM \"" ++ x := by
  apply String.ext
  simp

theorem quoted_of_ne (t : String) (ht : t ≠ "") : quoted t = "\"" ++ t ++ "\"" := by
  simp [quoted, ht]

/-- C16 (amended): for every accumulator state with a non-empty table name and the context
set (as `Table` leaves it), `Count` prepares `SELECT <p> FROM "<table>"` followed by
` WHERE <predicates>` iff the predicates render to a non-empty text, where `<p>` is
`COUNT(*)` when the projection is the default `*` and the selected projection otherwise,
and (once prepared) queries it with the accumulated arguments; the sort, group, offset and
limit set on the accumulator do not appear: the calls made are the same whatever they are.
Without a context (a handle used again after a terminal call, with no `Table` call) `Count`
panics and prepares nothing; a state that the calls of the builder can reach with a
non-empty table name has the context set (`reachable_ctx`). -/
theorem Count_statement (db : DB) (p : meta) (ht : p.tableName ≠ "") :
    (p.ctx = true → ∃ stmt : String,
        stmt = "SELECT " ++ (if p.fields = "*" then "COUNT(*)" else p.fields) ++ " FROM \""
            ++ p.tableName ++ "\""
            ++ (if (parseWhere p).1 ≠ "" then " WHERE " ++ (parseWhere p).1 else "")
          ∧ (Count db p).trace =
            if (db.PrepareContext stmt).isSome then [.prepare stmt]
            else [.prepare stmt, .queryRow stmt (p.filler ++ argsOf p.where_)])
      ∧ (∀ (filed sortBy group : String) (offset limit : Int),
          (Count db (PgTable.Limit limit (PgTable.Offset offset
            (PgTable.Group group (PgTable.Sort filed sortBy p))))).trace = (Count db p).trace)
      ∧ (p.ctx = false → (Count db p).ret = .panic ∧ (Count db p).trace = []) := by
  refine ⟨?_, ?_, ?_⟩
  · intro hctx
    refine ⟨_, rfl, ?_⟩
    have hw : whereClause (parseWhere p).1 =
        (if (parseWhere p).1 ≠ "" then " WHERE " ++ (parseWhere p).1 else "") := rfl
    by_cases hf : p.fields = "*"
    · have hpw : (parseWhere { p with fields := "COUNT(*)" }).1 = (parseWhere p).1 := rfl
      simp only [Count, hf, if_true, parseSQL_count, parseWhere_filler,
        quoted_of_ne _ ht, hpw, hw, String.append_assoc, from_quote]
      exact queryRowTail_trace _ _ _ _ hctx
    · simp only [Count, hf, if_false, parseSQL_count, parseWhere_filler,
        quoted_of_ne _ ht, hw, String.append_assoc, from_quote]
      exact queryRowTail_trace _ _ _ _ hctx
  · intro filed sortBy group offset limit
    by_cases hf : p.fields = "*"
    · simp only [Count, PgTable.Limit, PgTable.Offset, PgTable.Group, PgTable.Sort, hf,
        if_true, parseSQL_count, parseWhere_filler]
      rfl
    · simp only [Count, PgTable.Limit, PgTable.Offset, PgTable.Group, PgTable.Sort, hf,
        if_false, parseSQL_count, parseWhere_filler]
      rfl
  · intro hctx
    by_cases hf : p.fields = "*"
    · simp only [Count, hf, if_true, parseSQL_count, parseWhere_filler]
      simp [queryRowTail, hctx]
    · simp only [Count, hf, if_false, parseSQL_count, parseWhere_filler]
      simp [queryRowTail, hctx]

/-- C16 at the chain of `TestPgTable_Count` (three predicates, `Sort("id", "desc")`,
`Offset(0)`, `Limit(5)`): `Count` prepares
`SELECT COUNT(*) FROM "app" WHERE id=$1 OR id=$2 AND type=$3`. -/
theorem Count_statement_witness :
    findQuery.tableName ≠ ""
      ∧ (Count okDB findQuery).trace =
        [.prepare "SELECT COUNT(*) FROM \"app\" WHERE id=$1 OR id=$2 AND type=$3",
          .queryRow "SELECT COUNT(*) FROM \"app\" WHERE id=$1 OR id=$2 AND type=$3"
            [.int 62, .int 1, .str "normal"]] := by
  refine ⟨by decide, ?_⟩
  obtain ⟨stmt, hs, ht⟩ := (Count_statement okDB findQuery (by decide)).1 rfl
  rw [ht, hs]
  decide

/-- C16 fails as stated at `Table("")`: `Count` prepares `SELECT COUNT(*) FROM `, with no
quoted table name. On a handle used again after a terminal call, with no `Table` call,
`Count` panics on the nil context and prepares nothing. -/
theorem Count_statement_counterexample :
    (Count okDB (Pg.Table "" meta.zero)).trace =
        [.prepare "SELECT COUNT(*) FROM ", .queryRow "SELECT COUNT(*) FROM " []]
      ∧ "SELECT COUNT(*) FROM " ≠
        "SELECT COUNT(*) FROM \"" ++ (Pg.Table "" meta.zero).tableName ++ "\""
      ∧ (Count okDB (Pg.clear findQuery)).ret = .panic
      ∧ (Count okDB (Pg.clear findQuery)).trace = [] := by
  decide

/-- C17 (amended): for every accumulator state with a non-default projection `f`, a
non-empty table name `t` and the context set (as `Table` leaves it), `Sum` prepares
`SELECT SUM(f) FROM "t"` followed by ` WHERE <predicates>` iff the predicates render to a
non-empty text, and (once prepared) queries it with the accumulated argument list, to
which the predicates' arguments were appended in order. A state that the calls of the
builder can reach with a non-empty table name has the context set (`reachable_ctx`). -/
theorem Sum_statement (db : DB) (p : meta) (ht : p.tableName ≠ "") (hf : p.fields ≠ "*")
    (hctx : p.ctx = true) :
    ∃ stmt : String,
      stmt = "SELECT SUM(" ++ p.fields ++ ") FROM \"" ++ p.tableName ++ "\""
          ++ (if (parseWhere p).1 ≠ "" then " WHERE " ++ (parseWhere p).1 else "")
        ∧ (PgTable.Sum db p).trace =
          if (db.PrepareContext stmt).isSome then [.prepare stmt]
          else [.prepare stmt, .queryRow stmt (p.filler ++ argsOf p.where_)] := by
  refine ⟨_, rfl, ?_⟩
  have hw : whereClause (parseWhere p).1 =
      (if (parseWhere p).1 ≠ "" then " WHERE " ++ (parseWhere p).1 else "") := rfl
  simp only [PgTable.Sum, hf, if_false, parseSQL_sum, parseWhere_filler,
    quoted_of_ne _ ht, hw, String.append_assoc, sum_from_quote]
  exact queryRowTail_trace _ _ _ _ hctx

/-- C17 at the chain of `TestPgTable_Sum`: `Sum` prepares
`SELECT SUM(id) FROM "app" WHERE id=$1 OR id=$2 AND type=$3` and queries it with the
arguments `[62, 1, "normal"]`. -/
theorem Sum_statement_witness :
    sumChain.tableName ≠ "" ∧ sumChain.fields ≠ "*" ∧ sumChain.ctx = true
      ∧ (PgTable.Sum okDB sumChain).trace =
        [.prepare "SELECT SUM(id) FROM \"app\" WHERE id=$1 OR id=$2 AND type=$3",
          .queryRow "SELECT SUM(id) FROM \"app\" WHERE id=$1 OR id=$2 AND type=$3"
            [.int 62, .int 1, .str "normal"]] := by
  refine ⟨by decide, by decide, rfl, ?_⟩
  obtain ⟨stmt, hs, ht⟩ := Sum_statement okDB sumChain (by decide) (by decide) rfl
  rw [ht, hs]
  decide

/-- C17 fails as stated at `Table("").Select("id")`: `Sum` prepares `SELECT SUM(id) FROM `,
with no quoted table name. On a handle used again after a terminal call, `Select("id")`
with no `Table` call leaves the context nil: `Sum` panics and prepares nothing. -/
theorem Sum_statement_counterexample :
    (PgTable.Sum okDB (PgTable.Select "id" (Pg.Table "" meta.zero))).trace =
        [.prepare "SELECT SUM(id) FROM ", .queryRow "SELECT SUM(id) FROM " []]
      ∧ "SELECT SUM(id) FROM " ≠
        "SELECT SUM(" ++ (PgTable.Select "id" (Pg.Table "" meta.zero)).fields ++ ") FROM \""
          ++ (PgTable.Select "id" (Pg.Table "" meta.zero)).tableName ++ "\""
      ∧ (PgTable.Sum okDB (PgTable.Select "id" (Pg.clear sumChain))).ret = .panic
      ∧ (PgTable.Sum okDB (PgTable.Select "id" (Pg.clear sumChain))).trace = [] := by
  decide

theorem replaceAllGo_two (o f A t S E O W : List Char) (c : Char) (hA : '$' ∉ A)
    (hS : '$' ∉ c :: S) (hE : '$' ∉ E) (hO : '$' ∉ O)
    (ht : occursIn ('$' :: o) t = false) (hc : c ∉ '$' :: o)
    (hW : replaceAllGo ('$' :: o) f 0 W = W) :
    replaceAllGo ('$' :: o) f 0
        (A ++ (t ++ (c :: S ++ ('$' :: o ++ (E ++ ('$' :: o ++ (O ++ W))))))) =
      A ++ (t ++ (c :: S ++ (f ++ (E ++ (f ++ (O ++ W)))))) := by
  rw [replaceAllGo_skip_free _ _ _ _ _ hA]
  have e1 : t ++ (c :: S ++ ('$' :: o ++ (E ++ ('$' :: o ++ (O ++ W))))) =
      t ++ c :: (S ++ ('$' :: o ++ (E ++ ('$' :: o ++ (O ++ W))))) := by simp
  rw [e1, replaceAllGo_skip_noOccur _ _ _ _ _ ht hc]
  have e2 : c :: (S ++ ('$' :: o ++ (E ++ ('$' :: o ++ (O ++ W))))) =
      (c :: S) ++ ('$' :: o ++ (E ++ ('$' :: o ++ (O ++ W)))) := by simp
  rw [e2, replaceAllGo_skip_free _ _ _ _ _ hS, replaceAllGo_match,
    replaceAllGo_skip_free _ _ _ _ _ hE, replaceAllGo_match,
    replaceAllGo_skip_free _ _ _ _ _ hO, hW]

theorem parseSQL_saveInt (p : meta) :
    parseSQL .opTypeSaveInt p =
      ("UPDATE " ++ quoted p.tableName ++ " SET $FIELDS = $FIELDS + 1"
          ++ whereClause (parseWhere p).1,
        (parseWhere p).2) := by
  simp only [parseSQL, writeWhere_eq, parseTableName_eq, String.empty_append]

theorem parseSQL_saveDec (p : meta) :
    parseSQL .opTypeSaveDec p =
      ("UPDATE " ++ quoted p.tableName ++ " SET $FIELDS = $FIELDS - 1"
          ++ whereClause (parseWhere p).1,
        (parseWhere p).2) := by
  simp only [parseSQL, writeWhere_eq, parseTableName_eq, String.empty_append]

theorem replaceAll_setInc (t field R : String) (ht : t ≠ "")
    (hn : Contains t "$FIELDS" = false) (hR : Contains R "$FIELDS" = false) :
    replaceAll ("UPDATE " ++ quoted t ++ " SET $FIELDS = $FIELDS + 1" ++ whereClause R)
        "$FIELDS" field =
      "UPDATE \"" ++ t ++ "\" SET " ++ field ++ " = " ++ field ++ " + 1"
        ++ (if R ≠ "" then " WHERE " ++ R else "") := by
  have hW := replaceAllGo_whereClause "FIELDS".data field.data R hR
  have key := replaceAllGo_two "FIELDS".data field.data "UPDATE \"".data t.data " SET ".data
    " = ".data " + 1".data (whereClause R).data '"' (by decide) (by decide) (by decide)
    (by decide) hn (by decide) hW
  have el : ("UPDATE " ++ quoted t ++ " SET $FIELDS = $FIELDS + 1" ++ whereClause R).data =
      "UPDATE \"".data ++ (t.data ++ ('"' :: " SET ".data ++ ('$' :: "FIELDS".data ++
        (" = ".data ++ ('$' :: "FIELDS".data ++ (" + 1".data ++ (whereClause R).data)))))) := by
    rw [quoted_of_ne t ht]
    simp
  have er : ("UPDATE \"" ++ t ++ "\" SET " ++ field ++ " = " ++ field ++ " + 1"
      ++ (if R ≠ "" then " WHERE " ++ R else "")).data =
      "UPDATE \"".data ++ (t.data ++ ('"' :: " SET ".data ++ (field.data ++
        (" = ".data ++ (field.data ++ (" + 1".data ++ (whereClause R).data)))))) := by
    have hw : whereClause R = (if R ≠ "" then " WHERE " ++ R else "") := rfl
    rw [hw]
    simp
  apply String.ext
  show replaceAllGo ('$' :: "FIELDS".data) field.data 0 _ = _
  rw [el, er]
  exact key

theorem replaceAll_setDec (t field R : String) (ht : t ≠ "")
    (hn : Contains t "$FIELDS" = false) (hR : Contains R "$FIELDS" = false) :
    replaceAll ("UPDATE " ++ quoted t ++ " SET $FIELDS = $FIELDS - 1" ++ whereClause R)
        "$FIELDS" field =
      "UPDATE \"" ++ t ++ "\" SET " ++ field ++ " = " ++ field ++ " - 1"
        ++ (if R ≠ "" then " WHERE " ++ R else "") := by
  have hW := replaceAllGo_whereClause "FIELDS".data field.data R hR
  have key := replaceAllGo_two "FIELDS".data field.data "UPDATE \"".data t.data " SET ".data
    " = ".data " - 1".data (whereClause R).data '"' (by decide) (by decide) (by decide)
    (by decide) hn (by decide) hW
  have el : ("UPDATE " ++ quoted t ++ " SET $FIELDS = $FIELDS - 1" ++ whereClause R).data =
      "UPDATE \"".data ++ (t.data ++ ('"' :: " SET ".data ++ ('$' :: "FIELDS".data ++
        (" = ".data ++ ('$' :: "FIELDS".data ++ (" - 1".data ++ (whereClause R).data)))))) := by
    rw [quoted_of_ne t ht]
    simp
  have er : ("UPDATE \"" ++ t ++ "\" SET " ++ field ++ " = " ++ field ++ " - 1"
      ++ (if R ≠ "" then " WHERE " ++ R else "")).data =
      "UPDATE \"".data ++ (t.data ++ ('"' :: " SET ".data ++ (field.data ++
        (" = ".data ++ (field.data ++ (" - 1".data ++ (whereClause R).data)))))) := by
    have hw : whereClause R = (if R ≠ "" then " WHERE " ++ R else "") := rfl
    rw [hw]
    simp
  apply String.ext
  show replaceAllGo ('$' :: "FIELDS".data) field.data 0 _ = _
  rw [el, er]
  exact key

/-- C18 (amended): for every field name `f` and every accumulator state whose table name
is not empty, whose context is set (as `Table` leaves it) and in which neither the table
name nor the rendered predicates contain the text `$FIELDS`, `SetInc(f)` prepares
`UPDATE "<table>" SET f = f + 1` and `SetDec(f)` prepares
`UPDATE "<table>" SET f = f - 1`, each followed by ` WHERE <predicates>` iff the
predicates render to a non-empty text. The field contributes no placeholder and no
argument: the predicates are rendered from the accumulator's own cursor, and the statement
is executed with the accumulated argument list, to which the predicates' arguments were
appended in order. A state that the calls of the builder can reach with a non-empty table
name has the context set (`reachable_ctx`). -/
theorem SetInc_SetDec_statement (db : DB) (field : String) (p : meta)
    (ht : p.tableName ≠ "") (hctx : p.ctx = true)
    (hn : Contains p.tableName "$FIELDS" = false)
    (hR : Contains (parseWhere p).1 "$FIELDS" = false) :
    (∃ stmt : String,
        stmt = "UPDATE \"" ++ p.tableName ++ "\" SET " ++ field ++ " = " ++ field ++ " + 1"
            ++ (if (parseWhere p).1 ≠ "" then " WHERE " ++ (parseWhere p).1 else "")
          ∧ (SetInc db field p).trace =
            if (db.PrepareContext stmt).isSome then [.prepare stmt]
            else [.prepare stmt, .exec stmt (p.filler ++ argsOf p.where_)])
      ∧ (∃ stmt : String,
        stmt = "UPDATE \"" ++ p.tableName ++ "\" SET " ++ field ++ " = " ++ field ++ " - 1"
            ++ (if (parseWhere p).1 ≠ "" then " WHERE " ++ (parseWhere p).1 else "")
          ∧ (SetDec db field p).trace =
            if (db.PrepareContext stmt).isSome then [.prepare stmt]
            else [.prepare stmt, .exec stmt (p.filler ++ argsOf p.where_)]) := by
  constructor
  · refine ⟨_, rfl, ?_⟩
    simp only [SetInc, parseSQL_saveInt, parseWhere_filler,
      replaceAll_setInc _ field _ ht hn hR]
    exact execTail_trace _ _ _ _ _ hctx
  · refine ⟨_, rfl, ?_⟩
    simp only [SetDec, parseSQL_saveDec, parseWhere_filler,
      replaceAll_setDec _ field _ ht hn hR]
    exact execTail_trace _ _ _ _ _ hctx

/-- C18 at `Table("app").Where("id=?", 6)`: `SetInc("views")` prepares
`UPDATE "app" SET views = views + 1 WHERE id=$1` and `SetDec("views")` prepares
`UPDATE "app" SET views = views - 1 WHERE id=$1`, each executed with the arguments `[6]`. -/
theorem SetInc_SetDec_statement_witness :
    (deleteChain.tableName ≠ "" ∧ deleteChain.ctx = true
        ∧ Contains deleteChain.tableName "$FIELDS" = false
        ∧ Contains (parseWhere deleteChain).1 "$FIELDS" = false)
      ∧ (SetInc okDB "views" deleteChain).trace =
        [.prepare "UPDATE \"app\" SET views = views + 1 WHERE id=$1",
          .exec "UPDATE \"app\" SET views = views + 1 WHERE id=$1" [.int 6]]
      ∧ (SetDec okDB "views" deleteChain).trace =
        [.prepare "UPDATE \"app\" SET views = views - 1 WHERE id=$1",
          .exec "UPDATE \"app\" SET views = views - 1 WHERE id=$1" [.int 6]] := by
  have h := SetInc_SetDec_statement okDB "views" deleteChain (by decide) rfl (by decide)
    (by decide)
  obtain ⟨⟨s1, hs1, ht1⟩, ⟨s2, hs2, ht2⟩⟩ := h
  refine ⟨by decide, ?_, ?_⟩
  · rw [ht1, hs1]
    decide
  · rw [ht2, hs2]
    decide

/-- C18 fails as stated at `Table("")`, where `SetInc("views")` prepares
`UPDATE  SET views = views + 1` with no quoted table name, and at
`Table("app").Where("note='$FIELDS'")`, where the replacement of `$FIELDS` reaches into
the predicate: the statement is `UPDATE "app" SET views = views + 1 WHERE note='views'`,
not `... WHERE note='$FIELDS'`. On a handle used again after a terminal call, with no
`Table` call, `SetInc` and `SetDec` panic on the nil context and prepare nothing. -/
theorem SetInc_SetDec_statement_counterexample :
    (SetInc okDB "views" (Pg.Table "" meta.zero)).trace =
        [.prepare "UPDATE  SET views = views + 1", .exec "UPDATE  SET views = views + 1" []]
      ∧ (parseWhere fieldsTextChain).1 = "note='$FIELDS'"
      ∧ (SetInc okDB "views" fieldsTextChain).trace =
        [.prepare "UPDATE \"app\" SET views = views + 1 WHERE note='views'",
          .exec "UPDATE \"app\" SET views = views + 1 WHERE note='views'" []]
      ∧ "UPDATE \"app\" SET views = views + 1 WHERE note='views'" ≠
        "UPDATE \"" ++ fieldsTextChain.tableName ++ "\" SET views = views + 1 WHERE "
          ++ (parseWhere fieldsTextChain).1
      ∧ (SetDec okDB "views" fieldsTextChain).trace =
        [.prepare "UPDATE \"app\" SET views = views - 1 WHERE note='views'",
          .exec "UPDATE \"app\" SET views = views - 1 WHERE note='views'" []]
      ∧ (SetInc okDB "views" (Pg.clear deleteChain)).ret = .panic
      ∧ (SetInc okDB "views" (Pg.clear deleteChain)).trace = []
      ∧ (SetDec okDB "views" (Pg.clear deleteChain)).ret = .panic
      ∧ (SetDec okDB "views" (Pg.clear deleteChain)).trace = [] := by
  decide

theorem parseSQL_save (p : meta) :
    parseSQL .opTypeSave p =
      ("UPDATE " ++ quoted p.tableName ++ " SET $FIELDS = $VALUES"
          ++ whereClause (parseWhere p).1,
        (parseWhere p).2) := by
  simp only [parseSQL, writeWhere_eq, parseTableName_eq, String.empty_append]

theorem range_map_succ (K n : Nat) :
    (List.range (K + 1)).map (fun i => dollar (n + i + 1)) =
      dollar (n + 1) :: (List.range K).map (fun i => dollar (n + 1 + i + 1)) := by
  rw [List.range_succ_eq_map, List.map_cons, List.map_map]
  congr 1
  apply List.map_congr_left
  intro i _
  simp only [Function.comp, Nat.succ_eq_add_one]
  congr 1
  omega

theorem updateEntries_eq (kvs : List (String × Value)) (v : UpdateVars) :
    updateEntries (kvs.map fun kv => (.str kv.1, kv.2)) v =
      { updateNum := v.updateNum + kvs.length,
        fieldList := v.fieldList ++ kvs.map (fun kv => "\"" ++ kv.1 ++ "\""),
        valueList := v.valueList ++
          (List.range kvs.length).map (fun i => dollar (v.updateNum + i + 1)),
        filler := v.filler ++ kvs.map (fun kv => kv.2) } := by
  induction kvs generalizing v with
  | nil => simp [updateEntries]
  | cons kv rest ih =>
    simp only [List.map_cons, updateEntries, ih, List.length_cons, range_map_succ,
      List.append_assoc, List.singleton_append, UpdateVars.mk.injEq, and_true, true_and]
    omega

theorem updateFields_eq (fs : List (Field × Value)) (v : UpdateVars)
    (hexp : ∀ fv ∈ fs, fv.1.pri = "" → fv.1.exported = true) :
    updateFields (fieldValues fs) v =
      some { updateNum := v.updateNum + (fs.filter fun fv => fv.1.pri = "").length,
             fieldList := v.fieldList ++
               (fs.filter fun fv => fv.1.pri = "").map (fun fv => externalName fv.1),
             valueList := v.valueList ++
               (List.range (fs.filter fun fv => fv.1.pri = "").length).map
                 (fun i => dollar (v.updateNum + i + 1)),
             filler := v.filler ++ (fs.filter fun fv => fv.1.pri = "").map (fun fv => fv.2) } := by
  induction fs generalizing v with
  | nil => simp [updateFields, fieldValues]
  | cons fv rest ih =>
    obtain ⟨f, x⟩ := fv
    have hrest : ∀ fv ∈ rest, fv.1.pri = "" → fv.1.exported = true :=
      fun fv h => hexp fv (List.mem_cons_of_mem _ h)
    have ih' := fun v => ih v hrest
    simp only [fieldValues] at ih' ⊢
    by_cases hp : f.pri = ""
    · have he : f.exported = true := hexp (f, x) (by simp) hp
      simp only [List.map_cons, updateFields, hp, ne_eq, not_true_eq_false, if_false, he,
        if_true, ih', decide_True, List.filter_cons_of_pos, List.length_cons, range_map_succ,
        List.append_assoc, List.singleton_append, externalName, Option.some.injEq,
        UpdateVars.mk.injEq, and_true, true_and]
      omega
    · simp [updateFields, hp, ih']

theorem replaceAllGo_fields_over_values (F W : List Char)
    (hW : replaceAllGo ('$' :: "FIELDS".data) F 0 W = W) :
    replaceAllGo ('$' :: "FIELDS".data) F 0 ('$' :: "VALUES".data ++ W) =
      '$' :: "VALUES".data ++ W := by
  show replaceAllGo ('$' :: ['F', 'I', 'E', 'L', 'D', 'S']) F 0
      ('$' :: (['V', 'A', 'L', 'U', 'E', 'S'] ++ W)) = '$' :: (['V', 'A', 'L', 'U', 'E', 'S'] ++ W)
  have hno : ¬ ('$' :: ['F', 'I', 'E', 'L', 'D', 'S']).isPrefixOf
      ('$' :: (['V', 'A', 'L', 'U', 'E', 'S'] ++ W)) = true := by
    simp [List.isPrefixOf]
  rw [replaceAllGo, if_neg hno, replaceAllGo_skip_free _ _ _ _ _ (by decide)]
  congr 2

/-- The two `strings.ReplaceAll` passes of `Update` on the template of
`parseSQL(opTypeSave)` put the field list and the value references in place, when neither
the table name nor the rendered predicates contain `$FIELDS` or `$VALUES` and no field
name contains `$VALUES`. -/
theorem updateText_literal (t : String) (fl vl : List String) (R : String)
    (htF : Contains t "$FIELDS" = false) (htV : Contains t "$VALUES" = false)
    (hf : ∀ f ∈ fl, Contains f "$VALUES" = false)
    (hRF : Contains R "$FIELDS" = false) (hRV : Contains R "$VALUES" = false) :
    updateText ("UPDATE " ++ quoted t ++ " SET $FIELDS = $VALUES" ++ whereClause R) fl vl =
      "UPDATE " ++ quoted t ++ " SET (" ++ Join fl "," ++ ") = (" ++ Join vl "," ++ ")"
        ++ whereClause R := by
  have hF : occursIn ('$' :: "VALUES".data) ("(" ++ Join fl "," ++ ")").data = false :=
    occursIn_paren _ _ (by decide) (occursIn_Join _ _ (by decide) hf)
  have hWF := replaceAllGo_whereClause "FIELDS".data ("(" ++ Join fl "," ++ ")").data R hRF
  have hWV := replaceAllGo_whereClause "VALUES".data ("(" ++ Join vl "," ++ ")").data R hRV
  have el : ("UPDATE " ++ quoted t ++ " SET $FIELDS = $VALUES" ++ whereClause R).data =
      "UPDATE ".data ++ ((quoted t).data ++ (" SET ".data ++ ('$' :: "FIELDS".data ++
        (" = ".data ++ ('$' :: "VALUES".data ++ (whereClause R).data))))) := by
    simp
  have pass1 : replaceAllGo ('$' :: "FIELDS".data) ("(" ++ Join fl "," ++ ")").data 0
      ("UPDATE ".data ++ ((quoted t).data ++ (" SET ".data ++ ('$' :: "FIELDS".data ++
        (" = ".data ++ ('$' :: "VALUES".data ++ (whereClause R).data)))))) =
      "UPDATE ".data ++ ((quoted t).data ++ (" SET ".data ++
        (("(" ++ Join fl "," ++ ")").data ++
          (' ' :: "= ".data ++ ('$' :: "VALUES".data ++ (whereClause R).data))))) := by
    rw [replaceAllGo_skip_free _ _ _ _ _ (by decide),
      replaceAllGo_skip_quoted _ _ _ _ (by decide) htF,
      replaceAllGo_skip_free _ _ _ _ _ (by decide), replaceAllGo_match,
      replaceAllGo_skip_free _ _ _ _ _ (by decide),
      replaceAllGo_fields_over_values _ _ hWF]
  have pass2 : replaceAllGo ('$' :: "VALUES".data) ("(" ++ Join vl "," ++ ")").data 0
      ("UPDATE ".data ++ ((quoted t).data ++ (" SET ".data ++
        (("(" ++ Join fl "," ++ ")").data ++
          (' ' :: "= ".data ++ ('$' :: "VALUES".data ++ (whereClause R).data)))))) =
      "UPDATE ".data ++ ((quoted t).data ++ (" SET ".data ++
        (("(" ++ Join fl "," ++ ")").data ++
          (' ' :: "= ".data ++ (("(" ++ Join vl "," ++ ")").data ++ (whereClause R).data))))) := by
    have e1 : ∀ X : List Char, ' ' :: "= ".data ++ X = ' ' :: ("= ".data ++ X) := fun _ => rfl
    have e2 : ∀ X : List Char, ' ' :: ("= ".data ++ X) = (' ' :: "= ".data) ++ X := fun _ => rfl
    rw [replaceAllGo_skip_free _ _ _ _ _ (by decide),
      replaceAllGo_skip_quoted _ _ _ _ (by decide) htV,
      replaceAllGo_skip_free _ _ _ _ _ (by decide), e1,
      replaceAllGo_skip_noOccur _ _ _ _ _ hF (by decide), e2,
      replaceAllGo_skip_free _ _ _ _ _ (by decide), replaceAllGo_match, hWV]
  apply String.ext
  unfold updateText replaceAll
  show replaceAllGo ('$' :: "VALUES".data) ("(" ++ Join vl "," ++ ")").data 0
      (replaceAllGo ('$' :: "FIELDS".data) ("(" ++ Join fl "," ++ ")").data 0
        ("UPDATE " ++ quoted t ++ " SET $FIELDS = $VALUES" ++ whereClause R).data) = _
  rw [el, pass1, pass2]
  simp

theorem parseWhere_accumulate (p0 : meta) (hw : p0.where_ = []) (hc : p0.storageCursor = 0)
    (hf : p0.filler = []) (ps : List Marked)
    (hq : ∀ q ∈ ps, '?' ∉ q.pre.data ∧ '?' ∉ q.post.data) :
    (parseWhere (accumulate ps p0)).1 =
        String.join (ps.enum.map fun iq =>
          sepAt iq.1 iq.2.isOr ++ iq.2.pre ++ dollar (iq.1 + 1) ++ iq.2.post)
      ∧ (parseWhere (accumulate ps p0)).2.filler = ps.map (fun q => q.arg)
      ∧ (parseWhere (accumulate ps p0)).2.storageCursor = ps.length := by
  have h := parseWhereLoop_marked ps hq 0 "" [] (fun _ => rfl) (fun h => absurd rfl h)
  simp only [parseWhere, accumulate_eq, hw, hc, hf, List.nil_append, h,
    String.empty_append, List.enum, Nat.zero_add, and_self]

theorem accumulate_tableName (ps : List Marked) (p0 : meta) :
    (accumulate ps p0).tableName = p0.tableName := by
  rw [accumulate_eq]

theorem accumulate_ctx (ps : List Marked) (p0 : meta) :
    (accumulate ps p0).ctx = p0.ctx := by
  rw [accumulate_eq]

/-- C19 (amended): for every `Update` with a partial key-value set of `n` string-keyed
entries, taken in their iteration order, on an accumulator whose context is set (as `Table`
leaves it) and whose `WHERE` rendering left the cursor at `c`, when neither the table name
nor the rendered predicates contain `$FIELDS` or `$VALUES` and no key contains `$VALUES`:
the statement prepared is `UPDATE "<table>" SET (<keys>) = (<references>)` followed by the
`WHERE` clause, where the SET field list is the `n` supplied keys in that order, each in
double quotes, and the SET value references are `$c+1, ..., $c+n` in that order; the `n`
values are appended in the same order to the argument list after the predicates'
arguments; no key is left out. -/
theorem Update_key_value_set (db : DB) (p : meta) (kvs : List (String × Value))
    (hctx : p.ctx = true)
    (htF : Contains p.tableName "$FIELDS" = false)
    (htV : Contains p.tableName "$VALUES" = false)
    (hk : ∀ kv ∈ kvs, Contains kv.1 "$VALUES" = false)
    (hRF : Contains (parseWhere p).1 "$FIELDS" = false)
    (hRV : Contains (parseWhere p).1 "$VALUES" = false) :
    ∃ (fieldList valueList : List String) (stmt : String),
      fieldList = kvs.map (fun kv => "\"" ++ kv.1 ++ "\"")
        ∧ valueList = (List.range kvs.length).map
            (fun i => dollar ((parseWhere p).2.storageCursor + i + 1))
        ∧ stmt = "UPDATE " ++ quoted p.tableName ++ " SET (" ++ Join fieldList ","
            ++ ") = (" ++ Join valueList "," ++ ")"
            ++ (if (parseWhere p).1 ≠ "" then " WHERE " ++ (parseWhere p).1 else "")
        ∧ (Update db (.mapPtr (kvs.map fun kv => (.str kv.1, kv.2))) p).trace =
            (if (db.PrepareContext stmt).isSome then [.prepare stmt]
              else [.prepare stmt,
                .exec stmt (p.filler ++ argsOf p.where_ ++ kvs.map (fun kv => kv.2))]) := by
  have hfl : ∀ f ∈ kvs.map (fun kv => "\"" ++ kv.1 ++ "\""), Contains f "$VALUES" = false := by
    intro f hfm
    obtain ⟨kv, hkv, rfl⟩ := List.mem_map.1 hfm
    exact occursIn_dquote _ _ (by decide) (hk kv hkv)
  have hw : whereClause (parseWhere p).1 =
      (if (parseWhere p).1 ≠ "" then " WHERE " ++ (parseWhere p).1 else "") := rfl
  have hstmt := updateText_literal p.tableName (kvs.map fun kv => "\"" ++ kv.1 ++ "\"")
    ((List.range kvs.length).map fun i => dollar ((parseWhere p).2.storageCursor + i + 1))
    (parseWhere p).1 htF htV hfl hRF hRV
  rw [hw] at hstmt
  refine ⟨_, _, _, rfl, rfl, rfl, ?_⟩
  rw [← hstmt]
  simp only [Update, updateBuild, checkUpdateType, updateVars, updateEntries_eq, parseSQL_save,
    parseWhere_filler, List.nil_append]
  exact execTail_trace _ _ _ _ _ hctx

/-- C19 at `Table("app").Where("id=?", 62)` with the entries `name: "x"`, `id: 9`: the
statement is `UPDATE "app" SET ("name","id") = ($2,$3) WHERE id=$1` with the arguments
`[62, "x", 9]`. -/
theorem Update_key_value_set_witness :
    (Update okDB (.mapPtr (nameAndId.map fun kv => (.str kv.1, kv.2)))
        (accumulate updatePreds (Pg.Table "app" meta.zero))).trace =
      [.prepare "UPDATE \"app\" SET (\"name\",\"id\") = ($2,$3) WHERE id=$1",
        .exec "UPDATE \"app\" SET (\"name\",\"id\") = ($2,$3) WHERE id=$1"
          [.int 62, .str "x", .int 9]] := by
  obtain ⟨fl, vl, stmt, h1, h2, h3, h4⟩ :=
    Update_key_value_set okDB (accumulate updatePreds (Pg.Table "app" meta.zero)) nameAndId
      rfl (by decide) (by decide) (by decide) (by decide) (by decide)
  rw [h4, h3, h1, h2]
  decide

/-- C19 fails as stated in three ways. On a handle used again after a terminal call, with
no `Table` call, `Update` panics on the nil context and prepares nothing. The key
`a$VALUES` is replaced by the second `strings.ReplaceAll`: the statement is
`UPDATE "app" SET ("a($1)") = ($1)`, whose field list is not the supplied key. A table
name or a predicate that holds `$FIELDS` or `$VALUES` is replaced too, as in
`UPDATE "t("name","id")" SET ...` and `... WHERE note='($2,$3)' AND id=$1`. -/
theorem Update_key_value_set_counterexample :
    ((Update okDB (.mapPtr (nameAndId.map fun kv => (.str kv.1, kv.2)))
          (Pg.clear (Pg.Table "app" meta.zero))).ret = .panic
        ∧ (Update okDB (.mapPtr (nameAndId.map fun kv => (.str kv.1, kv.2)))
          (Pg.clear (Pg.Table "app" meta.zero))).trace = [])
      ∧ (Update okDB (.mapPtr [(.str "a$VALUES", .str "x")]) (Pg.Table "app" meta.zero)).trace =
        [.prepare "UPDATE \"app\" SET (\"a($1)\") = ($1)",
          .exec "UPDATE \"app\" SET (\"a($1)\") = ($1)" [.str "x"]]
      ∧ (Update okDB (.mapPtr (nameAndId.map fun kv => (.str kv.1, kv.2)))
          (Pg.Table "t$FIELDS" meta.zero)).trace.head? =
        some (.prepare "UPDATE \"t(\"name\",\"id\")\" SET (\"name\",\"id\") = ($1,$2)")
      ∧ (Update okDB (.mapPtr (nameAndId.map fun kv => (.str kv.1, kv.2)))
          (Pg.Table "t$VALUES" meta.zero)).trace.head? =
        some (.prepare "UPDATE \"t($1,$2)\" SET (\"name\",\"id\") = ($1,$2)")
      ∧ (Update okDB (.mapPtr (nameAndId.map fun kv => (.str kv.1, kv.2)))
          (PgTable.Where "note='$VALUES' AND id=?" [.int 62] (Pg.Table "app" meta.zero))).trace.head? =
        some (.prepare
          "UPDATE \"app\" SET (\"name\",\"id\") = ($2,$3) WHERE note='($2,$3)' AND id=$1")
      ∧ (Update okDB (.mapPtr (nameAndId.map fun kv => (.str kv.1, kv.2)))
          (PgTable.Where "note='$FIELDS' AND id=?" [.int 62] (Pg.Table "app" meta.zero))).trace.head? =
        some (.prepare ("UPDATE \"app\" SET (\"name\",\"id\") = ($2,$3) "
          ++ "WHERE note='(\"name\",\"id\")' AND id=$1")) := by
  decide

/-- C12 (amended): for every `Update` of a full record with `K` non-generated fields, all
of them exported, on a scope opened by `Table` (the context is set) that holds `N`
predicates, each with one marker and one argument, when neither the table name nor the
rendered predicates contain `$FIELDS` or `$VALUES` and no field name contains `$VALUES`:
the statement prepared is `UPDATE "<table>" SET (<names>) = (<references>)` followed by
the `WHERE` clause, where the SET field list is the external names of the non-generated
fields in declaration order, the SET value references are `$N+1, ..., $N+K`, and the
`WHERE` clause holds the references `$1, ..., $N` (the pieces
`separator ++ pre ++ $(i+1) ++ post`); the argument list is the `N` predicate arguments
followed by the `K` field values: the reference `$i` stands at the place of the `i`-th
argument. -/
theorem Update_full_record (db : DB) (p0 : meta) (hw : p0.where_ = [])
    (hc : p0.storageCursor = 0) (hf : p0.filler = []) (hctx : p0.ctx = true)
    (ps : List Marked)
    (hq : ∀ q ∈ ps, '?' ∉ q.pre.data ∧ '?' ∉ q.post.data) (fs : List (Field × Value))
    (hexp : ∀ fv ∈ fs, fv.1.pri = "" → fv.1.exported = true)
    (htF : Contains p0.tableName "$FIELDS" = false)
    (htV : Contains p0.tableName "$VALUES" = false)
    (hn : ∀ fv ∈ fs, fv.1.pri = "" → Contains (externalName fv.1) "$VALUES" = false)
    (hRF : Contains (parseWhere (accumulate ps p0)).1 "$FIELDS" = false)
    (hRV : Contains (parseWhere (accumulate ps p0)).1 "$VALUES" = false) :
    ∃ (fieldList valueList : List String) (rendered stmt : String),
      fieldList = (fs.filter fun fv => fv.1.pri = "").map (fun fv => externalName fv.1)
        ∧ valueList = (List.range (fs.filter fun fv => fv.1.pri = "").length).map
            (fun i => dollar (ps.length + i + 1))
        ∧ rendered = String.join (ps.enum.map fun iq =>
            sepAt iq.1 iq.2.isOr ++ iq.2.pre ++ dollar (iq.1 + 1) ++ iq.2.post)
        ∧ stmt = "UPDATE " ++ quoted p0.tableName ++ " SET (" ++ Join fieldList ","
            ++ ") = (" ++ Join valueList "," ++ ")"
            ++ (if rendered ≠ "" then " WHERE " ++ rendered else "")
        ∧ (Update db (.structPtr fs) (accumulate ps p0)).trace =
            (if (db.PrepareContext stmt).isSome then [.prepare stmt]
              else [.prepare stmt,
                .exec stmt (ps.map (fun q => q.arg) ++
                  (fs.filter fun fv => fv.1.pri = "").map (fun fv => fv.2))]) := by
  obtain ⟨h1, h2, h3⟩ := parseWhere_accumulate p0 hw hc hf ps hq
  have hfl : ∀ f ∈ (fs.filter fun fv => fv.1.pri = "").map (fun fv => externalName fv.1),
      Contains f "$VALUES" = false := by
    intro f hfm
    obtain ⟨fv, hfv, rfl⟩ := List.mem_map.1 hfm
    have hp := (List.mem_filter.1 hfv).2
    exact hn fv (List.mem_of_mem_filter hfv) (by simpa using hp)
  have hw' : ∀ R : String, whereClause R = (if R ≠ "" then " WHERE " ++ R else "") :=
    fun _ => rfl
  rw [h1] at hRF hRV
  have hstmt := updateText_literal p0.tableName
    ((fs.filter fun fv => fv.1.pri = "").map fun fv => externalName fv.1)
    ((List.range (fs.filter fun fv => fv.1.pri = "").length).map
      fun i => dollar (ps.length + i + 1))
    _ htF htV hfl hRF hRV
  rw [hw'] at hstmt
  refine ⟨_, _, _, _, rfl, rfl, rfl, rfl, ?_⟩
  rw [← hstmt]
  have hc2 : (parseWhere (accumulate ps p0)).2.ctx = true := by
    rw [parseWhere_ctx, accumulate_ctx]
    exact hctx
  simp only [Update, updateBuild, checkUpdateType, updateVars, updateFields_eq _ _ hexp,
    parseSQL_save, List.nil_append, h1, h2, h3, accumulate_tableName, hw']
  exact execTail_trace _ _ _ _ _ hc2

/-- C12 at `TestPgTable_Update`: `Table("app").Where("id=?", 62).Update(&TestTable{...})`
prepares `UPDATE "app" SET (name,desc,address,created_date,changed_date,deleted_date,
is_first) = ($2,$3,$4,$5,$6,$7,$8) WHERE id=$1`, with `62` as the first argument. -/
theorem Update_full_record_witness :
    (∀ q ∈ updatePreds, '?' ∉ q.pre.data ∧ '?' ∉ q.post.data)
      ∧ (Update okDB (.structPtr (testRecord "aaa" "aaa" "bbb" "t1" "t2"))
          (accumulate updatePreds (Pg.Table "app" meta.zero))).trace =
        [.prepare ("UPDATE \"app\" SET (name,desc,address,created_date,changed_date,"
            ++ "deleted_date,is_first) = ($2,$3,$4,$5,$6,$7,$8) WHERE id=$1"),
          .exec ("UPDATE \"app\" SET (name,desc,address,created_date,changed_date,"
            ++ "deleted_date,is_first) = ($2,$3,$4,$5,$6,$7,$8) WHERE id=$1")
            [.int 62, .str "aaa", .str "aaa", .str "bbb", .time "t1", .time "t2", .null,
              .bool false]] := by
  refine ⟨by decide, ?_⟩
  obtain ⟨fl, vl, rendered, stmt, h1, h2, h3, h4, h5⟩ :=
    Update_full_record okDB (Pg.Table "app" meta.zero) rfl rfl rfl rfl updatePreds (by decide)
      (testRecord "aaa" "aaa" "bbb" "t1" "t2") (by decide) (by decide) (by decide) (by decide)
      (by decide) (by decide)
  rw [h5, h4, h3, h1, h2]
  decide

/-- C12 fails as stated in four ways. On a handle used again after a terminal call,
`Where("id=?", 62)` with no `Table` call leaves the context nil: `Update` panics and
prepares nothing. A non-generated field that is not exported makes `Interface()` panic.
With the one-marker predicate `note='$VALUES' AND id=?` the second `strings.ReplaceAll`
reaches into the `WHERE` clause, which then holds `$2, ...` besides `$1`; with
`note='$FIELDS' AND id=?` the first one does. A field named `$VALUES`, and a table name
that holds `$FIELDS` or `$VALUES`, are replaced too. -/
theorem Update_full_record_counterexample :
    ((Update okDB (.structPtr keyNameRecord) (accumulate updatePreds meta.zero)).ret = .panic
        ∧ (Update okDB (.structPtr keyNameRecord) (accumulate updatePreds meta.zero)).trace = [])
      ∧ ((Update okDB (.structPtr hiddenRecord)
            (accumulate updatePreds (Pg.Table "app" meta.zero))).ret = .panic
        ∧ (Update okDB (.structPtr hiddenRecord)
            (accumulate updatePreds (Pg.Table "app" meta.zero))).trace = [])
      ∧ (Update okDB (.structPtr keyNameRecord)
          (accumulate [⟨false, "note='$VALUES' AND id=", "", .int 62⟩]
            (Pg.Table "app" meta.zero))).trace.head? =
        some (.prepare "UPDATE \"app\" SET (name) = ($2) WHERE note='($2)' AND id=$1")
      ∧ (Update okDB (.structPtr keyNameRecord)
          (accumulate [⟨false, "note='$FIELDS' AND id=", "", .int 62⟩]
            (Pg.Table "app" meta.zero))).trace.head? =
        some (.prepare "UPDATE \"app\" SET (name) = ($2) WHERE note='(name)' AND id=$1")
      ∧ (Update okDB (.structPtr valuesNameRecord)
          (accumulate updatePreds (Pg.Table "app" meta.zero))).trace.head? =
        some (.prepare "UPDATE \"app\" SET (($2)) = ($2) WHERE id=$1")
      ∧ (Update okDB (.structPtr keyNameRecord)
          (accumulate updatePreds (Pg.Table "t$FIELDS" meta.zero))).trace.head? =
        some (.prepare "UPDATE \"t(name)\" SET (name) = ($2) WHERE id=$1")
      ∧ (Update okDB (.structPtr keyNameRecord)
          (accumulate updatePreds (Pg.Table "t$VALUES" meta.zero))).trace.head? =
        some (.prepare "UPDATE \"t($2)\" SET (name) = ($2) WHERE id=$1") := by
  decide

theorem saveRows_eq (rows : List (List (Field × Value))) (k : Nat) (v : SaveVars)
    (hexp : ∀ row ∈ rows, ∀ fv ∈ row, fv.1.pri = "" → fv.1.exported = true) :
    saveRows (rows.map fieldValues) k v =
      some { insertNum := v.insertNum +
               (rows.map fun row => (row.filter fun fv => fv.1.pri = "").length).sum,
             fieldList := v.fieldList ++
               (if k = 0 then
                 ((rows.head?).map fun row => row.map fun fv => externalName fv.1).getD []
                else []),
             valueList := v.valueList ++ (groupsFrom v.insertNum rows).map (fun g => Join g ","),
             insertArgs := v.insertArgs ++
               (rows.map fun row =>
                 (row.filter fun fv => fv.1.pri = "").map fun fv => fv.2).flatten } := by
  induction rows generalizing k v with
  | nil => simp [saveRows, groupsFrom]
  | cons row rest ih =>
    have hrow := hexp row (by simp)
    have hrest : ∀ r ∈ rest, ∀ fv ∈ r, fv.1.pri = "" → fv.1.exported = true :=
      fun r hr => hexp r (List.mem_cons_of_mem _ hr)
    simp only [List.map_cons, saveRows, saveFields_eq _ _ _ _ hrow, ih _ _ hrest,
      List.nil_append, List.sum_cons, groupsFrom, List.head?_cons, Option.map_some',
      Option.getD_some, List.flatten_cons, List.append_assoc, List.singleton_append,
      Nat.add_eq_zero, one_ne_zero, and_false, if_false, List.append_nil, Option.some.injEq,
      SaveVars.mk.injEq, and_true, true_and]
    omega

theorem groupsFrom_length (n : Nat) (rows : List (List (Field × Value))) :
    (groupsFrom n rows).length = rows.length := by
  induction rows generalizing n with
  | nil => rfl
  | cons row rest ih => simp [groupsFrom, ih]

theorem groupsFrom_mem (n : Nat) (rows : List (List (Field × Value))) (g : List String)
    (h : g ∈ groupsFrom n rows) : ∃ m row, row ∈ rows ∧ g = posFrom m row := by
  induction rows generalizing n with
  | nil => simp [groupsFrom] at h
  | cons row rest ih =>
    simp only [groupsFrom, List.mem_cons] at h
    rcases h with h | h
    · exact ⟨n, row, by simp, h⟩
    · obtain ⟨m, r, hr, hg⟩ := ih _ h
      exact ⟨m, r, List.mem_cons_of_mem _ hr, hg⟩

theorem groupsFrom_filter (n : Nat) (rows : List (List (Field × Value))) :
    (groupsFrom n rows).flatten.filter (fun x => x ≠ "DEFAULT") =
      (List.range (rows.map fun row => (row.filter fun fv => fv.1.pri = "").length).sum).map
        fun i => dollar (n + i + 1) := by
  induction rows generalizing n with
  | nil => rfl
  | cons row rest ih =>
    simp only [groupsFrom, List.flatten_cons, List.filter_append, posFrom_filter, ih,
      List.map_cons, List.sum_cons, List.range_add, List.map_append, List.map_map]
    congr 1
    apply List.map_congr_left
    intro i _
    simp only [Function.comp]
    congr 1
    omega

theorem zip_nonGen_length (ty : List Field) (row : List Value) (h : row.length = ty.length) :
    ((ty.zip row).filter fun fv => fv.1.pri = "").length =
      (ty.filter fun f => f.pri = "").length := by
  induction ty generalizing row with
  | nil => simp
  | cons f rest ih =>
    cases row with
    | nil => simp at h
    | cons x xs =>
      have hx : xs.length = rest.length := by simpa using h
      by_cases hp : f.pri = "" <;> simp [List.zip_cons_cons, List.filter_cons, hp, ih xs hx]

theorem zip_names (ty : List Field) (row : List Value) (h : row.length = ty.length) :
    ((ty.zip row).map fun fv => externalName fv.1) = ty.map externalName := by
  induction ty generalizing row with
  | nil => simp
  | cons f rest ih =>
    cases row with
    | nil => simp at h
    | cons x xs =>
      have hx : xs.length = rest.length := by simpa using h
      simp [List.zip_cons_cons, ih xs hx]

theorem sum_map_const {α : Type} (l : List α) (f : α → Nat) (K : Nat)
    (h : ∀ x ∈ l, f x = K) : (l.map f).sum = l.length * K := by
  induction l with
  | nil => simp
  | cons a rest ih =>
    have ha := h a (by simp)
    have hr := ih (fun x hx => h x (List.mem_cons_of_mem _ hx))
    simp only [List.map_cons, List.sum_cons, ha, hr, List.length_cons]
    rw [Nat.add_mul, Nat.one_mul, Nat.add_comm]

theorem Join_paren (a : String) (l : List String) :
    "(" ++ Join (a :: l) "),(" ++ ")" = Join ((a :: l).map fun g => "(" ++ g ++ ")") "," := by
  induction l generalizing a with
  | nil => simp [Join]
  | cons b rest ih =>
    have h := ih b
    simp only [List.map_cons] at h
    simp only [Join, List.map_cons, ← h]
    apply String.ext
    simp

theorem saveBuild_slice (sql : String) (ty : List Field) (row : List Value)
    (rest : List (List Value)) (hrow : row.length = ty.length)
    (hexp : ∀ f ∈ ty, f.pri = "" → f.exported = true) :
    saveBuild sql (.structSlicePtr ty (row :: rest)) =
      some (saveText sql (ty.map externalName)
          ((groupsFrom 0 ((row :: rest).map fun r => ty.zip r)).map fun g => Join g ","),
        ((row :: rest).map fun r =>
          ((ty.zip r).filter fun fv => fv.1.pri = "").map fun fv => fv.2).flatten) := by
  have hz : ∀ r ∈ (row :: rest).map (fun r => ty.zip r), ∀ fv ∈ r,
      fv.1.pri = "" → fv.1.exported = true := by
    intro r hr fv hfv
    obtain ⟨r0, _, rfl⟩ := List.mem_map.1 hr
    obtain ⟨f, x⟩ := fv
    exact hexp f (List.of_mem_zip hfv).1
  have hm : (row :: rest).map (fun r => fieldValues (ty.zip r)) =
      ((row :: rest).map fun r => ty.zip r).map fieldValues := by
    rw [List.map_map]
    rfl
  have key := saveRows_eq ((row :: rest).map fun r => ty.zip r) 0 ⟨0, [], [], []⟩ hz
  unfold saveBuild
  simp only [checkIsSlice, saveRecords]
  rw [hm, key]
  simp only [List.nil_append, if_true, Nat.zero_add, List.map_cons, List.head?_cons,
    Option.map_some', Option.getD_some, zip_names ty row hrow, List.map_map, Function.comp_def]

/-- C11 (amended): for every bulk `Save` of a sequence of `M ≥ 1` records of a type with
`K` non-generated fields, all of them exported, on a scope whose context is set (as `Table`
leaves it) and whose table name contains neither `$FIELDS` nor `$VALUES`, no column name
containing `$VALUES`: the statement prepared is
`INSERT INTO "<table>"(<columns>) VALUES (<group>),...,(<group>)`, whose VALUES section
consists of exactly `M` parenthesised comma-separated groups, one per record in order,
each with one position per field: `DEFAULT` exactly at the generated fields and a
positional reference at each of the `K` others. The references are numbered `1..M×K`
consecutively across the groups, the argument list has length `M×K` and holds the
non-generated values record by record in the same order, and the column list is emitted
once, with the external names of the fields of the first record. -/
theorem Save_bulk (db : DB) (p : meta) (ty : List Field) (rows : List (List Value))
    (hwf : ∀ row ∈ rows, row.length = ty.length) (hM : rows ≠ [])
    (hctx : p.ctx = true)
    (hexp : ∀ f ∈ ty, f.pri = "" → f.exported = true)
    (htF : Contains p.tableName "$FIELDS" = false)
    (htV : Contains p.tableName "$VALUES" = false)
    (hcV : ∀ f ∈ ty, Contains (externalName f) "$VALUES" = false) :
    ∃ (groups : List (List String)) (stmt : String),
      groups.length = rows.length
        ∧ (∀ g ∈ groups, g.length = ty.length
            ∧ (∀ (j : Nat) (f : Field), ty[j]? = some f →
                (f.pri ≠ "" ↔ g[j]? = some "DEFAULT"))
            ∧ (g.filter (fun x => x ≠ "DEFAULT")).length =
                (ty.filter fun f => f.pri = "").length)
        ∧ groups.flatten.filter (fun x => x ≠ "DEFAULT") =
            (List.range (rows.length * (ty.filter fun f => f.pri = "").length)).map
              (fun i => dollar (i + 1))
        ∧ stmt = "INSERT INTO " ++ quoted p.tableName ++ "("
            ++ Join (ty.map externalName) "," ++ ") VALUES "
            ++ Join (groups.map fun g => "(" ++ Join g "," ++ ")") ","
        ∧ (Save db (.structSlicePtr ty rows) p).trace =
            (if (db.PrepareContext stmt).isSome then [.prepare stmt]
              else [.prepare stmt,
                .exec stmt ((rows.map fun r =>
                  ((ty.zip r).filter fun fv => fv.1.pri = "").map fun fv => fv.2).flatten)])
        ∧ ((rows.map fun r =>
              ((ty.zip r).filter fun fv => fv.1.pri = "").map fun fv => fv.2).flatten).length =
            rows.length * (ty.filter fun f => f.pri = "").length := by
  have hK : ∀ r ∈ rows.map (fun r => ty.zip r),
      (r.filter fun fv => fv.1.pri = "").length = (ty.filter fun f => f.pri = "").length := by
    intro r hr
    obtain ⟨row, hrow, rfl⟩ := List.mem_map.1 hr
    exact zip_nonGen_length ty row (hwf row hrow)
  have hparen : "(" ++ Join ((groupsFrom 0 (rows.map fun r => ty.zip r)).map
        fun g => Join g ",") "),(" ++ ")" =
      Join ((groupsFrom 0 (rows.map fun r => ty.zip r)).map
        fun g => "(" ++ Join g "," ++ ")") "," := by
    cases rows with
    | nil => exact absurd rfl hM
    | cons row rest =>
      simp only [List.map_cons, groupsFrom, Join_paren, List.map_map, Function.comp_def]
  have hcols : ∀ c ∈ ty.map externalName, Contains c "$VALUES" = false := by
    intro c hcm
    obtain ⟨f, hf, rfl⟩ := List.mem_map.1 hcm
    exact hcV f hf
  have hstmt : saveText (parseSQL .opTypeCreate p).1 (ty.map externalName)
      ((groupsFrom 0 (rows.map fun r => ty.zip r)).map fun g => Join g ",") =
      "INSERT INTO " ++ quoted p.tableName ++ "("
        ++ Join (ty.map externalName) "," ++ ") VALUES "
        ++ Join ((groupsFrom 0 (rows.map fun r => ty.zip r)).map
          fun g => "(" ++ Join g "," ++ ")") "," := by
    rw [parseSQL_create, saveText_insert p.tableName _ _ htF htV hcols]
    unfold insertStatement
    rw [← hparen]
    apply String.ext
    simp
  refine ⟨groupsFrom 0 (rows.map fun r => ty.zip r), _, ?_, ?_, ?_, rfl, ?_, ?_⟩
  · simp [groupsFrom_length]
  · intro g hg
    obtain ⟨m, r, hr, rfl⟩ := groupsFrom_mem _ _ _ hg
    obtain ⟨row, hrow, rfl⟩ := List.mem_map.1 hr
    have hl := hwf row hrow
    refine ⟨by simp [posFrom_length, hl], ?_, ?_⟩
    · intro j f hj
      have hjl : j < row.length := by
        rw [hl]
        exact (List.getElem?_eq_some.1 hj).1
      have hz : (ty.zip row)[j]? = some (f, row[j]) := by
        rw [List.getElem?_zip_eq_some]
        exact ⟨hj, List.getElem?_eq_getElem hjl⟩
      exact posFrom_get m (ty.zip row) j (f, row[j]) hz
    · rw [posFrom_filter, List.length_map, List.length_range]
      exact zip_nonGen_length ty row hl
  · rw [groupsFrom_filter, sum_map_const _ _ _ hK, List.length_map]
    simp only [Nat.zero_add]
  · have hc2 : (parseSQL .opTypeCreate p).2.ctx = true := by
      rw [parseSQL_create]
      exact hctx
    rw [← hstmt]
    cases rows with
    | nil => exact absurd rfl hM
    | cons row rest =>
      simp only [Save, saveBuild_slice _ ty row rest (hwf row (by simp)) hexp]
      exact execTail_trace _ _ _ _ _ hc2
  · rw [List.length_flatten, List.map_map]
    have := sum_map_const rows
      (fun r => ((ty.zip r).filter fun fv => fv.1.pri = "").length)
      ((ty.filter fun f => f.pri = "").length)
      (fun r hr => zip_nonGen_length ty r (hwf r hr))
    simpa [Function.comp_def] using this

/-- C11 at the two records of `TestPgTable_Save`: the statement holds the two groups
`(DEFAULT,$1,$2,$3,$4,$5,$6,$7),(DEFAULT,$8,$9,$10,$11,$12,$13,$14)` after one column
list, and it is executed with 14 arguments. -/
theorem Save_bulk_witness :
    (∃ stmt : String,
        stmt = "INSERT INTO \"app\"(id,name,desc,address,created_date,changed_date,"
            ++ "deleted_date,is_first) VALUES (DEFAULT,$1,$2,$3,$4,$5,$6,$7),"
            ++ "(DEFAULT,$8,$9,$10,$11,$12,$13,$14)"
          ∧ (Save okDB testSlice (Pg.Table "app" meta.zero)).trace =
            [.prepare stmt,
              .exec stmt [.str "aaa", .str "aaa", .str "bbb", .time "t1", .time "t2", .null,
                .bool false, .str "ddd", .str "eee", .str "ggg", .time "t3", .time "t4", .null,
                .bool false]])
      ∧ ∃ groups : List (List String),
        groups.length = 2
          ∧ groups.flatten.filter (fun x => x ≠ "DEFAULT") =
            (List.range (2 * 7)).map (fun i => dollar (i + 1)) := by
  refine ⟨⟨_, rfl, by decide⟩, ?_⟩
  obtain ⟨groups, stmt, h1, _, h3, _⟩ :=
    Save_bulk okDB (Pg.Table "app" meta.zero) ((testRecord "" "" "" "" "").map fun fv => fv.1)
      [(testRecord "aaa" "aaa" "bbb" "t1" "t2").map fun fv => fv.2,
        (testRecord "ddd" "eee" "ggg" "t3" "t4").map fun fv => fv.2]
      (by decide) (by decide) rfl (by decide) (by decide) (by decide) (by decide)
  exact ⟨groups, h1, h3⟩

/-- C11 fails as stated in four ways. For `M = 0`, `Save` of a pointer to an empty slice
prepares `INSERT INTO "app"() VALUES ()`, one empty parenthesised group after an empty
column list, where the claim has no group and the column list of a first record. On a
handle used again after a terminal call, with no `Table` call, `Save` panics on the nil
context and prepares nothing. A non-generated field that is not exported makes
`Interface()` panic. A column named `$VALUES`, and a table name that holds `$FIELDS` or
`$VALUES`, are replaced by `strings.ReplaceAll`: the column list becomes
`((DEFAULT,$1),(DEFAULT,$2),name)`. -/
theorem Save_bulk_counterexample :
    ((Save okDB (.structSlicePtr keyNameType []) (Pg.Table "app" meta.zero)).trace =
          [.prepare "INSERT INTO \"app\"() VALUES ()", .exec "INSERT INTO \"app\"() VALUES ()" []]
        ∧ "INSERT INTO \"app\"() VALUES ()" ≠
          "INSERT INTO \"app\"(" ++ Join (keyNameType.map externalName) "," ++ ") VALUES "
            ++ Join (([] : List String).map fun g => "(" ++ g ++ ")") ",")
      ∧ ((Save okDB (.structSlicePtr keyNameType [[.int 0, .str "a"], [.int 0, .str "b"]])
            (Pg.clear (Pg.Table "app" meta.zero))).ret = .panic
        ∧ (Save okDB (.structSlicePtr keyNameType [[.int 0, .str "a"], [.int 0, .str "b"]])
            (Pg.clear (Pg.Table "app" meta.zero))).trace = [])
      ∧ ((Save okDB (.structSlicePtr (hiddenRecord.map fun fv => fv.1)
            [[.int 0, .str "a"], [.int 0, .str "b"]]) (Pg.Table "app" meta.zero)).ret = .panic
        ∧ (Save okDB (.structSlicePtr (hiddenRecord.map fun fv => fv.1)
            [[.int 0, .str "a"], [.int 0, .str "b"]]) (Pg.Table "app" meta.zero)).trace = [])
      ∧ (Save okDB (.structSlicePtr (valuesColumnRecord.map fun fv => fv.1)
          [[.int 0, .str "a"], [.int 0, .str "b"]]) (Pg.Table "app" meta.zero)).trace.head? =
        some (.prepare ("INSERT INTO \"app\"((DEFAULT,$1),(DEFAULT,$2),name) "
          ++ "VALUES (DEFAULT,$1),(DEFAULT,$2)"))
      ∧ (Save okDB (.structSlicePtr keyNameType [[.int 0, .str "a"], [.int 0, .str "b"]])
          (Pg.Table "t$FIELDS" meta.zero)).trace.head? =
        some (.prepare "INSERT INTO \"t(id,name)\"(id,name) VALUES (DEFAULT,$1),(DEFAULT,$2)")
      ∧ (Save okDB (.structSlicePtr keyNameType [[.int 0, .str "a"], [.int 0, .str "b"]])
          (Pg.Table "t$VALUES" meta.zero)).trace.head? =
        some (.prepare ("INSERT INTO \"t(DEFAULT,$1),(DEFAULT,$2)\"(id,name) "
          ++ "VALUES (DEFAULT,$1),(DEFAULT,$2)")) := by
  decide

/-! ## Claims C21 to C23 -/

theorem Find_checked (db : DB) (q : RowsDB) (dest : Dest) (p : meta) (row : Rows)
    (columns : List String) (hctx : p.ctx = true)
    (hp : db.PrepareContext (parseSQL .opTypeQuery p).1 = none)
    (hq : q.QueryContext (parseSQL .opTypeQuery p).1 (parseSQL .opTypeQuery p).2.filler =
      .ok row)
    (hc : row.Columns = .ok columns) :
    (∀ (flag : Bool) (err : String), checkIsSlice dest = .returns flag (some err) →
        (Find db q dest p).ret = .error ("find:" ++ err) ∧ (Find db q dest p).dest = dest)
      ∧ (checkIsSlice dest = .panics →
        (Find db q dest p).ret = .panic ∧ (Find db q dest p).dest = dest) := by
  have hc2 : (parseSQL .opTypeQuery p).2.ctx = true := by
    simp only [parseSQL, writeWhere_eq]
    exact hctx
  constructor
  · intro flag err he
    simp only [Find, hc2, if_true, hp, hq, hc, he, and_self]
  · intro he
    simp only [Find, hc2, if_true, hp, hq, hc, he, and_self]

/-- C21 (amended): the untyped nil apart, on which the check panics in
`reflect.TypeOf(dest).Kind()`, `checkIsSlice` returns its type-contract error exactly when
the destination is neither a non-nil pointer to a struct nor a non-nil pointer to a slice;
otherwise it returns no error and reports `isSlice = true` iff the pointee is a slice.
`Find` checks the destination after the statement was prepared, the query made and the
columns read: when the context is set (as `Table` leaves it) and these three succeed, it
returns that error, prefixed `find:`, for every non-conforming destination, and leaves the
destination as it was; for the untyped nil it panics. -/
theorem checkIsSlice_contract (db : DB) (q : RowsDB) (dest : Dest) (p : meta) (row : Rows)
    (columns : List String) (hctx : p.ctx = true)
    (hp : db.PrepareContext (parseSQL .opTypeQuery p).1 = none)
    (hq : q.QueryContext (parseSQL .opTypeQuery p).1 (parseSQL .opTypeQuery p).2.filler =
      .ok row)
    (hc : row.Columns = .ok columns) :
    (dest = .untypedNil →
        checkIsSlice dest = .panics ∧ (Find db q dest p).ret = .panic
          ∧ (Find db q dest p).dest = dest)
      ∧ (dest ≠ .untypedNil →
        (checkIsSlice dest =
              .returns false (some "checkIsSlice:dest must be a slice/struct pointer") ↔
            (dest.pointsToStruct = false ∧ dest.pointsToSlice = false))
          ∧ ((dest.pointsToStruct = true ∨ dest.pointsToSlice = true) →
            checkIsSlice dest = .returns dest.pointsToSlice none)
          ∧ ((dest.pointsToStruct = false ∧ dest.pointsToSlice = false) →
            (Find db q dest p).ret =
                .error "find:checkIsSlice:dest must be a slice/struct pointer"
              ∧ (Find db q dest p).dest = dest)) := by
  have hF := Find_checked db q dest p row columns hctx hp hq hc
  constructor
  · intro hd
    have he : checkIsSlice dest = .panics := by
      subst hd
      rfl
    exact ⟨he, hF.2 he⟩
  · intro hd
    refine ⟨?_, ?_, ?_⟩
    · cases dest <;> simp_all [checkIsSlice, Dest.pointsToStruct, Dest.pointsToSlice]
    · cases dest <;> simp [checkIsSlice, Dest.pointsToStruct, Dest.pointsToSlice]
    · intro h
      have he : checkIsSlice dest =
          .returns false (some "checkIsSlice:dest must be a slice/struct pointer") := by
        cases dest <;> simp_all [checkIsSlice, Dest.pointsToStruct, Dest.pointsToSlice]
      exact hF.1 _ _ he

/-- C21 at a pointer to an `int` on a database that answers every call: `Find` returns
`find:checkIsSlice:dest must be a slice/struct pointer`, after the statement was prepared
and the query made. -/
theorem checkIsSlice_contract_witness :
    (Find okDB twoRows .otherPtr findQuery).ret =
        .error "find:checkIsSlice:dest must be a slice/struct pointer"
      ∧ (Find okDB twoRows .otherPtr findQuery).trace =
        [.prepare "SELECT * FROM \"app\" WHERE id=$1 OR id=$2 AND type=$3 ORDER BY id desc LIMIT 5",
          .query "SELECT * FROM \"app\" WHERE id=$1 OR id=$2 AND type=$3 ORDER BY id desc LIMIT 5"
            [.int 62, .int 1, .str "normal"]] :=
  ⟨(((checkIsSlice_contract okDB twoRows .otherPtr findQuery
      ⟨.ok ["id", "name"], [[.int 1, .str "a"], [.int 2, .str "b"]]⟩ ["id", "name"]
      rfl rfl rfl rfl).2 (by decide)).2.2 ⟨rfl, rfl⟩).1, by decide⟩

/-- C21 fails as stated in four ways. When the database fails first, on a handle whose
`PrepareContext` fails, `Find` into a pointer to an `int` returns
`find:prepare sql error:boom`, not the error of `checkIsSlice`. On a handle used again
after a terminal call, with no `Table` call, `Find` panics on the nil context. For the
untyped nil the check itself panics, and so does `Find`. And a nil pointer to a struct is,
by its type, a pointer to a record, yet the check returns its error for it. -/
theorem checkIsSlice_contract_counterexample :
    (checkIsSlice .otherPtr =
          .returns false (some "checkIsSlice:dest must be a slice/struct pointer")
        ∧ (Find failDB twoRows .otherPtr findQuery).ret = .error "find:prepare sql error:boom"
        ∧ (Find failDB twoRows .otherPtr findQuery).ret ≠
          .error "find:checkIsSlice:dest must be a slice/struct pointer")
      ∧ (Find okDB twoRows .otherPtr (Pg.clear findQuery)).ret = .panic
      ∧ (checkIsSlice .untypedNil = .panics
        ∧ (Find okDB twoRows .untypedNil findQuery).ret = .panic)
      ∧ checkIsSlice (.nilStructPtr keyNameType) =
        .returns false (some "checkIsSlice:dest must be a slice/struct pointer") := by
  decide

theorem execTail_congr (name : String) (db : DB) (sql : String) (args : List Value)
    (p p' : meta) (hc : p.ctx = p'.ctx) :
    execTail name db sql args p = execTail name db sql args p' := by
  simp only [execTail, hc, Pg.clear]

/-- C23: the statement text and the argument list that `Save` builds depend only on the
table name and the destination. For any two accumulator states that agree on the table
name, whatever their predicates, projection, sort, group, limit, offset, cursor and
collected arguments, `Save` of the same destination builds the same statement text and the
same argument list (or panics in `reflect` on both); these are what it prepares and
executes when the context is set. When the two states agree on the context too, which is
not among the parts the claim lets differ, `Save` on the same database makes the same calls
and ends the same way; in particular, with the context set, it does what it does on the
scope freshly opened by `Table` on a cleared handle, where no predicate is rendered or
passed and the references are numbered from `$1`. -/
theorem Save_depends_on_table_and_dest (db : DB) (dest : Dest) (p p' : meta)
    (h : p.tableName = p'.tableName) :
    saveBuild (parseSQL .opTypeCreate p).1 dest = saveBuild (parseSQL .opTypeCreate p').1 dest
      ∧ (∀ built : String × List Value,
          saveBuild (parseSQL .opTypeCreate p).1 dest = some built → p.ctx = true →
          (Save db dest p).trace =
            if (db.PrepareContext built.1).isSome then [.prepare built.1]
            else [.prepare built.1, .exec built.1 built.2])
      ∧ (p.ctx = p'.ctx → Save db dest p = Save db dest p')
      ∧ (p.ctx = true →
          (Save db dest p).trace = (Save db dest (Pg.Table p.tableName meta.zero)).trace) := by
  have key : ∀ a b : meta, a.tableName = b.tableName → a.ctx = b.ctx →
      Save db dest a = Save db dest b := by
    intro a b hab hc
    simp only [Save, parseSQL_create, hab]
    cases saveBuild ("INSERT INTO " ++ quoted b.tableName ++ "$FIELDS VALUES $VALUES") dest with
    | none => simp [Pg.clear]
    | some built => exact execTail_congr _ _ _ _ _ _ hc
  refine ⟨by simp only [parseSQL_create, h], ?_, key p p' h, ?_⟩
  · intro built hb hctx
    have hc2 : (parseSQL .opTypeCreate p).2.ctx = true := by
      rw [parseSQL_create]
      exact hctx
    simp only [Save, hb]
    exact execTail_trace _ _ _ _ _ hc2
  · intro hctx
    rw [key p (Pg.Table p.tableName meta.zero) rfl hctx]

/-- C23 at a record of the type `TestTable`, on an accumulator of table `app` that holds
three predicates, a projection, sort, group, limit, offset, cursor 5 and two collected
arguments: the statement and the arguments are those of the fresh scope, with the
references `$1, ..., $7` and no predicate. -/
theorem Save_depends_on_table_and_dest_witness :
    busyState.tableName = (Pg.Table "app" meta.zero).tableName
      ∧ busyState.ctx = (Pg.Table "app" meta.zero).ctx
      ∧ busyState.where_ ≠ [] ∧ busyState.storageCursor = 5
      ∧ (Save okDB (.structPtr (testRecord "aaa" "aaa" "bbb" "t1" "t2")) busyState).trace =
        [.prepare ("INSERT INTO \"app\"(id,name,desc,address,created_date,changed_date,"
            ++ "deleted_date,is_first) VALUES (DEFAULT,$1,$2,$3,$4,$5,$6,$7)"),
          .exec ("INSERT INTO \"app\"(id,name,desc,address,created_date,changed_date,"
            ++ "deleted_date,is_first) VALUES (DEFAULT,$1,$2,$3,$4,$5,$6,$7)")
            [.str "aaa", .str "aaa", .str "bbb", .time "t1", .time "t2", .null,
              .bool false]] :=
  ⟨rfl, rfl, by decide, rfl,
    (congrArg Outcome.trace
      ((Save_depends_on_table_and_dest okDB (.structPtr (testRecord "aaa" "aaa" "bbb" "t1" "t2"))
        busyState (Pg.Table "app" meta.zero) rfl).2.2.1 rfl)).trans (by decide)⟩

theorem lookup_cons_eq (c k : String) (v : Nat) (rest : List (String × Nat)) :
    List.lookup c ((k, v) :: rest) = if c = k then some v else List.lookup c rest := by
  by_cases h : c = k
  · subst h
    simp [List.lookup]
  · have hck : (c == k) = false := by simpa using h
    simp [List.lookup, hck, h]

theorem mapSet_lookup (m : List (String × Nat)) (col : String) (i : Nat) (c : String) :
    (mapSet m col i).lookup c = if c = col then some i else m.lookup c := by
  induction m with
  | nil =>
    rw [mapSet, lookup_cons_eq]
  | cons kv rest ih =>
    obtain ⟨k, v⟩ := kv
    rw [mapSet]
    by_cases hk : k = col
    · subst hk
      rw [if_pos rfl, lookup_cons_eq, lookup_cons_eq]
      by_cases h : c = k <;> simp [h]
    · rw [if_neg hk, lookup_cons_eq, lookup_cons_eq, ih]
      by_cases h : c = k
      · have : ¬ c = col := fun e => hk (h.symm.trans e)
        subst h
        simp [hk]
      · simp [h]

theorem findColumns_lookup_not_mem (cols : List String) (i : Nat) (recv : List Receptacle)
    (m : List (String × Nat)) (c : String) (h : c ∉ cols) :
    (findColumns cols i recv m).2.lookup c = m.lookup c := by
  induction cols generalizing i recv m with
  | nil => rfl
  | cons col rest ih =>
    have hc : c ≠ col := fun e => h (by simp [e])
    have hr : c ∉ rest := fun e => h (List.mem_cons_of_mem _ e)
    rw [findColumns, ih _ _ _ hr, mapSet_lookup, if_neg hc]

theorem findColumns_lookup_get (cols : List String) (i : Nat) (recv : List Receptacle)
    (m : List (String × Nat)) (hn : cols.Nodup) (j : Nat) (c : String)
    (h : cols[j]? = some c) :
    (findColumns cols i recv m).2.lookup c = some (i + j) := by
  induction cols generalizing i recv m j with
  | nil => simp at h
  | cons col rest ih =>
    have hn' := List.nodup_cons.1 hn
    cases j with
    | zero =>
      simp only [List.getElem?_cons_zero, Option.some.injEq] at h
      subst h
      rw [findColumns, findColumns_lookup_not_mem _ _ _ _ _ hn'.1, mapSet_lookup]
      simp
    | succ j =>
      simp only [List.getElem?_cons_succ] at h
      rw [findColumns, ih _ _ _ hn'.2 j h]
      congr 1
      omega

theorem findColumns_length (cols : List String) (i : Nat) (recv : List Receptacle)
    (m : List (String × Nat)) : (findColumns cols i recv m).1.length = recv.length := by
  induction cols generalizing i recv m with
  | nil => rfl
  | cons col rest ih => rw [findColumns, ih, List.length_set]

theorem findColumns_receiver (cols : List String) (i : Nat) (recv : List Receptacle)
    (m : List (String × Nat)) (k : Nat) (hk : k < recv.length) (h1 : i ≤ k)
    (h2 : k < i + cols.length) :
    (findColumns cols i recv m).1[k]? = some .string := by
  induction cols generalizing i recv m with
  | nil => simp at h2; omega
  | cons col rest ih =>
    rw [findColumns]
    by_cases hik : i = k
    · subst hik
      by_cases hr : i + 1 ≤ i
      · omega
      · -- no later step touches index `i`
        have keep : ∀ (cs : List String) (a : Nat) (r : List Receptacle)
            (mm : List (String × Nat)), i < a →
            (findColumns cs a r mm).1[i]? = r[i]? := by
          intro cs
          induction cs with
          | nil => intro a r mm _; rfl
          | cons c cs ihc =>
            intro a r mm ha
            rw [findColumns, ihc (a + 1) _ _ (by omega), List.getElem?_set]
            have : ¬ a = i := by omega
            simp [this]
        rw [keep rest (i + 1) _ _ (by omega), List.getElem?_set]
        simp [hk]
    · exact ih (i + 1) _ _ (by rw [List.length_set]; exact hk) (by omega)
        (by simp only [List.length_cons] at h2; omega)

theorem findFields_length (ty : List Field) (m : List (String × Nat))
    (recv : List Receptacle) : (findFields ty m recv).length = recv.length := by
  induction ty generalizing recv with
  | nil => rfl
  | cons f rest ih =>
    rw [findFields]
    cases m.lookup (if f.json = "" then f.name else f.json) with
    | none => exact ih recv
    | some idx => simp only []; rw [ih, List.length_set]

theorem findFields_untouched (ty : List Field) (m : List (String × Nat))
    (recv : List Receptacle) (k : Nat)
    (h : ∀ f ∈ ty, m.lookup (externalName f) ≠ some k) :
    (findFields ty m recv)[k]? = recv[k]? := by
  induction ty generalizing recv with
  | nil => rfl
  | cons f rest ih =>
    have hf := h f (by simp)
    have hr : ∀ g ∈ rest, m.lookup (externalName g) ≠ some k :=
      fun g hg => h g (List.mem_cons_of_mem _ hg)
    rw [findFields]
    cases hl : m.lookup (if f.json = "" then f.name else f.json) with
    | none => exact ih recv hr
    | some idx =>
      simp only []
      rw [ih _ hr, List.getElem?_set]
      have : ¬ idx = k := by
        intro e
        apply hf
        rw [externalName, hl, e]
      simp [this]

theorem findFields_typed (ty : List Field) (m : List (String × Nat))
    (recv : List Receptacle) (k : Nat) (hk : k < recv.length) (r : Receptacle)
    (hex : ∃ f ∈ ty, m.lookup (externalName f) = some k)
    (hall : ∀ g ∈ ty, m.lookup (externalName g) = some k → receptacleOf g.typ = r) :
    (findFields ty m recv)[k]? = some r := by
  induction ty generalizing recv with
  | nil =>
    obtain ⟨f, hf, _⟩ := hex
    simp at hf
  | cons g rest ih =>
    have hallr : ∀ x ∈ rest, m.lookup (externalName x) = some k → receptacleOf x.typ = r :=
      fun x hx => hall x (List.mem_cons_of_mem _ hx)
    by_cases hrest : ∃ f ∈ rest, m.lookup (externalName f) = some k
    · rw [findFields]
      cases m.lookup (if g.json = "" then g.name else g.json) with
      | none => exact ih recv hk hrest hallr
      | some idx =>
        exact ih _ (by rw [List.length_set]; exact hk) hrest hallr
    · have hno : ∀ x ∈ rest, m.lookup (externalName x) ≠ some k :=
        fun x hx e => hrest ⟨x, hx, e⟩
      obtain ⟨f, hf, hfl⟩ := hex
      have hfg : f = g := by
        rcases List.mem_cons.1 hf with e | e
        · exact e
        · exact absurd hfl (hno f e)
      subst hfg
      have hr := hall f (by simp) hfl
      have hl : m.lookup (if f.json = "" then f.name else f.json) = some k := hfl
      rw [findFields, hl]
      simp only []
      rw [findFields_untouched _ _ _ _ hno, List.getElem?_set, hr]
      simp [hk]

theorem findFields_skip (ty : List Field) (m : List (String × Nat))
    (recv : List Receptacle) :
    findFields ty m recv =
      findFields (ty.filter fun f => (m.lookup (externalName f)).isSome) m recv := by
  induction ty generalizing recv with
  | nil => rfl
  | cons f rest ih =>
    cases hl : m.lookup (externalName f) with
    | none =>
      have hl' : m.lookup (if f.json = "" then f.name else f.json) = none := hl
      rw [List.filter_cons_of_neg (by simp [hl]), findFields, hl']
      exact ih recv
    | some idx =>
      have hl' : m.lookup (if f.json = "" then f.name else f.json) = some idx := hl
      rw [List.filter_cons_of_pos (by simp [hl]), findFields, findFields, hl']
      exact ih _

theorem findColumns_lookup_mem (cols : List String) (recv : List Receptacle)
    (hn : cols.Nodup) (c : String) (k : Nat)
    (h : (findColumns cols 0 recv []).2.lookup c = some k) : cols[k]? = some c := by
  by_cases hc : c ∈ cols
  · obtain ⟨j, hj⟩ := List.mem_iff_getElem?.1 hc
    have := findColumns_lookup_get cols 0 recv [] hn j c hj
    rw [this] at h
    simp only [Nat.zero_add, Option.some.injEq] at h
    rw [← h]
    exact hj
  · rw [findColumns_lookup_not_mem _ _ _ _ _ hc] at h
    simp [List.lookup] at h

/-- C22 (amended). When the returned column names are pairwise distinct and the external
names (json tag, else field name) of the destination fields are pairwise distinct, the scan
surface built by `Find` has one receptacle per returned column; the column matched by a
destination field gets the receptacle chosen by that field's declared type (the ten integer
type names give the 64-bit integer, `float32` and `float64` the 64-bit float, `time.Time`
the timestamp, `*time.Time` the optional timestamp, `bool` the boolean, `*string` the
optional text, any other type name the text receptacle); a column matched by no destination
field gets a text receptacle; and destination fields with no matching column are skipped:
the surface is the one built from the matching fields alone. -/
theorem scanSurface_receptacles (columns : List String) (ty : List Field)
    (hc : columns.Nodup) (hf : (ty.map externalName).Nodup) :
    (scanSurface columns ty).1.length = columns.length ∧
    (∀ (i : Nat) (c : String) (f : Field), columns[i]? = some c → f ∈ ty →
        externalName f = c →
        (scanSurface columns ty).1[i]? = some (receptacleOf f.typ)) ∧
    (∀ (i : Nat) (c : String), columns[i]? = some c →
        (∀ f ∈ ty, externalName f ≠ c) →
        (scanSurface columns ty).1[i]? = some .string) ∧
    ((∀ t ∈ ["int", "uint", "int8", "int16", "int32", "int64", "uint8", "uint16", "uint32",
          "uint64"], receptacleOf t = .int64) ∧
      receptacleOf "float32" = .float64 ∧ receptacleOf "float64" = .float64 ∧
      receptacleOf "time.Time" = .time ∧ receptacleOf "*time.Time" = .timePtr ∧
      receptacleOf "bool" = .bool ∧ receptacleOf "*string" = .stringPtr ∧
      (∀ t : String, t ∉ namedTypes → receptacleOf t = .string)) ∧
    scanSurface columns ty =
      scanSurface columns (ty.filter fun f => decide (externalName f ∈ columns)) := by
  have hlen : (findColumns columns 0 (List.replicate columns.length .nil) []).1.length
      = columns.length := by
    rw [findColumns_length, List.length_replicate]
  have hbase : ∀ k, k < columns.length →
      (findColumns columns 0 (List.replicate columns.length .nil) []).1[k]?
        = some Receptacle.string := by
    intro k hk
    exact findColumns_receiver columns 0 _ [] k (by rw [List.length_replicate]; exact hk)
      (Nat.zero_le _) (by omega)
  have hlt : ∀ (i : Nat) (c : String), columns[i]? = some c → i < columns.length := by
    intro i c h
    by_contra hge
    rw [List.getElem?_eq_none (by omega)] at h
    cases h
  refine ⟨?_, ?_, ?_, ?_, ?_⟩
  · show (findFields ty _ _).length = _
    rw [findFields_length, hlen]
  · intro i c f hi hmem hname
    show (findFields ty _ _)[i]? = _
    have hl : (findColumns columns 0 (List.replicate columns.length .nil) []).2.lookup
        (externalName f) = some i := by
      rw [hname, findColumns_lookup_get columns 0 _ [] hc i c hi, Nat.zero_add]
    apply findFields_typed ty _ _ i (by rw [hlen]; exact hlt i c hi) _ ⟨f, hmem, hl⟩
    intro g hg hgl
    have hgc := findColumns_lookup_mem columns _ hc _ _ hgl
    rw [hi, Option.some.injEq] at hgc
    have hgf : g = f :=
      List.inj_on_of_nodup_map hf hg hmem (hgc.symm.trans hname.symm)
    rw [hgf]
  · intro i c hi hno
    show (findFields ty _ _)[i]? = _
    rw [findFields_untouched ty _ _ i, hbase i (hlt i c hi)]
    intro g hg hgl
    have hgc := findColumns_lookup_mem columns _ hc _ _ hgl
    rw [hi, Option.some.injEq] at hgc
    exact hno g hg hgc.symm
  · refine ⟨by decide, by decide, by decide, by decide, by decide, by decide, by decide, ?_⟩
    intro t ht
    simp only [namedTypes, List.mem_cons, List.mem_singleton, List.not_mem_nil, or_false,
      not_or] at ht
    obtain ⟨h1, h2, h3, h4, h5, h6, h7, h8, h9, h10, h11, h12, h13, h14, h15, h16⟩ := ht
    simp [receptacleOf, h1, h2, h3, h4, h5, h6, h7, h8, h9, h10, h11, h12, h13, h14, h15, h16]
  · show (findFields ty _ _, _) = (findFields _ _ _, _)
    rw [findFields_skip ty]
    congr 2
    apply List.filter_congr
    intro g _
    by_cases hg : externalName g ∈ columns
    · obtain ⟨j, hj⟩ := List.mem_iff_getElem?.1 hg
      rw [findColumns_lookup_get columns 0 _ [] hc j _ hj]
      simp [hg]
    · rw [findColumns_lookup_not_mem _ _ _ _ _ hg]
      simp [hg, List.lookup]

/-- C22, witness: the columns `name`, `id`, `extra`, `deleted_date`, `is_first` against the
record type of the test table. -/
theorem scanSurface_receptacles_witness :
    ["name", "id", "extra", "deleted_date", "is_first"].Nodup ∧
    (((testRecord "" "" "" "" "").map fun fv => fv.1).map externalName).Nodup ∧
    (scanSurface ["name", "id", "extra", "deleted_date", "is_first"]
        ((testRecord "" "" "" "" "").map fun fv => fv.1)).1.length = 5 ∧
    (scanSurface ["name", "id", "extra", "deleted_date", "is_first"]
        ((testRecord "" "" "" "" "").map fun fv => fv.1)).1[1]? = some .int64 ∧
    (scanSurface ["name", "id", "extra", "deleted_date", "is_first"]
        ((testRecord "" "" "" "" "").map fun fv => fv.1)).1[2]? = some .string ∧
    (scanSurface ["name", "id", "extra", "deleted_date", "is_first"]
        ((testRecord "" "" "" "" "").map fun fv => fv.1)).1
      = [.string, .int64, .string, .timePtr, .bool] :=
  ⟨by decide, by decide,
    (scanSurface_receptacles ["name", "id", "extra", "deleted_date", "is_first"]
      ((testRecord "" "" "" "" "").map fun fv => fv.1) (by decide) (by decide)).1,
    (scanSurface_receptacles ["name", "id", "extra", "deleted_date", "is_first"]
      ((testRecord "" "" "" "" "").map fun fv => fv.1) (by decide) (by decide)).2.1
      1 "id" ⟨"Id", "id", "true", "int", true⟩ rfl (by decide) rfl,
    (scanSurface_receptacles ["name", "id", "extra", "deleted_date", "is_first"]
      ((testRecord "" "" "" "" "").map fun fv => fv.1) (by decide) (by decide)).2.2.1
      2 "extra" rfl (by decide),
    by decide⟩

/-- C22, counterexample: with the column `id` returned twice, the first `id` column is
matched by the field `Id` of type `int` and yet gets a text receptacle; and with two fields
of one external name `x`, the column `x` gets the receptacle of the later field, not the
one chosen by the type of the earlier field that matches it too. -/
theorem scanSurface_receptacles_counterexample :
    (["id", "name", "id"][0]? = some "id" ∧
      (⟨"Id", "id", "true", "int", true⟩ : Field) ∈ keyNameType ∧
      externalName ⟨"Id", "id", "true", "int", true⟩ = "id" ∧
      receptacleOf "int" = .int64 ∧
      (scanSurface ["id", "name", "id"] keyNameType).1 = [.string, .string, .int64]) ∧
    ((⟨"A", "x", "", "int", true⟩ : Field) ∈ twoFieldsOneName ∧
      externalName ⟨"A", "x", "", "int", true⟩ = "x" ∧
      receptacleOf "int" = .int64 ∧
      (scanSurface ["x"] twoFieldsOneName).1 = [.string]) := by
  decide

end Sqlx
